import Mathlib

/-!
# apm-aws-lambda: the Telemetry API event pipeline

A shallow embedding of `telemetryapi/event.go`, `telemetryapi/route_handlers.go`,
`telemetryapi/functionlogs.go`, `telemetryapi/subscribe.go`, `logsapi/event.go`
and `app/aws.go`, and theorems about it.

Conventions of the embedding

* A Go channel is the list of the values that pass through it, oldest first.
* A `select` between a channel operation and `ctx.Done()` is resolved by an
  oracle (`Ctx`, or the `cancelled` argument of the request handler): the Go
  runtime picks any ready case, so every resolution is a possible execution.
* `time.Time` is an instant, an integer (nanoseconds since the epoch in the
  examples); numeric fields are the rationals they denote, and what a field
  stores for a JSON number, or that it refuses it, is a parameter
  (`Lib.storeNumber`): the numeric types are declared in `metrics.go`.
* Bytes that are handed to `encoding/json` are the JSON value they spell, or
  nothing when they do not spell one (`Option JSON`).
* Functions of other packages are parameters (`Lib`, `ProcessPlatformReport`,
  the lifecycler of `Client`).
* Documents are read back by a reader of JSON text written from RFC 8259
  (`parseJSON`), which is on the side of the specification.
-/

namespace telemetryapi

/-! ## Data model (`event.go`) -/

/-- An instant (`time.Time`). -/
abbrev GoTime := Int

/-- A Go `error` value, by its message. -/
abbrev GoError := String

/-- TelEventType represents the log type that is received in the log messages. -/
abbrev TelEventType := String

def PlatformInitStart : TelEventType := "platform.initStart"
def PlatformInitRuntimeDone : TelEventType := "platform.initRuntimeDone"
def PlatformInitReport : TelEventType := "platform.initReport"
def PlatformRuntimeDone : TelEventType := "platform.runtimeDone"
def PlatformFault : TelEventType := "platform.fault"
def PlatformReport : TelEventType := "platform.report"
def PlatformLogsDropped : TelEventType := "platform.logsDropped"
def PlatformStart : TelEventType := "platform.start"
def PlatformRestoreStart : TelEventType := "platform.restoreStart"
def PlatformRestoreRuntimeDone : TelEventType := "platform.restoreRuntimeDone"
def PlatformRestoreReport : TelEventType := "platform.restoreReport"
def PlatformTelemetrySubscription : TelEventType := "platform.telemetrySubscription"
def FunctionLog : TelEventType := "function"
def ExtensionLog : TelEventType := "extension"

/-- Modelled from the spec: `PlatformMetrics` is declared in `metrics.go`, which
is not among the sources; the spec gives its five numeric fields, all
zero-valued when absent. -/
structure PlatformMetrics where
  DurationMs : Rat := 0
  BilledDurationMs : Rat := 0
  MemorySizeMB : Rat := 0
  MaxMemoryUsedMB : Rat := 0
  InitDurationMs : Rat := 0
  deriving DecidableEq

/-- TelEventRecord is a sub-object in a Telemetry API event. -/
structure TelEventRecord where
  RequestID : String := ""
  Status : String := ""
  Metrics : PlatformMetrics := {}
  deriving DecidableEq

/-- TelEvent represents an event received from the Telemetry API (the field
`Type` is `Typ` here). -/
structure TelEvent where
  Time : GoTime := 0
  Typ : TelEventType := ""
  StringRecord : String := ""
  Record : TelEventRecord := {}
  deriving DecidableEq

/-- Modelled from the spec: `extension.NextEventResponse` is declared in the
`extension` package, which is not among the sources; the spec describes it as
the prior invocation's identifying metadata, its request id and ARN. -/
structure NextEventResponse where
  RequestID : String := ""
  InvokedFunctionArn : String := ""
  deriving DecidableEq

/-! ## Collaborators outside the repository sources -/

/-- The library functions the code calls, as parameters. -/
structure Lib where
  /-- The text `fastjson.Writer.String` appends for a string: quoted and escaped. -/
  quote : String → String
  /-- The text `model.Time.MarshalFastJSON` appends, and the error it returns. -/
  marshalTime : GoTime → String × Option GoError
  /-- The result of `time.Time.UnmarshalJSON` on a JSON string with this value. -/
  parseTime : String → Except GoError GoTime
  /-- The case-insensitive match of `encoding/json` between a field name and an
  object key, tried when no field has exactly the key as its name. -/
  equalFold : String → String → Bool
  /-- What `encoding/json` stores in the numeric field of `PlatformMetrics` with
  this name for a JSON number: the value of the field afterwards, or `none` when
  the number does not fit the Go type of the field (an `UnmarshalTypeError`). The
  types of the fields are declared in `metrics.go`, which is not among the
  sources. -/
  storeNumber : String → Rat → Option Rat

/-- The part of `Client` that `ProcessEvents` uses besides the channel and the
logger: the lifecycler, by the result of `OnLambdaLogRuntimeDone`. -/
structure Client where
  invocationLifecycler : String → String → GoTime → Option GoError

/-- Resolution of the two `select` statements of `ProcessEvents`, by the pass of
the loop: `doneAtRecv k` says that pass `k` takes `<-ctx.Done()` instead of
receiving an event, `doneAtSend k` that a send on `dataChan` attempted in pass
`k` loses against `<-ctx.Done()`. -/
structure Ctx where
  doneAtRecv : Nat → Bool
  doneAtSend : Nat → Bool

/-- A context that is never cancelled. -/
def Ctx.background : Ctx := ⟨fun _ => false, fun _ => false⟩

/-! ## Function-log documents (`functionlogs.go`) -/

/-- The buffer of a `fastjson.Writer`. -/
structure Writer where
  buf : String := ""

def Writer.RawString (w : Writer) (s : String) : Writer := ⟨w.buf ++ s⟩

def Writer.RawByte (w : Writer) (c : Char) : Writer := ⟨w.buf.push c⟩

def Writer.Str (L : Lib) (w : Writer) (s : String) : Writer := ⟨w.buf ++ L.quote s⟩

def Writer.Bytes (w : Writer) : String := w.buf

/-- The `faas` struct: a subset of the model FAAS, without `coldstart`. -/
structure faas where
  ID : String
  Execution : String

structure telemetryLine where
  Timestamp : GoTime
  Message : String
  FAAS : Option faas

structure telemetryContainer where
  Telemetry : telemetryLine

def faas.MarshalFastJSON (L : Lib) (f : faas) (w : Writer) : Writer × Option GoError :=
  let w := w.RawString "\x7b\"id\":"
  let w := w.Str L f.ID
  let w := w.RawString ",\"execution\":"
  let w := w.Str L f.Execution
  let w := w.RawByte '\x7d'
  (w, none)

def telemetryLine.MarshalFastJSON (L : Lib) (t : telemetryLine) (w : Writer) :
    Writer × Option GoError :=
  let firstErr : Option GoError := none
  let w := w.RawString "\x7b\"message\":"
  let w := w.Str L t.Message
  let w := w.RawString ",\"@timestamp\":"
  let w := w.RawString (L.marshalTime t.Timestamp).1
  let err := (L.marshalTime t.Timestamp).2
  let firstErr := if err.isSome && firstErr.isNone then err else firstErr
  match t.FAAS with
  | some f =>
    let w := w.RawString ",\"faas\":"
    let r := f.MarshalFastJSON L w
    let firstErr := if r.2.isSome && firstErr.isNone then r.2 else firstErr
    (r.1.RawByte '\x7d', firstErr)
  | none => (w.RawByte '\x7d', firstErr)

def telemetryContainer.MarshalFastJSON (L : Lib) (tc : telemetryContainer) (json : Writer) :
    Writer × Option GoError :=
  let json := json.RawString "\x7b\"telemetry\":"
  let r := tc.Telemetry.MarshalFastJSON L json
  match r.2 with
  | some err => (r.1, some err)
  | none => (r.1.RawByte '\x7d', none)

/-- ProcessFunctionTelemetry processes the `function` telemetry line and returns
the JSON body for it; an error when marshalling fails. -/
def ProcessFunctionTelemetry (L : Lib) (requestID : String) (invokedFnArn : String)
    (telemetry : TelEvent) : Except GoError String :=
  let tc : telemetryContainer :=
    { Telemetry := { Timestamp := telemetry.Time, Message := telemetry.StringRecord, FAAS := none } }
  let tc : telemetryContainer :=
    { tc with Telemetry := { tc.Telemetry with
        FAAS := some { ID := invokedFnArn, Execution := requestID } } }
  let jsonWriter : Writer := {}
  match tc.MarshalFastJSON L jsonWriter with
  | (_, some err) => .error err
  | (w, none) => .ok w.Bytes

/-! ## The correlation engine (`event.go`, `ProcessEvents`) -/

inductive LogLevel where
  | debug | warn | error
  deriving DecidableEq

/-- What one run of `ProcessEvents` has done so far: the local variable
`platformStartReqID`, the documents sent on `dataChan`, the calls of
`OnLambdaLogRuntimeDone`, and the log lines (level and format string). -/
structure LoopState where
  platformStartReqID : String := ""
  dataChan : List String := []
  runtimeDoneCalls : List (String × String × GoTime) := []
  logs : List (LogLevel × String) := []

def LoopState.log (st : LoopState) (lvl : LogLevel) (msg : String) : LoopState :=
  { st with logs := st.logs ++ [(lvl, msg)] }

/-- The inner `select`: send `doc` on `dataChan`, unless `<-ctx.Done()` is taken. -/
def LoopState.send (st : LoopState) (done : Bool) (doc : String) : LoopState :=
  if done then st else { st with dataChan := st.dataChan ++ [doc] }

/-- The body of `case telEvent := <-tc.telChannel:`: the state after the event,
and whether `ProcessEvents` returns from inside the switch. -/
def processEvent (L : Lib)
    (ProcessPlatformReport : NextEventResponse → TelEvent → Except GoError String)
    (tc : Client) (requestID : String) (invokedFnArn : String)
    (prevEvent : Option NextEventResponse) (isShutdown : Bool)
    (done : Bool) (st : LoopState) (telEvent : TelEvent) : LoopState × Bool :=
  let st := st.log .debug "Received telemetry event %v for request ID %s"
  if telEvent.Typ = PlatformStart then
    ({ st with platformStartReqID := telEvent.Record.RequestID }, false)
  else if telEvent.Typ = PlatformRuntimeDone then
    let err := tc.invocationLifecycler telEvent.Record.RequestID telEvent.Record.Status
      telEvent.Time
    let st := { st with runtimeDoneCalls := st.runtimeDoneCalls ++
      [(telEvent.Record.RequestID, telEvent.Record.Status, telEvent.Time)] }
    let st := if err.isSome then
      st.log .warn "Failed to finalize invocation with request ID %s: %v" else st
    if !isShutdown && telEvent.Record.RequestID = requestID then
      (st.log .debug
        "Processed runtime done event for reqID %s as the last log event for the invocation",
        true)
    else (st, false)
  else if telEvent.Typ = PlatformReport then
    match prevEvent with
    | some prev =>
      if telEvent.Record.RequestID = prev.RequestID then
        let st := st.log .debug "Received platform report for %s"
        let st := match ProcessPlatformReport prev telEvent with
          | .error _ => st.log .error "Error processing Lambda platform metrics: %v"
          | .ok processedMetrics => st.send done processedMetrics
        if isShutdown then
          (st.log .debug
            "Processed platform report event for reqID %s as the last log event before shutdown",
            true)
        else (st, false)
      else (st.log .warn "Report event request id didn't match the previous event id", false)
    | none => (st.log .warn "Report event request id didn't match the previous event id", false)
  else if telEvent.Typ = PlatformLogsDropped then
    (st.log .warn "Telemetry events dropped due to extension falling behind: %v", false)
  else if telEvent.Typ = FunctionLog then
    match ProcessFunctionTelemetry L st.platformStartReqID invokedFnArn telEvent with
    | .error _ => (st.log .warn "Error processing function event : %v", false)
    | .ok processedEvent => (st.send done processedEvent, false)
  else (st, false)

/-- How a run over the events delivered so far stands: it returned from the
switch (`completed`), it returned on `<-ctx.Done()` (`interrupted`), or it is
blocked in the outer `select` with the channel drained (`waiting`). -/
inductive Exit where
  | completed | interrupted | waiting
  deriving DecidableEq

structure Run where
  state : LoopState
  exit : Exit
  /-- The events still in `telChannel`. -/
  rest : List TelEvent

/-- The `for` loop of `ProcessEvents` from pass `k` in state `st`. -/
def processLoop (L : Lib)
    (ProcessPlatformReport : NextEventResponse → TelEvent → Except GoError String)
    (tc : Client) (ctx : Ctx) (requestID : String) (invokedFnArn : String)
    (prevEvent : Option NextEventResponse) (isShutdown : Bool) :
    Nat → LoopState → List TelEvent → Run
  | k, st, [] =>
    if ctx.doneAtRecv k then
      ⟨st.log .debug
        "Current invocation over. Interrupting telemetry events processing goroutine",
        .interrupted, []⟩
    else ⟨st, .waiting, []⟩
  | k, st, telEvent :: telChannel =>
    if ctx.doneAtRecv k then
      ⟨st.log .debug
        "Current invocation over. Interrupting telemetry events processing goroutine",
        .interrupted, telEvent :: telChannel⟩
    else
      let r := processEvent L ProcessPlatformReport tc requestID invokedFnArn prevEvent
        isShutdown (ctx.doneAtSend k) st telEvent
      if r.2 then ⟨r.1, .completed, telChannel⟩
      else processLoop L ProcessPlatformReport tc ctx requestID invokedFnArn prevEvent
        isShutdown (k + 1) r.1 telChannel

/-- ProcessEvents consumes telemetry events until there are no more telemetry
events that can be consumed or ctx is cancelled. `telChannel` holds the events
the channel delivers, in order. -/
def ProcessEvents (L : Lib)
    (ProcessPlatformReport : NextEventResponse → TelEvent → Except GoError String)
    (tc : Client) (telChannel : List TelEvent) (ctx : Ctx) (requestID : String)
    (invokedFnArn : String) (prevEvent : Option NextEventResponse) (isShutdown : Bool) : Run :=
  processLoop L ProcessPlatformReport tc ctx requestID invokedFnArn prevEvent isShutdown
    0 {} telChannel

/-! ## `encoding/json`, as far as the decoder uses it -/

/-- A JSON value. An object keeps its members in the order of the text,
duplicate keys included. -/
inductive JSON where
  | null
  | bool (b : Bool)
  | num (n : Rat)
  | str (s : String)
  | arr (elems : List JSON)
  | obj (members : List (String × JSON))

/-- Bytes given to `json.Unmarshal`, and the contents of a `json.RawMessage`:
the value they spell; `none` for bytes that spell no JSON value, the empty
slice among them. -/
abbrev RawMessage := Option JSON

/-- The test `len(raw) > 0 && raw[0] == '{'`. A `RawMessage` filled by the
decoder holds the text of a value from its first byte on, and only the text of
an object starts with `{`. -/
def RawMessage.beginsObject : RawMessage → Bool
  | some (.obj _) => true
  | _ => false

/-- The struct field that an object key is decoded into: the field with exactly
that name, else the first field that matches it case-insensitively. -/
def findField (L : Lib) (fields : List String) (key : String) : Option String :=
  if key ∈ fields then some key else fields.find? (fun f => L.equalFold f key)

/-- Decoding a value into a Go `string`: the new contents and the error saved
(`UnmarshalTypeError`); `null` leaves the string as it is. -/
def decodeString (v : JSON) (cur : String) : String × Option GoError :=
  match v with
  | .str s => (s, none)
  | .null => (cur, none)
  | _ => (cur, some "json: cannot unmarshal into Go value of type string")

/-- Decoding a value into the numeric field `name`: a number that fits the type
of the field is stored, one that does not is an `UnmarshalTypeError` and leaves
the field as it is, like a value that is no number; `null` leaves the field as
it is without error. -/
def decodeNumber (L : Lib) (name : String) (v : JSON) (cur : Rat) : Rat × Option GoError :=
  match v with
  | .num n =>
    match L.storeNumber name n with
    | some r => (r, none)
    | none => (cur, some "json: cannot unmarshal number into Go struct field of a numeric type")
  | .null => (cur, none)
  | _ => (cur, some "json: cannot unmarshal into Go value of a numeric type")

/-- One member of an object decoded into `PlatformMetrics` (keys from the tests
of `route_handlers_test.go`). The first saved error is kept. -/
def PlatformMetrics.decodeMember (L : Lib) (acc : PlatformMetrics × Option GoError)
    (kv : String × JSON) : PlatformMetrics × Option GoError :=
  match findField L
    ["durationMs", "billedDurationMs", "memorySizeMB", "maxMemoryUsedMB", "initDurationMs"]
    kv.1 with
  | some "durationMs" =>
    let r := decodeNumber L "durationMs" kv.2 acc.1.DurationMs
    ({ acc.1 with DurationMs := r.1 }, acc.2 <|> r.2)
  | some "billedDurationMs" =>
    let r := decodeNumber L "billedDurationMs" kv.2 acc.1.BilledDurationMs
    ({ acc.1 with BilledDurationMs := r.1 }, acc.2 <|> r.2)
  | some "memorySizeMB" =>
    let r := decodeNumber L "memorySizeMB" kv.2 acc.1.MemorySizeMB
    ({ acc.1 with MemorySizeMB := r.1 }, acc.2 <|> r.2)
  | some "maxMemoryUsedMB" =>
    let r := decodeNumber L "maxMemoryUsedMB" kv.2 acc.1.MaxMemoryUsedMB
    ({ acc.1 with MaxMemoryUsedMB := r.1 }, acc.2 <|> r.2)
  | some "initDurationMs" =>
    let r := decodeNumber L "initDurationMs" kv.2 acc.1.InitDurationMs
    ({ acc.1 with InitDurationMs := r.1 }, acc.2 <|> r.2)
  | _ => acc

/-- Decoding a value into a `PlatformMetrics` field. -/
def decodeMetrics (L : Lib) (v : JSON) (cur : PlatformMetrics) :
    PlatformMetrics × Option GoError :=
  match v with
  | .obj members => members.foldl (PlatformMetrics.decodeMember L) (cur, none)
  | .null => (cur, none)
  | _ => (cur, some "json: cannot unmarshal into Go value of type PlatformMetrics")

/-- One member of an object decoded into `TelEventRecord` (the `json` tags of
the struct). -/
def TelEventRecord.decodeMember (L : Lib) (acc : TelEventRecord × Option GoError)
    (kv : String × JSON) : TelEventRecord × Option GoError :=
  match findField L ["requestId", "status", "metrics"] kv.1 with
  | some "requestId" =>
    let r := decodeString kv.2 acc.1.RequestID
    ({ acc.1 with RequestID := r.1 }, acc.2 <|> r.2)
  | some "status" =>
    let r := decodeString kv.2 acc.1.Status
    ({ acc.1 with Status := r.1 }, acc.2 <|> r.2)
  | some "metrics" =>
    let r := decodeMetrics L kv.2 acc.1.Metrics
    ({ acc.1 with Metrics := r.1 }, acc.2 <|> r.2)
  | _ => acc

/-- The call `json.Unmarshal(raw, &rec)` for a `TelEventRecord`: the record
afterwards and the error returned. -/
def unmarshalRecord (L : Lib) (raw : RawMessage) (cur : TelEventRecord) :
    TelEventRecord × Option GoError :=
  match raw with
  | none => (cur, some "unexpected end of JSON input")
  | some (.obj members) => members.foldl (TelEventRecord.decodeMember L) (cur, none)
  | some .null => (cur, none)
  | some _ => (cur, some "json: cannot unmarshal into Go value of type TelEventRecord")

/-- The call `json.Unmarshal(raw, &s)` for a `string`. -/
def unmarshalString (raw : RawMessage) (cur : String) : String × Option GoError :=
  match raw with
  | none => (cur, some "unexpected end of JSON input")
  | some v => decodeString v cur

/-- The anonymous struct `b` of `UnmarshalJSON`. -/
structure Envelope where
  Time : GoTime := 0
  Typ : TelEventType := ""
  Record : RawMessage := none

/-- One member of an object decoded into `b`. `time.Time` decodes itself
(`Time.UnmarshalJSON`): its error ends the decoding at once (`.error`), while a
type mismatch on `type` is saved and decoding goes on. A `RawMessage` takes the
text of any value, `null` included. -/
def Envelope.decodeMember (L : Lib) (acc : Envelope × Option GoError)
    (kv : String × JSON) : Except GoError (Envelope × Option GoError) :=
  match findField L ["time", "type", "record"] kv.1 with
  | some "time" =>
    match kv.2 with
    | .null => .ok acc
    | .str s =>
      match L.parseTime s with
      | .ok t => .ok ({ acc.1 with Time := t }, acc.2)
      | .error err => .error err
    | _ => .error "Time.UnmarshalJSON: input is not a JSON string"
  | some "type" =>
    let r := decodeString kv.2 acc.1.Typ
    .ok ({ acc.1 with Typ := r.1 }, acc.2 <|> r.2)
  | some "record" => .ok ({ acc.1 with Record := some kv.2 }, acc.2)
  | _ => .ok acc

/-- The call `json.Unmarshal(data, &b)`. -/
def unmarshalEnvelope (L : Lib) (data : RawMessage) (b : Envelope) :
    Envelope × Option GoError :=
  match data with
  | none => (b, some "invalid JSON input")
  | some (.obj members) =>
    match members.foldlM (Envelope.decodeMember L) (b, none) with
    | .ok r => r
    | .error err => (b, some err)
  | some .null => (b, none)
  | some _ => (b, some "json: cannot unmarshal into Go value of type struct")

/-! ## The record decoder and the ingestion endpoint (`route_handlers.go`) -/

/-- The method `(le *TelEvent) UnmarshalJSON(data)`: the event `le` points to
afterwards, and the error returned. -/
def TelEvent.UnmarshalJSON (L : Lib) (le : TelEvent) (data : RawMessage) :
    TelEvent × Option GoError :=
  let b : Envelope := {}
  match unmarshalEnvelope L data b with
  | (_, some err) => (le, some err)
  | (b, none) =>
    let le := { le with Time := b.Time }
    let le := { le with Typ := b.Typ }
    if b.Record.isSome && b.Record.beginsObject then
      let r := unmarshalRecord L b.Record le.Record
      ({ le with Record := r.1 }, r.2)
    else
      let r := unmarshalString b.Record le.StringRecord
      ({ le with StringRecord := r.1 }, r.2)

/-- Decoding the elements of a JSON array into a slice of `TelEvent`: every
element goes through `UnmarshalJSON` on a zero event, and the first error ends
the decoding. -/
def decodeElements (L : Lib) : List JSON → Except GoError (List TelEvent)
  | [] => .ok []
  | x :: xs =>
    match TelEvent.UnmarshalJSON L {} (some x) with
    | (_, some err) => .error err
    | (te, none) =>
      match decodeElements L xs with
      | .ok tes => .ok (te :: tes)
      | .error err => .error err

/-- The call `json.NewDecoder(r.Body).Decode(&telEvents)` on a nil slice; `body`
is the first JSON value of the request body. -/
def decodeTelEvents (L : Lib) (body : RawMessage) : Except GoError (List TelEvent) :=
  match body with
  | none => .error "invalid JSON input"
  | some (.arr elems) => decodeElements L elems
  | some .null => .ok []
  | some _ => .error "json: cannot unmarshal into Go value of type []telemetryapi.TelEvent"

def StatusOK : Nat := 200

def StatusInternalServerError : Nat := 500

/-- An `http.ResponseWriter`, by the status code written, if any. -/
structure ResponseWriter where
  header : Option Nat := none

/-- The first call of `WriteHeader` sets the status, later calls change nothing. -/
def ResponseWriter.WriteHeader (w : ResponseWriter) (statusCode : Nat) : ResponseWriter :=
  match w.header with
  | some _ => w
  | none => { header := some statusCode }

/-- The status of the response: the one written, else the default `200 OK`. -/
def ResponseWriter.status (w : ResponseWriter) : Nat := w.header.getD StatusOK

/-- What a request has done: the response writer, the events sent on
`telChannel`, the log lines. -/
structure Handled where
  w : ResponseWriter := {}
  telChannel : List TelEvent := []
  logs : List (LogLevel × String) := []

/-- The `for idx := range telEvents` loop of the handler, from index `idx`, over
the elements from `idx` on. `cancelled idx` says that the `select` for element
`idx` takes `<-r.Context().Done()`. -/
def enqueueLoop (cancelled : Nat → Bool) : Nat → List TelEvent → Handled → Handled
  | _, [], h => h
  | idx, te :: rest, h =>
    if te.Typ = "" then
      enqueueLoop cancelled (idx + 1) rest
        { h with logs := h.logs ++ [(.error, "Error reading log event: %+v")],
                 w := h.w.WriteHeader StatusInternalServerError }
    else if cancelled idx then
      { h with logs := h.logs ++ [(.warn, "Failed to enqueue event, signaling lambda to retry")],
               w := h.w.WriteHeader StatusInternalServerError }
    else
      enqueueLoop cancelled (idx + 1) rest { h with telChannel := h.telChannel ++ [te] }

/-- The handler returned by `handleTelEventsRequest`, run on a request with the
given body. -/
def handleTelEventsRequest (L : Lib) (cancelled : Nat → Bool) (body : RawMessage) : Handled :=
  match decodeTelEvents L body with
  | .error _ =>
    { logs := [(.error, "Error unmarshalling log events: %+v")],
      w := ResponseWriter.WriteHeader {} StatusInternalServerError }
  | .ok telEvents => enqueueLoop cancelled 0 telEvents {}

/-! ## Worked-example instances -/

/-- ASCII case-insensitive comparison. -/
def asciiEqualFold (a b : String) : Bool := a.toLower == b.toLower

/-- A library instance for worked examples. It writes a timestamp as the
microseconds since the epoch of an instant given in nanoseconds, without error;
it quotes a string without escaping, which is right for text that needs none;
it knows the instants of the two timestamps of `route_handlers_test.go`; it
folds ASCII case; and it stores a number below `2 ^ 1024` in absolute value as it
is in any numeric field and refuses every other, which no numeric type of Go
holds. -/
def exampleLib : Lib where
  quote := fun s => "\"" ++ s ++ "\""
  marshalTime := fun t => (toString (t.tdiv 1000), none)
  parseTime := fun s =>
    if s = "2020-08-20T12:31:32.123Z" then .ok 1597926692123000000
    else if s = "2021-02-04T20:00:05.123Z" then .ok 1612468805123000000
    else .error "parsing time: cannot parse"
  equalFold := asciiEqualFold
  storeNumber := fun _ n => if n.num.natAbs < (1 <<< 1024) * n.den then some n else none

/-- A metrics assembler for worked examples (`ProcessPlatformReport` itself is in
`metrics.go`, not among the sources): the ARN and request id of the previous
event and the billed duration. -/
def exampleReport (prev : NextEventResponse) (te : TelEvent) : Except GoError String :=
  .ok ("metrics " ++ prev.InvokedFunctionArn ++ " " ++ prev.RequestID ++ " durationMs=" ++
    toString te.Record.Metrics.DurationMs.num)

/-- A client whose lifecycler always succeeds. -/
def exampleClient : Client := ⟨fun _ _ _ => none⟩

/-- A client whose lifecycler always fails. -/
def failingClient : Client := ⟨fun _ _ _ => some "no invocation in progress"⟩

def evStart (rid : String) : TelEvent :=
  { Typ := PlatformStart, Record := { RequestID := rid } }

def evRuntimeDone (rid status : String) : TelEvent :=
  { Typ := PlatformRuntimeDone, Record := { RequestID := rid, Status := status } }

def evReport (rid : String) (durationMs : Rat) : TelEvent :=
  { Typ := PlatformReport, Record := { RequestID := rid, Metrics := { DurationMs := durationMs } } }

def evFunction (msg : String) : TelEvent :=
  { Typ := FunctionLog, StringRecord := msg }

def evExtension (msg : String) : TelEvent :=
  { Typ := ExtensionLog, StringRecord := msg }

def evLogsDropped : TelEvent :=
  { Typ := PlatformLogsDropped }

def evFault (msg : String) : TelEvent :=
  { Typ := PlatformFault, StringRecord := msg }

/-- A context whose cancellation wins the send on `dataChan` attempted in pass
`k`, and nothing else. -/
def sendCancelledAt (k : Nat) : Ctx := ⟨fun _ => false, fun j => decide (j = k)⟩

/-- A `platform.report` event on the wire, its record an object. -/
def reportJSON : JSON :=
  .obj [("type", .str "platform.report"),
    ("record", .obj [("requestId", .str "A"), ("metrics", .obj [("durationMs", .num 10)])])]

/-- A `function` event on the wire, its record a string. -/
def functionJSON : JSON :=
  .obj [("type", .str "function"), ("record", .str "hello")]

/-- A `function` event on the wire whose record is a number. -/
def numberRecordJSON : JSON :=
  .obj [("type", .str "function"), ("record", .num 5)]

/-- An event on the wire without a type. -/
def untypedJSON : JSON :=
  .obj [("record", .str "lost")]

/-! ## Spec-side notions -/

/-- The part of a loop state that the channels, the lifecycler and later passes
can see: everything but the log. -/
def LoopState.obs (st : LoopState) : String × List String × List (String × String × GoTime) :=
  (st.platformStartReqID, st.dataChan, st.runtimeDoneCalls)

/-- Spec: the request id that a function log line is attributed to after the
events `evs`: that of the most recent `platform.start` among them, the empty
string when there is none. -/
def attributedRequestID (evs : List TelEvent) : String :=
  (((evs.filter (fun e => e.Typ = PlatformStart)).getLast?).map
    (fun e => e.Record.RequestID)).getD ""

/-- Spec: the terminal event of a window: in an invoke window the
`platform.runtimeDone` of the window's request id, in a shutdown window the
`platform.report` of the previous event's request id. -/
def terminal (requestID : String) (prevEvent : Option NextEventResponse) (isShutdown : Bool)
    (e : TelEvent) : Prop :=
  (e.Typ = PlatformRuntimeDone ∧ isShutdown = false ∧ e.Record.RequestID = requestID) ∨
  (e.Typ = PlatformReport ∧ isShutdown = true ∧
    ∃ prev, prevEvent = some prev ∧ e.Record.RequestID = prev.RequestID)

/-- Spec: the text of a JSON object whose keys need no escaping and whose values
are already JSON text: the members in this order, separated by commas, between
braces. -/
def objectText (members : List (String × String)) : String :=
  "\x7b" ++ ",".intercalate (members.map (fun kv => "\"" ++ kv.1 ++ "\":" ++ kv.2)) ++ "\x7d"

/-- Spec: the documented shape of a function-log document: the wrapper key
`telemetry` around `message`, `@timestamp` and `faas`, which holds `id` and
`execution`; the arguments are the JSON texts of the four values. -/
def functionLogText (message timestamp id execution : String) : String :=
  objectText [("telemetry", objectText [("message", message), ("@timestamp", timestamp),
    ("faas", objectText [("id", id), ("execution", execution)])])]

/-- The event of `Test_unmarshalRuntimeDoneRecordString` on the wire. -/
def runtimeDoneStringJSON : JSON :=
  .obj [("time", .str "2021-02-04T20:00:05.123Z"), ("type", .str "platform.runtimeDone"),
    ("record", .str "Unknown application error occurred")]

/-- The event of `TestTelEventUnmarshalReport` on the wire; the numbers `101.51`
and `116.67` are written as the fractions they are. -/
def reportSampleJSON : JSON :=
  .obj [("time", .str "2020-08-20T12:31:32.123Z"), ("type", .str "platform.report"),
    ("record", .obj [("requestId", .str "6f7f0961f83442118a7af6fe80b88d56"),
      ("metrics", .obj [("durationMs", .num (mkRat 10151 100)), ("billedDurationMs", .num 300),
        ("memorySizeMB", .num 512), ("maxMemoryUsedMB", .num 33),
        ("initDurationMs", .num (mkRat 11667 100))])])]

/-- The event of `Test_unmarshalRuntimeDoneRecordObject` on the wire. -/
def runtimeDoneObjectJSON : JSON :=
  .obj [("time", .str "2021-02-04T20:00:05.123Z"), ("type", .str "platform.runtimeDone"),
    ("record", .obj [("requestId", .str "6f7f0961f83442118a7af6fe80b88"),
      ("status", .str "success")])]

/-- A `platform.report` event on the wire whose `requestId` is a number. -/
def numberRequestIdJSON : JSON :=
  .obj [("time", .str "2020-08-20T12:31:32.123Z"), ("type", .str "platform.report"),
    ("record", .obj [("requestId", .num 5)])]

end telemetryapi

/-! ## Secrets (`app/aws.go`) -/

namespace app

open telemetryapi (GoError)

/-- A Go string or byte slice, by its bytes. -/
abbrev Bytes := List Nat

/-- The bytes of an ASCII text. -/
def bytesOf (s : String) : Bytes := s.toList.map Char.toNat

/-- The part of `secretsmanager.GetSecretValueOutput` that `loadSecret` reads:
`SecretString`, a pointer, and `SecretBinary`. -/
structure GetSecretValueOutput where
  SecretString : Option Bytes := none
  SecretBinary : Bytes := []

/-- A `base64.Encoding`: `DecodedLen n`, and `Decode dst src`, by the contents of
`dst` afterwards and the error returned. -/
structure Encoding where
  DecodedLen : Nat → Nat
  Decode : Bytes → Bytes → Bytes × Option GoError

/-- The value of a byte in the alphabet of RFC 4648. -/
def alphabetValue (c : Nat) : Option Nat :=
  if 65 ≤ c ∧ c ≤ 90 then some (c - 65)
  else if 97 ≤ c ∧ c ≤ 122 then some (c - 97 + 26)
  else if 48 ≤ c ∧ c ≤ 57 then some (c - 48 + 52)
  else if c = 43 then some 62
  else if c = 47 then some 63
  else none

/-- The bytes that four characters of RFC 4648 stand for; `=` is 61, and pads
the last group. -/
def decodeQuantum (a b c d : Nat) (last : Bool) : Option Bytes :=
  match alphabetValue a, alphabetValue b with
  | some va, some vb =>
    if last ∧ c = 61 ∧ d = 61 then some [va * 4 + vb / 16]
    else
      match alphabetValue c with
      | some vc =>
        if last ∧ d = 61 then some [va * 4 + vb / 16, vb % 16 * 16 + vc / 4]
        else
          match alphabetValue d with
          | some vd => some [va * 4 + vb / 16, vb % 16 * 16 + vc / 4, vc % 4 * 64 + vd]
          | none => none
      | none => none
  | _, _ => none

/-- The decoding of padded base64 text, group by group. -/
def decodeQuanta : Bytes → Except GoError Bytes
  | [] => .ok []
  | [a, b, c, d] =>
    match decodeQuantum a b c d true with
    | some bytes => .ok bytes
    | none => .error "illegal base64 data"
  | a :: b :: c :: d :: rest =>
    match decodeQuantum a b c d false with
    | some bytes =>
      match decodeQuanta rest with
      | .ok more => .ok (bytes ++ more)
      | .error err => .error err
    | none => .error "illegal base64 data"
  | _ => .error "illegal base64 data"

/-- The encoding `base64.StdEncoding`, after RFC 4648 with padding: `DecodedLen`
is three bytes for every four of the text; `Decode` skips line breaks, writes
the decoded bytes at the front of `dst` and leaves the rest of `dst` alone. -/
def StdEncoding : Encoding where
  DecodedLen := fun n => n / 4 * 3
  Decode := fun dst src =>
    match decodeQuanta (src.filter (fun c => c ≠ 10 ∧ c ≠ 13)) with
    | .ok bytes => (bytes ++ dst.drop bytes.length, none)
    | .error err => (dst, some err)

/-- The function `loadSecret`; `GetSecretValue` stands for the call of the
Secrets Manager client with the secret id and the version stage. -/
def loadSecret (GetSecretValue : String → String → Except GoError GetSecretValueOutput)
    (enc : Encoding) (secretID : String) : Bytes × Option GoError :=
  match GetSecretValue secretID "AWSCURRENT" with
  | .error err => ([], some ("failed to retrieve sercet value: " ++ err))
  | .ok result =>
    match result.SecretString with
    | some s => (s, none)
    | none =>
      let decodedBinarySecretBytes : Bytes :=
        List.replicate (enc.DecodedLen result.SecretBinary.length) 0
      match enc.Decode decodedBinarySecretBytes result.SecretBinary with
      | (_, some err) => ([], some ("failed to decode base64 encoded secret: " ++ err))
      | (decodedBinarySecretBytes, none) => (decodedBinarySecretBytes, none)

/-- A secret store for worked examples: the secret `text` has a string value,
the secret `padded` the binary value `YQ==`, the secret `plain` the binary value
`YWJj`, the secret `broken` the binary value `Y?==`; there is no other. -/
def exampleSecrets (secretID : String) (_versionStage : String) :
    Except GoError GetSecretValueOutput :=
  if secretID = "text" then .ok { SecretString := some (bytesOf "s3cret") }
  else if secretID = "padded" then .ok { SecretBinary := bytesOf "YQ==" }
  else if secretID = "plain" then .ok { SecretBinary := bytesOf "YWJj" }
  else if secretID = "broken" then .ok { SecretBinary := bytesOf "Y?==" }
  else .error "ResourceNotFoundException"

end app

namespace telemetryapi

/-! ## The subscription (`subscribe.go`) -/

/-- The type `SubscriptionType` is a string type declared outside the sources
given. -/
abbrev SubscriptionType := String

/-- SchemaVersion is the Lambda runtime API schema version. -/
abbrev SchemaVersion := String

def SchemaVersion20210318 : SchemaVersion := "2021-03-18"

def SchemaVersionLatest : SchemaVersion := SchemaVersion20210318

/-- BufferingCfg is the configuration set for receiving events from Telemetry
API; the fields are `uint32`. -/
structure BufferingCfg where
  MaxItems : Nat
  MaxBytes : Nat
  TimeoutMS : Nat

/-- Destination is the configuration for listeners who would like to receive
events with HTTP. -/
structure Destination where
  Protocol : String
  URI : String
  HTTPMethod : String
  Encoding : String

/-- SubscribeRequest is the request body that is sent to Telemetry API on
subscribe. -/
structure SubscribeRequest where
  SchemaVersion : SchemaVersion
  TelemetryTypes : List SubscriptionType
  BufferingCfg : BufferingCfg
  Destination : Destination

def MethodPost : String := "POST"

def MethodPut : String := "PUT"

def StatusAccepted : Nat := 202

/-- An `http.Request`, as far as `sendRequest` fills it. -/
structure HTTPRequest where
  Method : String
  URL : String
  Body : String
  Header : List (String × String) := []

/-- The call `req.Header.Set(key, value)` for a key in canonical form. -/
def HTTPRequest.SetHeader (req : HTTPRequest) (key value : String) : HTTPRequest :=
  { req with Header := req.Header.filter (fun kv => kv.1 ≠ key) ++ [(key, value)] }

/-- An `http.Response`, as far as `subscribe` reads it; `Body` is the result of
`io.ReadAll(resp.Body)`. -/
structure HTTPResponse where
  StatusCode : Nat
  Status : String
  Body : Except GoError String

/-- What `subscribe` and `sendRequest` use of the client and of the libraries:
the base URL, `json.Marshal`, `http.NewRequest` and `tc.httpClient.Do`. -/
structure SubscribeEnv where
  telAPIBaseURL : String
  Marshal : SubscribeRequest → Except GoError String
  NewRequest : String → String → String → Except GoError HTTPRequest
  Do : HTTPRequest → Except GoError HTTPResponse

/-- The method `sendRequest`. -/
def sendRequest (env : SubscribeEnv) (url : String) (data : String) (extensionID : String) :
    Except GoError HTTPResponse :=
  match env.NewRequest MethodPut url data with
  | .error err => .error ("failed to create request: " ++ err)
  | .ok req =>
    let req := req.SetHeader "Content-Type" "application/json"
    let req := req.SetHeader "Lambda-Extension-Identifier" extensionID
    match env.Do req with
    | .error err => .error ("request failed: " ++ err)
    | .ok resp => .ok resp

/-- The request that `subscribe` marshals. -/
def subscribeRequest (types : List SubscriptionType) (uri : String) : SubscribeRequest :=
  { SchemaVersion := SchemaVersionLatest,
    TelemetryTypes := types,
    BufferingCfg := { MaxItems := 10000, MaxBytes := 1024 * 1024, TimeoutMS := 100 },
    Destination :=
      { Protocol := "HTTP", URI := uri, HTTPMethod := MethodPost, Encoding := "JSON" } }

/-- The method `subscribe`: the error returned, `none` for nil. -/
def subscribe (env : SubscribeEnv) (types : List SubscriptionType) (extensionID : String)
    (uri : String) : Option GoError :=
  match env.Marshal (subscribeRequest types uri) with
  | .error err => some ("failed to marshal SubscribeRequest: " ++ err)
  | .ok data =>
    let url := env.telAPIBaseURL ++ "/2022-07-01/telemetry"
    match sendRequest env url data extensionID with
    | .error err => some err
    | .ok resp =>
      if resp.StatusCode = StatusAccepted then
        some "telemetry API is not supported in this environment"
      else if resp.StatusCode ≠ StatusOK then
        match resp.Body with
        | .error _ =>
          some (url ++ " failed: " ++ toString resp.StatusCode ++ "[" ++ resp.Status ++ "]")
        | .ok body =>
          some (url ++ " failed: " ++ toString resp.StatusCode ++ "[" ++ resp.Status ++ "] " ++
            body)
      else none

/-- A subscription environment for worked examples: the Telemetry API answers
every request with the given response. -/
def exampleEnv (resp : HTTPResponse) : SubscribeEnv where
  telAPIBaseURL := "http://sandbox"
  Marshal := fun _ => .ok "request"
  NewRequest := fun method url body => .ok { Method := method, URL := url, Body := body }
  Do := fun _ => .ok resp

/-- The part of a loop state that decides how a run goes on: the request id of
the last `platform.start` and the calls of the lifecycler. -/
def LoopState.flow (st : LoopState) : String × List (String × String × GoTime) :=
  (st.platformStartReqID, st.runtimeDoneCalls)

/-- A metrics assembler that always fails. -/
def failingReport (_prev : NextEventResponse) (_te : TelEvent) : Except GoError String :=
  .error "metrics cannot be marshalled"

/-- The library of the worked examples, but with a timestamp writer that fails. -/
def failingTimeLib : Lib :=
  { exampleLib with marshalTime := fun _ => ("", some "timestamp cannot be marshalled") }

end telemetryapi

/-! ## The Logs API engine (`logsapi/event.go`) -/

namespace logsapi

open telemetryapi (GoTime GoError NextEventResponse LoopState Exit Ctx LogLevel)

/-- LogEventType represents the log type that is received in the log messages. -/
abbrev LogEventType := String

def PlatformRuntimeDone : LogEventType := "platform.runtimeDone"
def PlatformFault : LogEventType := "platform.fault"
def PlatformReport : LogEventType := "platform.report"
def PlatformLogsDropped : LogEventType := "platform.logsDropped"
def PlatformStart : LogEventType := "platform.start"
def PlatformEnd : LogEventType := "platform.end"
def FunctionLog : LogEventType := "function"

/-- Modelled from the spec: `PlatformMetrics` of the package `logsapi` is
declared in `metrics.go`, which is not among the sources; the spec gives its
five numeric fields. -/
structure PlatformMetrics where
  DurationMs : Rat := 0
  BilledDurationMs : Rat := 0
  MemorySizeMB : Rat := 0
  MaxMemoryUsedMB : Rat := 0
  InitDurationMs : Rat := 0
  deriving DecidableEq

/-- LogEventRecord is a sub-object in a Logs API event. -/
structure LogEventRecord where
  RequestID : String := ""
  Status : String := ""
  Metrics : PlatformMetrics := {}
  deriving DecidableEq

/-- LogEvent represents an event received from the Logs API (the field `Type` is
`Typ` here). -/
structure LogEvent where
  Time : GoTime := 0
  Typ : LogEventType := ""
  StringRecord : String := ""
  Record : LogEventRecord := {}
  deriving DecidableEq

/-- The part of `Client` that `ProcessLogs` uses besides the channel and the
logger: the lifecycler, by the result of `OnLambdaLogRuntimeDone`. -/
structure Client where
  invocationLifecycler : String → String → GoTime → Option GoError

/-- The body of `case logEvent := <-lc.logsChannel:`: the state after the event,
and whether `ProcessLogs` returns from inside the switch. `ProcessFunctionLog`
and `ProcessPlatformReport` are in files of the package that are not among the
sources. -/
def processLogEvent
    (ProcessFunctionLog : String → String → LogEvent → Except GoError String)
    (ProcessPlatformReport : NextEventResponse → LogEvent → Except GoError String)
    (lc : Client) (requestID : String) (invokedFnArn : String)
    (prevEvent : Option NextEventResponse) (isShutdown : Bool)
    (done : Bool) (st : LoopState) (logEvent : LogEvent) : LoopState × Bool :=
  let st := st.log .debug "Received log event %v for request ID %s"
  if logEvent.Typ = PlatformStart then
    ({ st with platformStartReqID := logEvent.Record.RequestID }, false)
  else if logEvent.Typ = PlatformRuntimeDone then
    let err := lc.invocationLifecycler logEvent.Record.RequestID logEvent.Record.Status
      logEvent.Time
    let st := { st with runtimeDoneCalls := st.runtimeDoneCalls ++
      [(logEvent.Record.RequestID, logEvent.Record.Status, logEvent.Time)] }
    let st := if err.isSome then
      st.log .warn "Failed to finalize invocation with request ID %s: %v" else st
    if !isShutdown && logEvent.Record.RequestID = requestID then
      (st.log .debug
        "Processed runtime done event for reqID %s as the last log event for the invocation",
        true)
    else (st, false)
  else if logEvent.Typ = PlatformReport then
    match prevEvent with
    | some prev =>
      if logEvent.Record.RequestID = prev.RequestID then
        let st := st.log .debug "Received platform report for %s"
        let st := match ProcessPlatformReport prev logEvent with
          | .error _ => st.log .error "Error processing Lambda platform metrics: %v"
          | .ok processedMetrics => st.send done processedMetrics
        if isShutdown then
          (st.log .debug
            "Processed platform report event for reqID %s as the last log event before shutdown",
            true)
        else (st, false)
      else (st.log .warn "Report event request id didn't match the previous event id", false)
    | none => (st.log .warn "Report event request id didn't match the previous event id", false)
  else if logEvent.Typ = PlatformLogsDropped then
    (st.log .warn "Logs dropped due to extension falling behind: %v", false)
  else if logEvent.Typ = FunctionLog then
    match ProcessFunctionLog st.platformStartReqID invokedFnArn logEvent with
    | .error _ => (st.log .warn "Error processing function log : %v", false)
    | .ok processedLog => (st.send done processedLog, false)
  else (st, false)

structure Run where
  state : LoopState
  exit : Exit
  /-- The events still in `logsChannel`. -/
  rest : List LogEvent

/-- The `for` loop of `ProcessLogs` from pass `k` in state `st`. -/
def processLogsLoop
    (ProcessFunctionLog : String → String → LogEvent → Except GoError String)
    (ProcessPlatformReport : NextEventResponse → LogEvent → Except GoError String)
    (lc : Client) (ctx : Ctx) (requestID : String) (invokedFnArn : String)
    (prevEvent : Option NextEventResponse) (isShutdown : Bool) :
    Nat → LoopState → List LogEvent → Run
  | k, st, [] =>
    if ctx.doneAtRecv k then
      ⟨st.log .debug "Current invocation over. Interrupting logs processing goroutine",
        .interrupted, []⟩
    else ⟨st, .waiting, []⟩
  | k, st, logEvent :: logsChannel =>
    if ctx.doneAtRecv k then
      ⟨st.log .debug "Current invocation over. Interrupting logs processing goroutine",
        .interrupted, logEvent :: logsChannel⟩
    else
      let r := processLogEvent ProcessFunctionLog ProcessPlatformReport lc requestID
        invokedFnArn prevEvent isShutdown (ctx.doneAtSend k) st logEvent
      if r.2 then ⟨r.1, .completed, logsChannel⟩
      else processLogsLoop ProcessFunctionLog ProcessPlatformReport lc ctx requestID
        invokedFnArn prevEvent isShutdown (k + 1) r.1 logsChannel

/-- ProcessLogs consumes log events until there are no more log events that can
be consumed or ctx is cancelled. `logsChannel` holds the events the channel
delivers, in order. -/
def ProcessLogs
    (ProcessFunctionLog : String → String → LogEvent → Except GoError String)
    (ProcessPlatformReport : NextEventResponse → LogEvent → Except GoError String)
    (lc : Client) (logsChannel : List LogEvent) (ctx : Ctx) (requestID : String)
    (invokedFnArn : String) (prevEvent : Option NextEventResponse) (isShutdown : Bool) : Run :=
  processLogsLoop ProcessFunctionLog ProcessPlatformReport lc ctx requestID invokedFnArn
    prevEvent isShutdown 0 {} logsChannel

end logsapi

namespace telemetryapi

/-- Spec: the Logs API event with the type, the time and the record of a
Telemetry API event. -/
def toLog (e : TelEvent) : logsapi.LogEvent :=
  { Time := e.Time, Typ := e.Typ, StringRecord := e.StringRecord,
    Record :=
      { RequestID := e.Record.RequestID, Status := e.Record.Status,
        Metrics :=
          { DurationMs := e.Record.Metrics.DurationMs,
            BilledDurationMs := e.Record.Metrics.BilledDurationMs,
            MemorySizeMB := e.Record.Metrics.MemorySizeMB,
            MaxMemoryUsedMB := e.Record.Metrics.MaxMemoryUsedMB,
            InitDurationMs := e.Record.Metrics.InitDurationMs } } }

/-- Spec: two assembler results that correspond: both are errors, or both are
documents and these are related by `R`. -/
def sameOutcome (R : String → String → Prop) :
    Except GoError String → Except GoError String → Prop
  | .ok a, .ok b => R a b
  | .error _, .error _ => True
  | _, _ => False

/-- A function-log assembler of the Logs API for worked examples. -/
def exampleFunctionLog (requestID arn : String) (le : logsapi.LogEvent) :
    Except GoError String :=
  .ok ("log " ++ arn ++ " " ++ requestID ++ " " ++ le.StringRecord)

/-- A metrics assembler of the Logs API for worked examples. -/
def exampleLogReport (prev : NextEventResponse) (le : logsapi.LogEvent) :
    Except GoError String :=
  .ok ("metrics " ++ prev.InvokedFunctionArn ++ " " ++ prev.RequestID ++ " durationMs=" ++
    toString le.Record.Metrics.DurationMs.num)

/-- A subscription environment for worked examples that marshals only a request
whose buffering values, destination and schema version are the ones the
Telemetry API documents for this extension, and refuses any other. -/
def strictEnv (resp : HTTPResponse) : SubscribeEnv where
  telAPIBaseURL := "http://sandbox"
  Marshal := fun r =>
    if r.BufferingCfg.MaxItems = 10000 ∧ r.BufferingCfg.MaxBytes = 1048576 ∧
        r.BufferingCfg.TimeoutMS = 100 ∧ r.Destination.Protocol = "HTTP" ∧
        r.Destination.HTTPMethod = "POST" ∧ r.Destination.Encoding = "JSON" then
      .ok "request"
    else .error "unexpected request"
  NewRequest := fun method url body => .ok { Method := method, URL := url, Body := body }
  Do := fun _ => .ok resp

/-- Spec: the document that the event `e` causes in a window when the last
`platform.start` before it had the request id `startID`: for a `function`
event the function-log document, for a `platform.report` with the request id
of the previous event the metrics document, when the assembler gives one; for
every other event none. -/
def documentOf (L : Lib) (P : NextEventResponse → TelEvent → Except GoError String)
    (arn : String) (prevEvent : Option NextEventResponse) (startID : String) (e : TelEvent) :
    Option String :=
  if e.Typ = FunctionLog then (ProcessFunctionTelemetry L startID arn e).toOption
  else if e.Typ = PlatformReport then
    match prevEvent with
    | some prev => if e.Record.RequestID = prev.RequestID then (P prev e).toOption else none
    | none => none
  else none

/-- Spec: for each event of a sequence, in order, the document it causes, the
request id of the last `platform.start` being `startID` at the first event. -/
def documentsOf (L : Lib) (P : NextEventResponse → TelEvent → Except GoError String)
    (arn : String) (prevEvent : Option NextEventResponse) :
    String → List TelEvent → List (Option String)
  | _, [] => []
  | startID, e :: evs =>
    documentOf L P arn prevEvent startID e ::
      documentsOf L P arn prevEvent
        (if e.Typ = PlatformStart then e.Record.RequestID else startID) evs

/-- The expression `raw[0] == '{'` on its own: `none` for the run-time panic of
indexing an empty slice. A payload that spells a value starts with `{` exactly
when the value is an object. -/
def RawMessage.firstIsBrace : RawMessage → Option Bool
  | none => none
  | some (.obj _) => some true
  | some _ => some false

/-- The condition `len(raw) > 0 && raw[0] == '{'` with the evaluation order of
`&&`: the index expression is evaluated only when the length is positive. -/
def RawMessage.lenAndFirstIsBrace (raw : RawMessage) : Option Bool :=
  if raw.isSome then raw.firstIsBrace else some false

/-- The method `(le *TelEvent) UnmarshalJSON(data)` once more, with the index
expression `b.Record[0]` kept apart from the length test: `none` for a run that
panics at the index, else the event afterwards and the error returned. -/
def TelEvent.UnmarshalJSONChecked (L : Lib) (le : TelEvent) (data : RawMessage) :
    Option (TelEvent × Option GoError) :=
  let b : Envelope := {}
  match unmarshalEnvelope L data b with
  | (_, some err) => some (le, some err)
  | (b, none) =>
    let le := { le with Time := b.Time }
    let le := { le with Typ := b.Typ }
    match b.Record.lenAndFirstIsBrace with
    | none => none
    | some true =>
      let r := unmarshalRecord L b.Record le.Record
      some ({ le with Record := r.1 }, r.2)
    | some false =>
      let r := unmarshalString b.Record le.StringRecord
      some ({ le with StringRecord := r.1 }, r.2)

/-- A `function` event on the wire without a record. -/
def noRecordJSON : JSON :=
  .obj [("type", .str "function")]

/-- A `function` event on the wire whose record is `null`. -/
def nullRecordJSON : JSON :=
  .obj [("type", .str "function"), ("record", .null)]

/-- An event on the wire whose record is a boolean. -/
def boolRecordJSON : JSON :=
  .obj [("type", .str "function"), ("record", .bool true)]

/-- An event on the wire whose record is an array. -/
def arrayRecordJSON : JSON :=
  .obj [("type", .str "function"), ("record", .arr [.str "hello"])]

def JSON.isNull : JSON → Bool
  | .null => true
  | _ => false

/-- Spec: the value given to the field `name` by the members of an object: of
the members that are decoded into the field and are not `null`, the value of the
last one; `none` when there is no such member. -/
def givenValue (L : Lib) (fields : List String) (name : String)
    (members : List (String × JSON)) : Option JSON :=
  ((members.filter
    (fun kv => decide (findField L fields kv.1 = some name) && !kv.2.isNull)).getLast?).map
    (fun kv => kv.2)

/-- Spec: the string given, or `d` when none is. -/
def stringGiven (d : String) : Option JSON → String
  | some (.str s) => s
  | _ => d

/-- Spec: the number given, as the numeric field `name` stores it, or `d` when
none is. -/
def numberGiven (L : Lib) (name : String) (d : Rat) : Option JSON → Rat
  | some (.num n) => (L.storeNumber name n).getD d
  | _ => d

/-- Spec: the metrics given by the members of `metrics` objects, field by field,
zero where no value is given. -/
def metricsGiven (L : Lib) (mm : List (String × JSON)) : PlatformMetrics :=
  { DurationMs := numberGiven L "durationMs" 0 (givenValue L
      ["durationMs", "billedDurationMs", "memorySizeMB", "maxMemoryUsedMB", "initDurationMs"]
      "durationMs" mm),
    BilledDurationMs := numberGiven L "billedDurationMs" 0 (givenValue L
      ["durationMs", "billedDurationMs", "memorySizeMB", "maxMemoryUsedMB", "initDurationMs"]
      "billedDurationMs" mm),
    MemorySizeMB := numberGiven L "memorySizeMB" 0 (givenValue L
      ["durationMs", "billedDurationMs", "memorySizeMB", "maxMemoryUsedMB", "initDurationMs"]
      "memorySizeMB" mm),
    MaxMemoryUsedMB := numberGiven L "maxMemoryUsedMB" 0 (givenValue L
      ["durationMs", "billedDurationMs", "memorySizeMB", "maxMemoryUsedMB", "initDurationMs"]
      "maxMemoryUsedMB" mm),
    InitDurationMs := numberGiven L "initDurationMs" 0 (givenValue L
      ["durationMs", "billedDurationMs", "memorySizeMB", "maxMemoryUsedMB", "initDurationMs"]
      "initDurationMs" mm) }

/-- Spec: the members of the `metrics` objects of a record object, in the order
of the text. -/
def metricsMembers (L : Lib) (ms : List (String × JSON)) : List (String × JSON) :=
  ms.flatMap (fun kv =>
    if findField L ["requestId", "status", "metrics"] kv.1 = some "metrics" then
      match kv.2 with
      | .obj mm => mm
      | _ => []
    else [])

/-- Spec: the record given by the members of a record object: the strings given
for `requestId` and `status` and the metrics given by its `metrics` objects, the
zero value where nothing is given. -/
def recordGiven (L : Lib) (ms : List (String × JSON)) : TelEventRecord :=
  { RequestID := stringGiven "" (givenValue L ["requestId", "status", "metrics"] "requestId" ms),
    Status := stringGiven "" (givenValue L ["requestId", "status", "metrics"] "status" ms),
    Metrics := metricsGiven L (metricsMembers L ms) }

/-- Spec: a member of a `metrics` object whose value has the type of its field:
decoded into a field, it is `null` or a number that the field holds. -/
def typedMetric (L : Lib) (kv : String × JSON) : Bool :=
  match findField L
    ["durationMs", "billedDurationMs", "memorySizeMB", "maxMemoryUsedMB", "initDurationMs"]
    kv.1 with
  | some name =>
    match kv.2 with
    | .null => true
    | .num n => (L.storeNumber name n).isSome
    | _ => false
  | none => true

/-- Spec: a member of a record object whose value has the type of its field:
decoded into `requestId` or `status`, it is `null` or a string; decoded into
`metrics`, it is `null` or an object of members typed in their turn. -/
def typedMember (L : Lib) (kv : String × JSON) : Bool :=
  match findField L ["requestId", "status", "metrics"] kv.1 with
  | some name =>
    if name = "metrics" then
      match kv.2 with
      | .null => true
      | .obj mm => mm.all (typedMetric L)
      | _ => false
    else
      match kv.2 with
      | .null => true
      | .str _ => true
      | _ => false
  | none => true

/-- Spec: a record object whose values have the types of the fields. -/
def typedRecord (L : Lib) (ms : List (String × JSON)) : Bool :=
  ms.all (typedMember L)

/-- A `platform.report` event on the wire whose `metrics` is a string. -/
def textMetricsJSON : JSON :=
  .obj [("time", .str "2020-08-20T12:31:32.123Z"), ("type", .str "platform.report"),
    ("record", .obj [("requestId", .str "A"), ("metrics", .str "none")])]

/-- A `platform.report` event on the wire whose `durationMs` is the integer
`2 ^ 1400`, beyond the largest `float64`. -/
def hugeDurationJSON : JSON :=
  .obj [("time", .str "2020-08-20T12:31:32.123Z"), ("type", .str "platform.report"),
    ("record", .obj [("requestId", .str "A"),
      ("metrics", .obj [("durationMs", .num ((1 <<< 1400 : Nat) : Rat))])])]

/-- A `platform.report` event on the wire with `null` for `status`, with
`requestId` twice and with two `metrics` objects. -/
def mergedReportJSON : JSON :=
  .obj [("time", .str "2020-08-20T12:31:32.123Z"), ("type", .str "platform.report"),
    ("record", .obj [("requestId", .str "A"), ("status", .null),
      ("metrics", .obj [("durationMs", .num 10), ("memorySizeMB", .num 512)]),
      ("requestId", .str "B"), ("requestId", .null),
      ("metrics", .obj [("durationMs", .num 20), ("memorySizeMB", .null)])])]

/-! ## Spec-side: reading JSON text (RFC 8259) -/

/-- Spec: the value of a hexadecimal digit. -/
def hexValue (c : Char) : Option Nat :=
  if 48 ≤ c.toNat ∧ c.toNat ≤ 57 then some (c.toNat - 48)
  else if 97 ≤ c.toNat ∧ c.toNat ≤ 102 then some (c.toNat - 87)
  else if 65 ≤ c.toNat ∧ c.toNat ≤ 70 then some (c.toNat - 55)
  else none

/-- Spec: the character that the escape `\u` with these four hexadecimal digits
stands for. The halves of a surrogate pair are not read. -/
def unicodeEscape (a b c d : Char) : Option Char :=
  match hexValue a, hexValue b, hexValue c, hexValue d with
  | some x, some y, some z, some w =>
    if ((x * 16 + y) * 16 + z) * 16 + w < 0xD800 ∨ 0xDFFF < ((x * 16 + y) * 16 + z) * 16 + w then
      some (Char.ofNat (((x * 16 + y) * 16 + z) * 16 + w))
    else none
  | _, _, _, _ => none

/-- Spec: the character that a two-character escape stands for, by the
character after the backslash. -/
def simpleEscape (e : Char) : Option Char :=
  if e = '\x22' then some '\x22'
  else if e = '\x5c' then some '\x5c'
  else if e = '/' then some '/'
  else if e = 'b' then some '\x08'
  else if e = 'f' then some '\x0c'
  else if e = 'n' then some '\n'
  else if e = 'r' then some '\r'
  else if e = 't' then some '\t'
  else none

/-- Spec: reading a JSON string after its opening quotation mark: the characters
it stands for and the text after the closing quotation mark; `none` when the
text is no JSON string (a control character, a wrong escape, no closing mark). -/
def unquoteBody : List Char → Option (List Char × List Char)
  | [] => none
  | c :: cs =>
    if c = '\x22' then some ([], cs)
    else if c = '\x5c' then
      match cs with
      | [] => none
      | e :: rest =>
        if e = 'u' then
          match rest with
          | a :: b :: x :: d :: rest2 =>
            match unicodeEscape a b x d, unquoteBody rest2 with
            | some ch, some r => some (ch :: r.1, r.2)
            | _, _ => none
          | _ => none
        else
          match simpleEscape e, unquoteBody rest with
          | some ch, some r => some (ch :: r.1, r.2)
          | _, _ => none
    else if c.toNat < 0x20 then none
    else
      match unquoteBody cs with
      | some r => some (c :: r.1, r.2)
      | none => none

/-- Spec: the number that decimal digits stand for. -/
def digitsValue (ds : List Char) : Nat := ds.foldl (fun acc d => 10 * acc + (d.toNat - 48)) 0

/-- Spec: reading a JSON number without fraction and exponent: an optional minus
sign and digits, without a leading zero before other digits. -/
def readInteger (input : List Char) : Option (Int × List Char) :=
  match input with
  | [] => none
  | c :: rest =>
    if c = '-' then
      if rest.takeWhile Char.isDigit = [] ∨
          ((rest.takeWhile Char.isDigit).head? = some '0' ∧ rest.takeWhile Char.isDigit ≠ ['0']) then
        none
      else some (- (digitsValue (rest.takeWhile Char.isDigit) : Int), rest.dropWhile Char.isDigit)
    else
      if input.takeWhile Char.isDigit = [] ∨
          ((input.takeWhile Char.isDigit).head? = some '0' ∧
            input.takeWhile Char.isDigit ≠ ['0']) then
        none
      else some ((digitsValue (input.takeWhile Char.isDigit) : Int), input.dropWhile Char.isDigit)

mutual
/-- Spec: reading one JSON value at the start of a text written without
insignificant whitespace and with integers for numbers: the value and the text
after it. `fuel` bounds the nesting and the number of members. -/
def parseValue : Nat → List Char → Option (JSON × List Char)
  | 0, _ => none
  | fuel + 1, input =>
    match input with
    | [] => none
    | c :: rest =>
      if c = '\x7b' then
        if rest.head? = some '\x7d' then some (.obj [], rest.tail)
        else
          match parseMembers fuel rest with
          | some r => some (.obj r.1, r.2)
          | none => none
      else if c = '[' then
        if rest.head? = some ']' then some (.arr [], rest.tail)
        else
          match parseElements fuel rest with
          | some r => some (.arr r.1, r.2)
          | none => none
      else if c = '\x22' then
        match unquoteBody rest with
        | some r => some (.str (String.mk r.1), r.2)
        | none => none
      else if input.take 4 = ['n', 'u', 'l', 'l'] then some (.null, input.drop 4)
      else if input.take 4 = ['t', 'r', 'u', 'e'] then some (.bool true, input.drop 4)
      else if input.take 5 = ['f', 'a', 'l', 's', 'e'] then some (.bool false, input.drop 5)
      else
        match readInteger input with
        | some r => some (.num r.1, r.2)
        | none => none
/-- Spec: reading the members of an object up to its closing brace. -/
def parseMembers : Nat → List Char → Option (List (String × JSON) × List Char)
  | 0, _ => none
  | fuel + 1, input =>
    match input with
    | [] => none
    | c :: rest =>
      if c = '\x22' then
        match unquoteBody rest with
        | none => none
        | some k =>
          if k.2.head? = some ':' then
            match parseValue fuel k.2.tail with
            | none => none
            | some v =>
              if v.2.head? = some ',' then
                match parseMembers fuel v.2.tail with
                | some ms => some ((String.mk k.1, v.1) :: ms.1, ms.2)
                | none => none
              else if v.2.head? = some '\x7d' then some ([(String.mk k.1, v.1)], v.2.tail)
              else none
          else none
      else none
/-- Spec: reading the elements of an array up to its closing bracket. -/
def parseElements : Nat → List Char → Option (List JSON × List Char)
  | 0, _ => none
  | fuel + 1, input =>
    match parseValue fuel input with
    | none => none
    | some v =>
      if v.2.head? = some ',' then
        match parseElements fuel v.2.tail with
        | some vs => some (v.1 :: vs.1, vs.2)
        | none => none
      else if v.2.head? = some ']' then some ([v.1], v.2.tail)
      else none
end

/-- Spec: the JSON value that a whole text spells; `none` when the text is not
well-formed. The length of the text is fuel enough. -/
def parseJSON (text : String) : Option JSON :=
  match parseValue text.length text.data with
  | some (v, []) => some v
  | _ => none

/-- Spec: `text` is a way to write the character `c` inside a JSON string: the
character itself, when it is no quotation mark, backslash or control character,
a two-character escape, or a `\u` escape of its code. -/
def EscapesChar (c : Char) (text : List Char) : Prop :=
  (text = [c] ∧ c ≠ '\x22' ∧ c ≠ '\x5c' ∧ 0x20 ≤ c.toNat) ∨
  (∃ e, simpleEscape e = some c ∧ text = ['\x5c', e]) ∨
  (∃ a b x d, unicodeEscape a b x d = some c ∧ text = ['\x5c', 'u', a, b, x, d])

/-- Spec: `quote` writes a string as a JSON string: a quotation mark, each
character in one of the ways JSON has for it, a quotation mark. This is what
the documentation of `fastjson.Writer.String` says of it: quoted and escaped. -/
def QuotesJSON (quote : String → String) : Prop :=
  ∀ s : String, ∃ parts : List (List Char),
    List.Forall₂ EscapesChar s.data parts ∧
      (quote s).data = '\x22' :: (parts.flatten ++ ['\x22'])

/-- Spec: a character that stands for itself in a JSON string. -/
def plainChar (c : Char) : Bool := c ≠ '\x22' && c ≠ '\x5c' && decide (0x20 ≤ c.toNat)

/-- Spec: digits that are the digits of a JSON integer. -/
def plainDigits (ds : List Char) : Bool :=
  !ds.isEmpty && ds.all Char.isDigit && (ds.head? != some '0' || ds == ['0'])

/-- Spec: a text that is a JSON integer, as `strconv` writes an `int64`. -/
def isJSONInteger (s : String) : Bool :=
  match s.data with
  | [] => false
  | c :: rest => if c = '-' then plainDigits rest else plainDigits (c :: rest)

/-- Spec: the integer that such a text stands for. -/
def integerValue (s : String) : Int :=
  match s.data with
  | [] => 0
  | c :: rest => if c = '-' then - (digitsValue rest : Int) else (digitsValue (c :: rest) : Int)

/-- A lower-case hexadecimal digit. -/
def hexDigit (n : Nat) : Char := if n < 10 then Char.ofNat (48 + n) else Char.ofNat (87 + n)

/-- One character of a string as `encoding/json` writes it by default: the
quotation mark and the backslash after a backslash, line feed, carriage return
and tab as `\n`, `\r` and `\t`, the other control characters and `<`, `>`, `&`
as `\u00` and two digits, the separators U+2028 and U+2029 as `\u2028` and
`\u2029`, any other character as it is. -/
def escapeChar (c : Char) : List Char :=
  if c = '\x22' then ['\x5c', '\x22']
  else if c = '\x5c' then ['\x5c', '\x5c']
  else if c = '\n' then ['\x5c', 'n']
  else if c = '\r' then ['\x5c', 'r']
  else if c = '\t' then ['\x5c', 't']
  else if c.toNat < 0x20 ∨ c = '<' ∨ c = '>' ∨ c = '&' then
    ['\x5c', 'u', '0', '0', hexDigit (c.toNat / 16), hexDigit (c.toNat % 16)]
  else if c.toNat = 0x2028 ∨ c.toNat = 0x2029 then
    ['\x5c', 'u', '2', '0', '2', hexDigit (c.toNat % 16)]
  else [c]

/-- The library of the worked examples, but with a `quote` that escapes. -/
def escapingLib : Lib :=
  { exampleLib with
    quote := fun s => String.mk ('\x22' :: (s.data.flatMap escapeChar ++ ['\x22'])) }

/-! ## Lemmas on one pass of the loop -/

/-- The two `return` statements inside the switch, and no other path, end a run. -/
theorem processEvent_returns (L : Lib)
    (P : NextEventResponse → TelEvent → Except GoError String)
    (tc : Client) (requestID arn : String) (prevEvent : Option NextEventResponse)
    (isShutdown done : Bool) (st : LoopState) (e : TelEvent) :
    (processEvent L P tc requestID arn prevEvent isShutdown done st e).2 = true ↔
      (e.Typ = PlatformRuntimeDone ∧ isShutdown = false ∧ e.Record.RequestID = requestID) ∨
      (e.Typ = PlatformReport ∧ isShutdown = true ∧
        ∃ prev, prevEvent = some prev ∧ e.Record.RequestID = prev.RequestID) := by
  have d1 : PlatformRuntimeDone ≠ PlatformStart := by decide
  have d2 : PlatformReport ≠ PlatformStart := by decide
  have d3 : PlatformReport ≠ PlatformRuntimeDone := by decide
  unfold processEvent
  by_cases h1 : e.Typ = PlatformStart
  · have n2 : e.Typ ≠ PlatformRuntimeDone := by rw [h1]; exact d1.symm
    have n3 : e.Typ ≠ PlatformReport := by rw [h1]; exact d2.symm
    simp [if_pos h1, n2, n3]
  by_cases h2 : e.Typ = PlatformRuntimeDone
  · have n3 : e.Typ ≠ PlatformReport := by rw [h2]; exact d3.symm
    simp only [if_neg h1, if_pos h2]
    cases isShutdown <;> simp [n3]
    split_ifs <;> simp_all
  by_cases h3 : e.Typ = PlatformReport
  · simp only [if_neg h1, if_neg h2, if_pos h3]
    rcases prevEvent with _ | prev
    · simp [h2]
    · by_cases h4 : e.Record.RequestID = prev.RequestID
      · cases isShutdown
        · simp only [if_pos h4]
          simp [h2]
        · simp only [if_pos h4]
          simp [h2, h3, h4]
      · simp [h2, h4]
  simp only [if_neg h1, if_neg h2, if_neg h3]
  by_cases h4 : e.Typ = PlatformLogsDropped
  · simp only [if_pos h4]
    simp [h2, h3]
  by_cases h5 : e.Typ = FunctionLog
  · simp only [if_neg h4, if_pos h5]
    split <;> simp [h2, h3]
  · simp [h2, h3, h4, h5]

theorem processEvent_obs (L : Lib)
    (P : NextEventResponse → TelEvent → Except GoError String)
    (tc tc2 : Client) (requestID arn : String) (prevEvent : Option NextEventResponse)
    (isShutdown done : Bool) (st st2 : LoopState) (e : TelEvent) (h : st.obs = st2.obs) :
    (processEvent L P tc requestID arn prevEvent isShutdown done st e).1.obs =
      (processEvent L P tc2 requestID arn prevEvent isShutdown done st2 e).1.obs ∧
    (processEvent L P tc requestID arn prevEvent isShutdown done st e).2 =
      (processEvent L P tc2 requestID arn prevEvent isShutdown done st2 e).2 := by
  simp only [LoopState.obs, Prod.mk.injEq] at h
  obtain ⟨ha, hb, hc⟩ := h
  unfold processEvent
  by_cases h1 : e.Typ = PlatformStart
  · simp [if_pos h1, LoopState.obs, LoopState.log, hb, hc]
  by_cases h2 : e.Typ = PlatformRuntimeDone
  · simp only [if_neg h1, if_pos h2]
    split_ifs <;> simp [LoopState.obs, LoopState.log, ha, hb, hc]
  by_cases h3 : e.Typ = PlatformReport
  · simp only [if_neg h1, if_neg h2, if_pos h3]
    rcases prevEvent with _ | prev
    · simp [LoopState.obs, LoopState.log, ha, hb, hc]
    · simp only []
      split_ifs <;> cases P prev e <;> cases done <;>
        simp [LoopState.obs, LoopState.log, LoopState.send, ha, hb, hc]
  simp only [if_neg h1, if_neg h2, if_neg h3]
  by_cases h4 : e.Typ = PlatformLogsDropped
  · simp [if_pos h4, LoopState.obs, LoopState.log, ha, hb, hc]
  by_cases h5 : e.Typ = FunctionLog
  · simp only [if_neg h4, if_pos h5, LoopState.log, ha]
    cases ProcessFunctionTelemetry L st2.platformStartReqID arn e <;> cases done <;>
      simp [LoopState.obs, LoopState.log, LoopState.send, ha, hb, hc]
  · simp [if_neg h4, if_neg h5, LoopState.obs, LoopState.log, ha, hb, hc]

theorem processEvent_startID (L : Lib)
    (P : NextEventResponse → TelEvent → Except GoError String)
    (tc : Client) (requestID arn : String) (prevEvent : Option NextEventResponse)
    (isShutdown done : Bool) (st : LoopState) (e : TelEvent) :
    (processEvent L P tc requestID arn prevEvent isShutdown done st e).1.platformStartReqID =
      if e.Typ = PlatformStart then e.Record.RequestID else st.platformStartReqID := by
  unfold processEvent
  by_cases h1 : e.Typ = PlatformStart
  · simp [if_pos h1]
  by_cases h2 : e.Typ = PlatformRuntimeDone
  · simp only [if_neg h1, if_pos h2]
    split_ifs <;> simp [LoopState.log]
  by_cases h3 : e.Typ = PlatformReport
  · simp only [if_neg h1, if_neg h2, if_pos h3]
    rcases prevEvent with _ | prev
    · simp [LoopState.log]
    · simp only []
      split_ifs <;> cases P prev e <;> cases done <;> simp [LoopState.log, LoopState.send]
  simp only [if_neg h1, if_neg h2, if_neg h3]
  by_cases h4 : e.Typ = PlatformLogsDropped
  · simp [if_pos h4, LoopState.log]
  by_cases h5 : e.Typ = FunctionLog
  · simp only [if_neg h4, if_pos h5, LoopState.log]
    cases ProcessFunctionTelemetry L st.platformStartReqID arn e <;> cases done <;>
      simp [LoopState.log, LoopState.send]
  · simp [if_neg h4, if_neg h5, LoopState.log]

/-- The document of a function log line, when the timestamp is written without
error. -/
theorem ProcessFunctionTelemetry_ok (L : Lib) (requestID arn : String) (e : TelEvent)
    (h : (L.marshalTime e.Time).2 = none) :
    ProcessFunctionTelemetry L requestID arn e =
      .ok ("\x7b\"telemetry\":\x7b\"message\":" ++ L.quote e.StringRecord ++
        ",\"@timestamp\":" ++ (L.marshalTime e.Time).1 ++
        ",\"faas\":\x7b\"id\":" ++ L.quote arn ++ ",\"execution\":" ++ L.quote requestID ++
        "\x7d\x7d\x7d") := by
  simp [ProcessFunctionTelemetry, telemetryContainer.MarshalFastJSON,
    telemetryLine.MarshalFastJSON, faas.MarshalFastJSON, Writer.RawString, Writer.RawByte,
    Writer.Str, Writer.Bytes, h]
  apply String.ext
  simp only [String.data_push, String.data_append, List.append_assoc]
  rfl

theorem processEvent_report_mismatch (L : Lib)
    (P : NextEventResponse → TelEvent → Except GoError String)
    (tc : Client) (requestID arn : String) (prevEvent : Option NextEventResponse)
    (isShutdown done : Bool) (st : LoopState) (e : TelEvent)
    (hT : e.Typ = PlatformReport)
    (hM : ∀ prev, prevEvent = some prev → e.Record.RequestID ≠ prev.RequestID) :
    processEvent L P tc requestID arn prevEvent isShutdown done st e =
      ((st.log .debug "Received telemetry event %v for request ID %s").log .warn
        "Report event request id didn't match the previous event id", false) := by
  have h1 : e.Typ ≠ PlatformStart := by rw [hT]; decide
  have h2 : e.Typ ≠ PlatformRuntimeDone := by rw [hT]; decide
  unfold processEvent
  simp only [if_neg h1, if_neg h2, if_pos hT]
  rcases prevEvent with _ | prev
  · rfl
  · simp [hM prev rfl]

theorem processEvent_report_match (L : Lib)
    (P : NextEventResponse → TelEvent → Except GoError String)
    (tc : Client) (requestID arn : String) (prev : NextEventResponse)
    (isShutdown done : Bool) (st : LoopState) (e : TelEvent) (doc : String)
    (hT : e.Typ = PlatformReport) (hM : e.Record.RequestID = prev.RequestID)
    (hD : P prev e = .ok doc) :
    processEvent L P tc requestID arn (some prev) isShutdown done st e =
      if isShutdown then
        ((((st.log .debug "Received telemetry event %v for request ID %s").log .debug
          "Received platform report for %s").send done doc).log .debug
          "Processed platform report event for reqID %s as the last log event before shutdown",
          true)
      else
        (((st.log .debug "Received telemetry event %v for request ID %s").log .debug
          "Received platform report for %s").send done doc, false) := by
  have h1 : e.Typ ≠ PlatformStart := by rw [hT]; decide
  have h2 : e.Typ ≠ PlatformRuntimeDone := by rw [hT]; decide
  unfold processEvent
  simp only [if_neg h1, if_neg h2, if_pos hT, if_pos hM, hD]

theorem processEvent_function (L : Lib)
    (P : NextEventResponse → TelEvent → Except GoError String)
    (tc : Client) (requestID arn : String) (prevEvent : Option NextEventResponse)
    (isShutdown done : Bool) (st : LoopState) (e : TelEvent) (doc : String)
    (hT : e.Typ = FunctionLog)
    (hD : ProcessFunctionTelemetry L st.platformStartReqID arn e = .ok doc) :
    processEvent L P tc requestID arn prevEvent isShutdown done st e =
      ((st.log .debug "Received telemetry event %v for request ID %s").send done doc, false) := by
  have h1 : e.Typ ≠ PlatformStart := by rw [hT]; decide
  have h2 : e.Typ ≠ PlatformRuntimeDone := by rw [hT]; decide
  have h3 : e.Typ ≠ PlatformReport := by rw [hT]; decide
  have h4 : e.Typ ≠ PlatformLogsDropped := by rw [hT]; decide
  unfold processEvent
  simp only [if_neg h1, if_neg h2, if_neg h3, if_neg h4, if_pos hT, LoopState.log, hD]

theorem processEvent_runtimeDone_calls (L : Lib)
    (P : NextEventResponse → TelEvent → Except GoError String)
    (tc : Client) (requestID arn : String) (prevEvent : Option NextEventResponse)
    (isShutdown done : Bool) (st : LoopState) (e : TelEvent)
    (hT : e.Typ = PlatformRuntimeDone) :
    (processEvent L P tc requestID arn prevEvent isShutdown done st e).1.runtimeDoneCalls =
      st.runtimeDoneCalls ++ [(e.Record.RequestID, e.Record.Status, e.Time)] := by
  have h1 : e.Typ ≠ PlatformStart := by rw [hT]; decide
  unfold processEvent
  simp only [if_neg h1, if_pos hT]
  split_ifs <;> simp [LoopState.log]

/-! ## Lemmas on the loop -/

@[simp] theorem background_doneAtRecv (k : Nat) : Ctx.background.doneAtRecv k = false := rfl

@[simp] theorem background_doneAtSend (k : Nat) : Ctx.background.doneAtSend k = false := rfl

/-- A run that is waiting after `pre` goes on with the events that follow. -/
theorem processLoop_append (L : Lib)
    (P : NextEventResponse → TelEvent → Except GoError String)
    (tc : Client) (ctx : Ctx) (requestID arn : String) (prevEvent : Option NextEventResponse)
    (isShutdown : Bool) (post : List TelEvent) :
    ∀ (pre : List TelEvent) (k : Nat) (st : LoopState),
      (processLoop L P tc ctx requestID arn prevEvent isShutdown k st pre).exit = .waiting →
      processLoop L P tc ctx requestID arn prevEvent isShutdown k st (pre ++ post) =
        processLoop L P tc ctx requestID arn prevEvent isShutdown (k + pre.length)
          (processLoop L P tc ctx requestID arn prevEvent isShutdown k st pre).state post := by
  intro pre
  induction pre with
  | nil =>
    intro k st h
    by_cases hc : ctx.doneAtRecv k = true
    · simp [processLoop, hc] at h
    · simp [processLoop, hc]
  | cons e pre ih =>
    intro k st h
    by_cases hc : ctx.doneAtRecv k = true
    · simp [processLoop, hc] at h
    · by_cases hr : (processEvent L P tc requestID arn prevEvent isShutdown
          (ctx.doneAtSend k) st e).2 = true
      · simp [processLoop, hc, hr] at h
      · rw [List.cons_append]
        simp only [processLoop, hc, hr, if_false, Bool.false_eq_true] at h ⊢
        rw [ih (k + 1) _ h]
        simp only [List.length_cons]
        congr 1
        omega

/-- Runs that differ in the lifecycler and in the log only stay so. -/
theorem processLoop_obs (L : Lib)
    (P : NextEventResponse → TelEvent → Except GoError String)
    (tc tc2 : Client) (ctx : Ctx) (requestID arn : String)
    (prevEvent : Option NextEventResponse) (isShutdown : Bool) :
    ∀ (evs : List TelEvent) (k : Nat) (st st2 : LoopState), st.obs = st2.obs →
      (processLoop L P tc ctx requestID arn prevEvent isShutdown k st evs).exit =
        (processLoop L P tc2 ctx requestID arn prevEvent isShutdown k st2 evs).exit ∧
      (processLoop L P tc ctx requestID arn prevEvent isShutdown k st evs).rest =
        (processLoop L P tc2 ctx requestID arn prevEvent isShutdown k st2 evs).rest ∧
      (processLoop L P tc ctx requestID arn prevEvent isShutdown k st evs).state.obs =
        (processLoop L P tc2 ctx requestID arn prevEvent isShutdown k st2 evs).state.obs := by
  intro evs
  induction evs with
  | nil =>
    intro k st st2 h
    by_cases hc : ctx.doneAtRecv k = true
    · simpa [processLoop, hc, LoopState.obs, LoopState.log] using h
    · simpa [processLoop, hc] using h
  | cons e evs ih =>
    intro k st st2 h
    by_cases hc : ctx.doneAtRecv k = true
    · simpa [processLoop, hc, LoopState.obs, LoopState.log] using h
    · obtain ⟨h1, h2⟩ := processEvent_obs L P tc tc2 requestID arn prevEvent isShutdown
        (ctx.doneAtSend k) st st2 e h
      by_cases hr : (processEvent L P tc2 requestID arn prevEvent isShutdown
          (ctx.doneAtSend k) st2 e).2 = true
      · simp [processLoop, hc, hr, h2, h1]
      · simp only [processLoop, hc, hr, h2, if_false, Bool.false_eq_true]
        exact ih (k + 1) _ _ h1

/-- Without cancellation a run over events none of which is terminal is waiting
with the channel drained. -/
theorem processLoop_waiting (L : Lib)
    (P : NextEventResponse → TelEvent → Except GoError String)
    (tc : Client) (requestID arn : String) (prevEvent : Option NextEventResponse)
    (isShutdown : Bool) :
    ∀ (evs : List TelEvent) (k : Nat) (st : LoopState),
      (∀ x ∈ evs, ¬ terminal requestID prevEvent isShutdown x) →
      (processLoop L P tc Ctx.background requestID arn prevEvent isShutdown k st evs).exit =
        .waiting ∧
      (processLoop L P tc Ctx.background requestID arn prevEvent isShutdown k st evs).rest =
        [] := by
  intro evs
  induction evs with
  | nil => intro k st _; simp [processLoop]
  | cons e evs ih =>
    intro k st h
    have he : ¬ (processEvent L P tc requestID arn prevEvent isShutdown false st e).2 = true := by
      rw [processEvent_returns]
      exact h e (List.mem_cons_self _ _)
    simp only [processLoop, background_doneAtRecv, background_doneAtSend, he, if_false,
      Bool.false_eq_true]
    exact ih (k + 1) _ (fun x hx => h x (List.mem_cons_of_mem _ hx))

/-- Without cancellation a run returns at the first terminal event and leaves
the events after it in the channel. -/
theorem processLoop_completed (L : Lib)
    (P : NextEventResponse → TelEvent → Except GoError String)
    (tc : Client) (requestID arn : String) (prevEvent : Option NextEventResponse)
    (isShutdown : Bool) (pre : List TelEvent) (e : TelEvent) (post : List TelEvent)
    (k : Nat) (st : LoopState)
    (hpre : ∀ x ∈ pre, ¬ terminal requestID prevEvent isShutdown x)
    (he : terminal requestID prevEvent isShutdown e) :
    (processLoop L P tc Ctx.background requestID arn prevEvent isShutdown k st
      (pre ++ e :: post)).exit = .completed ∧
    (processLoop L P tc Ctx.background requestID arn prevEvent isShutdown k st
      (pre ++ e :: post)).rest = post := by
  have hw := (processLoop_waiting L P tc requestID arn prevEvent isShutdown pre k st hpre).1
  rw [processLoop_append L P tc Ctx.background requestID arn prevEvent isShutdown _ pre k st hw]
  have hr : (processEvent L P tc requestID arn prevEvent isShutdown false
      (processLoop L P tc Ctx.background requestID arn prevEvent isShutdown k st pre).state
      e).2 = true := by
    rw [processEvent_returns]; exact he
  simp [processLoop, hr]

/-- Without cancellation the number of the pass plays no part. -/
theorem processLoop_background_pass (L : Lib)
    (P : NextEventResponse → TelEvent → Except GoError String)
    (tc : Client) (requestID arn : String) (prevEvent : Option NextEventResponse)
    (isShutdown : Bool) :
    ∀ (evs : List TelEvent) (k k2 : Nat) (st : LoopState),
      processLoop L P tc Ctx.background requestID arn prevEvent isShutdown k st evs =
        processLoop L P tc Ctx.background requestID arn prevEvent isShutdown k2 st evs := by
  intro evs
  induction evs with
  | nil => intro k k2 st; simp [processLoop]
  | cons e evs ih =>
    intro k k2 st
    simp only [processLoop, background_doneAtRecv, background_doneAtSend, if_false,
      Bool.false_eq_true]
    rw [ih (k + 1) (k2 + 1)]

/-- The events left in the channel are a suffix of the events delivered. -/
theorem processLoop_rest_suffix (L : Lib)
    (P : NextEventResponse → TelEvent → Except GoError String)
    (tc : Client) (ctx : Ctx) (requestID arn : String) (prevEvent : Option NextEventResponse)
    (isShutdown : Bool) :
    ∀ (evs : List TelEvent) (k : Nat) (st : LoopState),
      (processLoop L P tc ctx requestID arn prevEvent isShutdown k st evs).rest <:+ evs := by
  intro evs
  induction evs with
  | nil => intro k st; by_cases hc : ctx.doneAtRecv k = true <;> simp [processLoop, hc]
  | cons e evs ih =>
    intro k st
    by_cases hc : ctx.doneAtRecv k = true
    · simp [processLoop, hc]
    · by_cases hr : (processEvent L P tc requestID arn prevEvent isShutdown
          (ctx.doneAtSend k) st e).2 = true
      · simp [processLoop, hc, hr]
      · simp only [processLoop, hc, hr, if_false, Bool.false_eq_true]
        exact (ih (k + 1) _).trans (List.suffix_cons e evs)

/-- A waiting run holds in `platformStartReqID` the request id of the last
`platform.start` event, or what it held at the start. -/
theorem processLoop_startID (L : Lib)
    (P : NextEventResponse → TelEvent → Except GoError String)
    (tc : Client) (ctx : Ctx) (requestID arn : String) (prevEvent : Option NextEventResponse)
    (isShutdown : Bool) :
    ∀ (evs : List TelEvent) (k : Nat) (st : LoopState),
      (processLoop L P tc ctx requestID arn prevEvent isShutdown k st evs).exit = .waiting →
      (processLoop L P tc ctx requestID arn prevEvent isShutdown k st evs).state.platformStartReqID
        = (((evs.filter (fun e => e.Typ = PlatformStart)).getLast?).map
            (fun e => e.Record.RequestID)).getD st.platformStartReqID := by
  intro evs
  induction evs with
  | nil =>
    intro k st h
    by_cases hc : ctx.doneAtRecv k = true
    · simp [processLoop, hc] at h
    · simp [processLoop, hc]
  | cons e evs ih =>
    intro k st h
    by_cases hc : ctx.doneAtRecv k = true
    · simp [processLoop, hc] at h
    · by_cases hr : (processEvent L P tc requestID arn prevEvent isShutdown
          (ctx.doneAtSend k) st e).2 = true
      · simp [processLoop, hc, hr] at h
      · simp only [processLoop, hc, hr, if_false, Bool.false_eq_true] at h ⊢
        rw [ih (k + 1) _ h, processEvent_startID]
        by_cases hs : e.Typ = PlatformStart
        · simp only [hs, if_true, List.filter_cons, decide_True]
          cases hl : (evs.filter (fun e => decide (e.Typ = PlatformStart))).getLast? with
          | none => simp [List.getLast?_cons, hl]
          | some y => simp [List.getLast?_cons, hl]
        · simp [hs, List.filter_cons]

/-- Without cancellation: the run over `pre` and one more event. -/
theorem processLoop_snoc (L : Lib)
    (P : NextEventResponse → TelEvent → Except GoError String)
    (tc : Client) (requestID arn : String) (prevEvent : Option NextEventResponse)
    (isShutdown : Bool) (pre : List TelEvent) (e : TelEvent) (post : List TelEvent)
    (h : (ProcessEvents L P tc pre Ctx.background requestID arn prevEvent isShutdown).exit
      = .waiting) :
    ProcessEvents L P tc (pre ++ e :: post) Ctx.background requestID arn prevEvent isShutdown =
      if (processEvent L P tc requestID arn prevEvent isShutdown false
        (ProcessEvents L P tc pre Ctx.background requestID arn prevEvent isShutdown).state e).2
      then ⟨(processEvent L P tc requestID arn prevEvent isShutdown false
        (ProcessEvents L P tc pre Ctx.background requestID arn prevEvent isShutdown).state e).1,
        .completed, post⟩
      else processLoop L P tc Ctx.background requestID arn prevEvent isShutdown 0
        (processEvent L P tc requestID arn prevEvent isShutdown false
          (ProcessEvents L P tc pre Ctx.background requestID arn prevEvent isShutdown).state e).1
        post := by
  unfold ProcessEvents at h ⊢
  rw [processLoop_append L P tc Ctx.background requestID arn prevEvent isShutdown _ pre 0 {} h]
  simp only [processLoop, background_doneAtRecv, background_doneAtSend, if_false,
    Bool.false_eq_true]
  split_ifs
  · rfl
  · exact processLoop_background_pass L P tc requestID arn prevEvent isShutdown post _ 0 _

/-! ## Termination of a window (C1, C2) -/

/-- C1: in an invoke window (`isShutdown = false`) without cancellation,
`ProcessEvents` returns right after the first `platform.runtimeDone` event whose
request id is the window's: the events after it stay in the channel, and over
the events before it alone the run has not returned. As long as no such event
has been delivered the run has not returned, whatever `platform.report` events
and `platform.runtimeDone` events of other requests were among them. -/
theorem invoke_window_ends_at_matching_runtimeDone (L : Lib)
    (P : NextEventResponse → TelEvent → Except GoError String)
    (tc : Client) (requestID arn : String) (prevEvent : Option NextEventResponse)
    (evs : List TelEvent) :
    (∀ pre e post, evs = pre ++ e :: post →
      e.Typ = PlatformRuntimeDone → e.Record.RequestID = requestID →
      (∀ x ∈ pre, ¬ (x.Typ = PlatformRuntimeDone ∧ x.Record.RequestID = requestID)) →
      (ProcessEvents L P tc evs Ctx.background requestID arn prevEvent false).exit
        = .completed ∧
      (ProcessEvents L P tc evs Ctx.background requestID arn prevEvent false).rest = post ∧
      (ProcessEvents L P tc pre Ctx.background requestID arn prevEvent false).exit
        = .waiting) ∧
    ((∀ x ∈ evs, ¬ (x.Typ = PlatformRuntimeDone ∧ x.Record.RequestID = requestID)) →
      (ProcessEvents L P tc evs Ctx.background requestID arn prevEvent false).exit
        = .waiting ∧
      (ProcessEvents L P tc evs Ctx.background requestID arn prevEvent false).rest = []) := by
  have hnt : ∀ l : List TelEvent,
      (∀ x ∈ l, ¬ (x.Typ = PlatformRuntimeDone ∧ x.Record.RequestID = requestID)) →
      ∀ x ∈ l, ¬ terminal requestID prevEvent false x := by
    intro l hl x hx ht
    rcases ht with ⟨h1, _, h3⟩ | ⟨_, h2, _⟩
    · exact hl x hx ⟨h1, h3⟩
    · exact Bool.noConfusion h2
  refine ⟨?_, ?_⟩
  · intro pre e post hevs hT hR hpre
    subst hevs
    have he : terminal requestID prevEvent false e := Or.inl ⟨hT, rfl, hR⟩
    have hc := processLoop_completed L P tc requestID arn prevEvent false pre e post 0 {}
      (hnt pre hpre) he
    exact ⟨hc.1, hc.2,
      (processLoop_waiting L P tc requestID arn prevEvent false pre 0 {} (hnt pre hpre)).1⟩
  · intro h
    exact processLoop_waiting L P tc requestID arn prevEvent false evs 0 {} (hnt evs h)

/-- C1, worked example: the window of request `A`; a report of the previous
request, the `platform.runtimeDone` of another request and a report of `A` itself
pass, the `platform.runtimeDone` of `A` ends the window, the event after it
stays in the channel. -/
theorem invoke_window_ends_at_matching_runtimeDone_witness :
    (ProcessEvents exampleLib exampleReport exampleClient
      ([evStart "A", evReport "P" 10, evRuntimeDone "B" "success", evReport "A" 3] ++
        evRuntimeDone "A" "success" :: [evFunction "late"])
      Ctx.background "A" "arn" (some ⟨"P", "arn"⟩) false).exit = .completed ∧
    (ProcessEvents exampleLib exampleReport exampleClient
      ([evStart "A", evReport "P" 10, evRuntimeDone "B" "success", evReport "A" 3] ++
        evRuntimeDone "A" "success" :: [evFunction "late"])
      Ctx.background "A" "arn" (some ⟨"P", "arn"⟩) false).rest = [evFunction "late"] ∧
    (ProcessEvents exampleLib exampleReport exampleClient
      [evStart "A", evReport "P" 10, evRuntimeDone "B" "success", evReport "A" 3]
      Ctx.background "A" "arn" (some ⟨"P", "arn"⟩) false).exit = .waiting :=
  (invoke_window_ends_at_matching_runtimeDone exampleLib exampleReport exampleClient "A" "arn"
    (some ⟨"P", "arn"⟩) _).1
    [evStart "A", evReport "P" 10, evRuntimeDone "B" "success", evReport "A" 3]
    (evRuntimeDone "A" "success") [evFunction "late"] rfl rfl rfl (by decide)

/-- C2: in a shutdown window (`isShutdown = true`) without cancellation,
`ProcessEvents` returns right after the first `platform.report` event whose
request id is `prevEvent.RequestID`: the events after it stay in the channel,
and over the events before it alone the run has not returned. As long as no such
event has been delivered the run has not returned, whatever `platform.runtimeDone`
events were among them, those of the window's request id included; and with
`prevEvent` nil no sequence of events makes the run return. -/
theorem shutdown_window_ends_at_matching_report (L : Lib)
    (P : NextEventResponse → TelEvent → Except GoError String)
    (tc : Client) (requestID arn : String) (evs : List TelEvent) :
    (∀ prev pre e post, evs = pre ++ e :: post →
      e.Typ = PlatformReport → e.Record.RequestID = prev.RequestID →
      (∀ x ∈ pre, ¬ (x.Typ = PlatformReport ∧ x.Record.RequestID = prev.RequestID)) →
      (ProcessEvents L P tc evs Ctx.background requestID arn (some prev) true).exit
        = .completed ∧
      (ProcessEvents L P tc evs Ctx.background requestID arn (some prev) true).rest = post ∧
      (ProcessEvents L P tc pre Ctx.background requestID arn (some prev) true).exit
        = .waiting) ∧
    (∀ prev,
      (∀ x ∈ evs, ¬ (x.Typ = PlatformReport ∧ x.Record.RequestID = prev.RequestID)) →
      (ProcessEvents L P tc evs Ctx.background requestID arn (some prev) true).exit
        = .waiting ∧
      (ProcessEvents L P tc evs Ctx.background requestID arn (some prev) true).rest = []) ∧
    ((ProcessEvents L P tc evs Ctx.background requestID arn none true).exit = .waiting ∧
      (ProcessEvents L P tc evs Ctx.background requestID arn none true).rest = []) := by
  have hnt : ∀ (prev : NextEventResponse) (l : List TelEvent),
      (∀ x ∈ l, ¬ (x.Typ = PlatformReport ∧ x.Record.RequestID = prev.RequestID)) →
      ∀ x ∈ l, ¬ terminal requestID (some prev) true x := by
    intro prev l hl x hx ht
    rcases ht with ⟨_, h2, _⟩ | ⟨h1, _, p, hp, h3⟩
    · exact Bool.noConfusion h2
    · cases hp
      exact hl x hx ⟨h1, h3⟩
  refine ⟨?_, ?_, ?_⟩
  · intro prev pre e post hevs hT hR hpre
    subst hevs
    have he : terminal requestID (some prev) true e := Or.inr ⟨hT, rfl, prev, rfl, hR⟩
    have hc := processLoop_completed L P tc requestID arn (some prev) true pre e post 0 {}
      (hnt prev pre hpre) he
    exact ⟨hc.1, hc.2,
      (processLoop_waiting L P tc requestID arn (some prev) true pre 0 {} (hnt prev pre hpre)).1⟩
  · intro prev h
    exact processLoop_waiting L P tc requestID arn (some prev) true evs 0 {} (hnt prev evs h)
  · apply processLoop_waiting L P tc requestID arn none true evs 0 {}
    intro x _ ht
    rcases ht with ⟨_, h2, _⟩ | ⟨_, _, p, hp, _⟩
    · exact Bool.noConfusion h2
    · cases hp

/-- C2, worked example: the shutdown window of request `B` with previous request
`A`; the `platform.runtimeDone` of `B` and a report of `B` pass, the report of
`A` ends the window, the event after it stays in the channel. -/
theorem shutdown_window_ends_at_matching_report_witness :
    (ProcessEvents exampleLib exampleReport exampleClient
      ([evRuntimeDone "B" "success", evReport "B" 1] ++ evReport "A" 10 :: [evFunction "late"])
      Ctx.background "B" "arn" (some ⟨"A", "arn"⟩) true).exit = .completed ∧
    (ProcessEvents exampleLib exampleReport exampleClient
      ([evRuntimeDone "B" "success", evReport "B" 1] ++ evReport "A" 10 :: [evFunction "late"])
      Ctx.background "B" "arn" (some ⟨"A", "arn"⟩) true).rest = [evFunction "late"] ∧
    (ProcessEvents exampleLib exampleReport exampleClient
      [evRuntimeDone "B" "success", evReport "B" 1]
      Ctx.background "B" "arn" (some ⟨"A", "arn"⟩) true).exit = .waiting :=
  (shutdown_window_ends_at_matching_report exampleLib exampleReport exampleClient "B" "arn"
    _).1 ⟨"A", "arn"⟩ [evRuntimeDone "B" "success", evReport "B" 1] (evReport "A" 10)
    [evFunction "late"] rfl rfl rfl (by decide)

/-! ## What single events do (C3, C4, C6, C7) -/

/-- C3: a `platform.report` event whose request id differs from
`prevEvent.RequestID`, or that arrives when `prevEvent` is nil, in any window:
the pass that processes it does not return, sends nothing on `dataChan`, leaves
`platformStartReqID` and the lifecycler alone and logs the warning; and a run
that processes it after the events `pre` goes on with the events `post` exactly
as the run without it: same end, same events left, same documents, same calls
of the lifecycler. -/
theorem mismatched_report_is_ignored (L : Lib)
    (P : NextEventResponse → TelEvent → Except GoError String)
    (tc : Client) (requestID arn : String) (prevEvent : Option NextEventResponse)
    (isShutdown : Bool) (e : TelEvent)
    (hT : e.Typ = PlatformReport)
    (hM : ∀ prev, prevEvent = some prev → e.Record.RequestID ≠ prev.RequestID) :
    (∀ done st,
      (processEvent L P tc requestID arn prevEvent isShutdown done st e).2 = false ∧
      (processEvent L P tc requestID arn prevEvent isShutdown done st e).1.dataChan
        = st.dataChan ∧
      (processEvent L P tc requestID arn prevEvent isShutdown done st e).1.platformStartReqID
        = st.platformStartReqID ∧
      (processEvent L P tc requestID arn prevEvent isShutdown done st e).1.runtimeDoneCalls
        = st.runtimeDoneCalls ∧
      (processEvent L P tc requestID arn prevEvent isShutdown done st e).1.logs
        = st.logs ++ [(.debug, "Received telemetry event %v for request ID %s"),
            (.warn, "Report event request id didn't match the previous event id")]) ∧
    (∀ pre post,
      (ProcessEvents L P tc pre Ctx.background requestID arn prevEvent isShutdown).exit
        = .waiting →
      (ProcessEvents L P tc (pre ++ [e]) Ctx.background requestID arn prevEvent isShutdown).exit
        = .waiting ∧
      (ProcessEvents L P tc (pre ++ e :: post) Ctx.background requestID arn prevEvent
        isShutdown).exit
        = (ProcessEvents L P tc (pre ++ post) Ctx.background requestID arn prevEvent
          isShutdown).exit ∧
      (ProcessEvents L P tc (pre ++ e :: post) Ctx.background requestID arn prevEvent
        isShutdown).rest
        = (ProcessEvents L P tc (pre ++ post) Ctx.background requestID arn prevEvent
          isShutdown).rest ∧
      (ProcessEvents L P tc (pre ++ e :: post) Ctx.background requestID arn prevEvent
        isShutdown).state.obs
        = (ProcessEvents L P tc (pre ++ post) Ctx.background requestID arn prevEvent
          isShutdown).state.obs) := by
  have heq := fun done st =>
    processEvent_report_mismatch L P tc requestID arn prevEvent isShutdown done st e hT hM
  refine ⟨?_, ?_⟩
  · intro done st
    rw [heq]
    simp [LoopState.log]
  · intro pre post hRun
    have key : ∀ post,
        ProcessEvents L P tc (pre ++ e :: post) Ctx.background requestID arn prevEvent isShutdown
          = processLoop L P tc Ctx.background requestID arn prevEvent isShutdown 0
            (((ProcessEvents L P tc pre Ctx.background requestID arn prevEvent
              isShutdown).state.log .debug
                "Received telemetry event %v for request ID %s").log .warn
              "Report event request id didn't match the previous event id") post := by
      intro post
      rw [processLoop_snoc L P tc requestID arn prevEvent isShutdown pre e post hRun, heq]
      simp
    have hwo : ProcessEvents L P tc (pre ++ post) Ctx.background requestID arn prevEvent
        isShutdown
        = processLoop L P tc Ctx.background requestID arn prevEvent isShutdown 0
          (ProcessEvents L P tc pre Ctx.background requestID arn prevEvent isShutdown).state
          post := by
      unfold ProcessEvents at hRun ⊢
      rw [processLoop_append L P tc Ctx.background requestID arn prevEvent isShutdown _ pre 0 {}
        hRun]
      exact processLoop_background_pass L P tc requestID arn prevEvent isShutdown post _ 0 _
    refine ⟨?_, ?_⟩
    · rw [key []]; simp [processLoop]
    · rw [key post, hwo]
      exact processLoop_obs L P tc tc Ctx.background requestID arn prevEvent isShutdown post 0
        _ _ (by simp [LoopState.obs, LoopState.log])

/-- C3, worked example: a shutdown window that expects the report of `A` and
gets the report of `B`: no document, the window is still waiting, and the event
after it is processed as if the report had not come. -/
theorem mismatched_report_is_ignored_witness :
    (ProcessEvents exampleLib exampleReport exampleClient ([] ++ [evReport "B" 7])
      Ctx.background "C" "arn" (some ⟨"A", "arn"⟩) true).exit = .waiting ∧
    (ProcessEvents exampleLib exampleReport exampleClient ([] ++ [evReport "B" 7])
      Ctx.background "C" "arn" (some ⟨"A", "arn"⟩) true).state.dataChan = [] ∧
    (ProcessEvents exampleLib exampleReport exampleClient
      ([] ++ evReport "B" 7 :: [evReport "A" 10])
      Ctx.background "C" "arn" (some ⟨"A", "arn"⟩) true).state.obs
      = (ProcessEvents exampleLib exampleReport exampleClient ([] ++ [evReport "A" 10])
        Ctx.background "C" "arn" (some ⟨"A", "arn"⟩) true).state.obs :=
  ⟨((mismatched_report_is_ignored exampleLib exampleReport exampleClient "C" "arn"
      (some ⟨"A", "arn"⟩) true (evReport "B" 7) rfl (by decide)).2 [] [] rfl).1,
    by decide,
    ((mismatched_report_is_ignored exampleLib exampleReport exampleClient "C" "arn"
      (some ⟨"A", "arn"⟩) true (evReport "B" 7) rfl (by decide)).2 [] [evReport "A" 10]
      rfl).2.2.2⟩

/-- C6: a `platform.report` event whose request id is `prevEvent.RequestID`,
processed after the events `pre` of a window (the run not cancelled, the
assembly successful): exactly one document, the result of
`ProcessPlatformReport prevEvent event`, is added to `dataChan`; a shutdown
window then ends with the later events left in the channel, an invoke window
does not end and the next event is taken from the channel as well. -/
theorem matching_report_yields_one_document (L : Lib)
    (P : NextEventResponse → TelEvent → Except GoError String)
    (tc : Client) (requestID arn : String) (prev : NextEventResponse)
    (isShutdown : Bool) (pre : List TelEvent) (e : TelEvent) (doc : String)
    (hT : e.Typ = PlatformReport) (hM : e.Record.RequestID = prev.RequestID)
    (hD : P prev e = .ok doc)
    (hRun : (ProcessEvents L P tc pre Ctx.background requestID arn (some prev) isShutdown).exit
      = .waiting) :
    (ProcessEvents L P tc (pre ++ [e]) Ctx.background requestID arn (some prev)
      isShutdown).state.dataChan
      = (ProcessEvents L P tc pre Ctx.background requestID arn (some prev)
        isShutdown).state.dataChan ++ [doc] ∧
    (isShutdown = true → ∀ post,
      (ProcessEvents L P tc (pre ++ e :: post) Ctx.background requestID arn (some prev)
        isShutdown).exit = .completed ∧
      (ProcessEvents L P tc (pre ++ e :: post) Ctx.background requestID arn (some prev)
        isShutdown).rest = post ∧
      (ProcessEvents L P tc (pre ++ e :: post) Ctx.background requestID arn (some prev)
        isShutdown).state.dataChan
        = (ProcessEvents L P tc pre Ctx.background requestID arn (some prev)
          isShutdown).state.dataChan ++ [doc]) ∧
    (isShutdown = false →
      (ProcessEvents L P tc (pre ++ [e]) Ctx.background requestID arn (some prev)
        isShutdown).exit = .waiting ∧
      ∀ x post, (ProcessEvents L P tc (pre ++ e :: x :: post) Ctx.background requestID arn
        (some prev) isShutdown).rest <:+ post) := by
  have hstep := processEvent_report_match L P tc requestID arn prev isShutdown false
    (ProcessEvents L P tc pre Ctx.background requestID arn (some prev) isShutdown).state e doc
    hT hM hD
  refine ⟨?_, ?_, ?_⟩
  · rw [processLoop_snoc L P tc requestID arn (some prev) isShutdown pre e [] hRun, hstep]
    cases isShutdown <;> simp [processLoop, LoopState.send, LoopState.log]
  · intro hs post
    subst hs
    rw [processLoop_snoc L P tc requestID arn (some prev) true pre e post hRun, hstep]
    simp [LoopState.send, LoopState.log]
  · intro hs
    subst hs
    refine ⟨?_, ?_⟩
    · rw [processLoop_snoc L P tc requestID arn (some prev) false pre e [] hRun, hstep]
      simp [processLoop]
    · intro x post
      rw [processLoop_snoc L P tc requestID arn (some prev) false pre e (x :: post) hRun, hstep]
      simp only [if_false, Bool.false_eq_true, processLoop, background_doneAtRecv,
        background_doneAtSend]
      split_ifs
      · exact List.suffix_refl post
      · exact processLoop_rest_suffix L P tc Ctx.background requestID arn (some prev) false
          post _ _

/-- C6, worked example: the report of `A` with `durationMs` 10 in a shutdown
window whose previous event is `A`: one metrics document, and the window ends at
once. -/
theorem matching_report_yields_one_document_witness :
    (ProcessEvents exampleLib exampleReport exampleClient ([] ++ [evReport "A" 10])
      Ctx.background "B" "arn" (some ⟨"A", "arn"⟩) true).state.dataChan
      = (ProcessEvents exampleLib exampleReport exampleClient []
        Ctx.background "B" "arn" (some ⟨"A", "arn"⟩) true).state.dataChan ++
        ["metrics arn A durationMs=10"] ∧
    (ProcessEvents exampleLib exampleReport exampleClient ([] ++ evReport "A" 10 :: [])
      Ctx.background "B" "arn" (some ⟨"A", "arn"⟩) true).exit = .completed :=
  ⟨(matching_report_yields_one_document exampleLib exampleReport exampleClient "B" "arn"
      ⟨"A", "arn"⟩ true [] (evReport "A" 10) "metrics arn A durationMs=10" rfl rfl rfl rfl).1,
    ((matching_report_yields_one_document exampleLib exampleReport exampleClient "B" "arn"
      ⟨"A", "arn"⟩ true [] (evReport "A" 10) "metrics arn A durationMs=10" rfl rfl rfl rfl).2.1
      rfl []).1⟩

/-- C7: a `platform.runtimeDone` event processed after the events `pre` of a
window, invoke or shutdown, its request id the window's or not: the calls of
`OnLambdaLogRuntimeDone` grow by exactly one, with the event's request id,
status and time, also when the run returns at this event. And the result of the
lifecycler plays no part: for every sequence of events and every resolution of
the `select`s, two clients with any two lifecyclers end the run alike, leave the
same events in the channel, send the same documents, make the same calls and
hold the same `platformStartReqID`. -/
theorem runtimeDone_callback_once_and_nonfatal (L : Lib)
    (P : NextEventResponse → TelEvent → Except GoError String)
    (tc : Client) (requestID arn : String) (prevEvent : Option NextEventResponse)
    (isShutdown : Bool) :
    (∀ pre e, e.Typ = PlatformRuntimeDone →
      (ProcessEvents L P tc pre Ctx.background requestID arn prevEvent isShutdown).exit
        = .waiting →
      (ProcessEvents L P tc (pre ++ [e]) Ctx.background requestID arn prevEvent
        isShutdown).state.runtimeDoneCalls
        = (ProcessEvents L P tc pre Ctx.background requestID arn prevEvent
          isShutdown).state.runtimeDoneCalls ++
          [(e.Record.RequestID, e.Record.Status, e.Time)]) ∧
    (∀ (tc2 : Client) (ctx : Ctx) (evs : List TelEvent),
      (ProcessEvents L P tc evs ctx requestID arn prevEvent isShutdown).exit
        = (ProcessEvents L P tc2 evs ctx requestID arn prevEvent isShutdown).exit ∧
      (ProcessEvents L P tc evs ctx requestID arn prevEvent isShutdown).rest
        = (ProcessEvents L P tc2 evs ctx requestID arn prevEvent isShutdown).rest ∧
      (ProcessEvents L P tc evs ctx requestID arn prevEvent isShutdown).state.dataChan
        = (ProcessEvents L P tc2 evs ctx requestID arn prevEvent isShutdown).state.dataChan ∧
      (ProcessEvents L P tc evs ctx requestID arn prevEvent isShutdown).state.runtimeDoneCalls
        = (ProcessEvents L P tc2 evs ctx requestID arn prevEvent
          isShutdown).state.runtimeDoneCalls ∧
      (ProcessEvents L P tc evs ctx requestID arn prevEvent isShutdown).state.platformStartReqID
        = (ProcessEvents L P tc2 evs ctx requestID arn prevEvent
          isShutdown).state.platformStartReqID) := by
  refine ⟨?_, ?_⟩
  · intro pre e hT hRun
    have hc := processEvent_runtimeDone_calls L P tc requestID arn prevEvent isShutdown false
      (ProcessEvents L P tc pre Ctx.background requestID arn prevEvent isShutdown).state e hT
    rw [processLoop_snoc L P tc requestID arn prevEvent isShutdown pre e [] hRun]
    split_ifs
    · exact hc
    · simpa [processLoop] using hc
  · intro tc2 ctx evs
    obtain ⟨h1, h2, h3⟩ := processLoop_obs L P tc tc2 ctx requestID arn prevEvent isShutdown
      evs 0 {} {} rfl
    simp only [LoopState.obs, Prod.mk.injEq] at h3
    exact ⟨h1, h2, h3.2.1, h3.2.2, h3.1⟩

/-- C7, worked example: the `platform.runtimeDone` of `A` after its
`platform.start` in the invoke window of `A` is reported to the lifecycler once,
and a lifecycler that fails ends the window at the same event as one that
succeeds. -/
theorem runtimeDone_callback_once_and_nonfatal_witness :
    (ProcessEvents exampleLib exampleReport failingClient
      ([evStart "A"] ++ [evRuntimeDone "A" "success"])
      Ctx.background "A" "arn" none false).state.runtimeDoneCalls
      = (ProcessEvents exampleLib exampleReport failingClient [evStart "A"]
        Ctx.background "A" "arn" none false).state.runtimeDoneCalls ++ [("A", "success", 0)] ∧
    (ProcessEvents exampleLib exampleReport failingClient
      [evStart "A", evRuntimeDone "A" "success", evFunction "late"]
      Ctx.background "A" "arn" none false).rest
      = (ProcessEvents exampleLib exampleReport exampleClient
        [evStart "A", evRuntimeDone "A" "success", evFunction "late"]
        Ctx.background "A" "arn" none false).rest :=
  ⟨(runtimeDone_callback_once_and_nonfatal exampleLib exampleReport failingClient "A" "arn"
      none false).1 [evStart "A"] (evRuntimeDone "A" "success") rfl rfl,
    ((runtimeDone_callback_once_and_nonfatal exampleLib exampleReport failingClient "A" "arn"
      none false).2 exampleClient Ctx.background
      [evStart "A", evRuntimeDone "A" "success", evFunction "late"]).2.1⟩

/-! ## The record decoder (C5) -/

theorem UnmarshalJSON_of_envelope (L : Lib) (le : TelEvent) (data : RawMessage) (b : Envelope)
    (hb : unmarshalEnvelope L data {} = (b, none)) :
    TelEvent.UnmarshalJSON L le data =
      if b.Record.isSome && b.Record.beginsObject then
        ({ le with Time := b.Time, Typ := b.Typ,
                   Record := (unmarshalRecord L b.Record le.Record).1 },
          (unmarshalRecord L b.Record le.Record).2)
      else
        ({ le with Time := b.Time, Typ := b.Typ,
                   StringRecord := (unmarshalString b.Record le.StringRecord).1 },
          (unmarshalString b.Record le.StringRecord).2) := by
  simp only [TelEvent.UnmarshalJSON, hb]

theorem UnmarshalJSON_of_envelope_error (L : Lib) (le : TelEvent) (data : RawMessage)
    (b : Envelope) (err : GoError) (hb : unmarshalEnvelope L data {} = (b, some err)) :
    TelEvent.UnmarshalJSON L le data = (le, some err) := by
  simp only [TelEvent.UnmarshalJSON, hb]

/-- C5: decoding into a zero-valued `TelEvent`, when `UnmarshalJSON` succeeds: if
the record payload starts with `{`, `Record` is what `json.Unmarshal` makes of
the payload and `StringRecord` stays empty; if it starts with another byte,
`StringRecord` is what `json.Unmarshal` makes of the payload, for a JSON string
its value and for `null` the empty string it found, and `Record` stays the zero
value. And for any receiver, success or not, one decode changes at most one of
`Record` and `StringRecord`. -/
theorem unmarshal_populates_one_variant (L : Lib) (data : RawMessage)
    (h : (TelEvent.UnmarshalJSON L {} data).2 = none) :
    ((unmarshalEnvelope L data {}).1.Record.beginsObject = true →
      (TelEvent.UnmarshalJSON L {} data).1.Record
        = (unmarshalRecord L (unmarshalEnvelope L data {}).1.Record {}).1 ∧
      (TelEvent.UnmarshalJSON L {} data).1.StringRecord = "") ∧
    ((unmarshalEnvelope L data {}).1.Record.beginsObject = false →
      (TelEvent.UnmarshalJSON L {} data).1.StringRecord
        = (unmarshalString (unmarshalEnvelope L data {}).1.Record "").1 ∧
      (TelEvent.UnmarshalJSON L {} data).1.Record = {}) ∧
    (∀ s, (unmarshalEnvelope L data {}).1.Record = some (.str s) →
      (TelEvent.UnmarshalJSON L {} data).1.StringRecord = s ∧
      (TelEvent.UnmarshalJSON L {} data).1.Record = {}) ∧
    ((unmarshalEnvelope L data {}).1.Record = some .null →
      (TelEvent.UnmarshalJSON L {} data).1.StringRecord = "" ∧
      (TelEvent.UnmarshalJSON L {} data).1.Record = {}) ∧
    (∀ le : TelEvent,
      (TelEvent.UnmarshalJSON L le data).1.Record = le.Record ∨
      (TelEvent.UnmarshalJSON L le data).1.StringRecord = le.StringRecord) := by
  rcases hb : unmarshalEnvelope L data {} with ⟨b, _ | err⟩
  · have hu := fun le => UnmarshalJSON_of_envelope L le data b hb
    rw [hu] at h
    simp only [hu]
    refine ⟨?_, ?_, ?_, ?_, ?_⟩
    · intro ho
      have hs : b.Record.isSome = true := by
        rcases hr : b.Record with _ | v
        · rw [hr] at ho; simp [RawMessage.beginsObject] at ho
        · rfl
      simp [ho, hs]
    · intro ho
      simp [ho]
    · intro s hs
      simp [hs, RawMessage.beginsObject, unmarshalString, decodeString]
    · intro hs
      simp [hs, RawMessage.beginsObject, unmarshalString, decodeString]
    · intro le
      split_ifs
      · right; rfl
      · left; rfl
  · rw [UnmarshalJSON_of_envelope_error L _ data b err hb] at h
    simp at h

/-- C5, worked example: a report whose record is an object fills `Record` and
leaves `StringRecord` empty; a function line whose record is a string fills
`StringRecord` and leaves `Record` zero. -/
theorem unmarshal_populates_one_variant_witness :
    ((TelEvent.UnmarshalJSON exampleLib {} (some reportJSON)).2 = none ∧
      (TelEvent.UnmarshalJSON exampleLib {} (some reportJSON)).1.Record
        = (unmarshalRecord exampleLib
            (unmarshalEnvelope exampleLib (some reportJSON) {}).1.Record {}).1 ∧
      (TelEvent.UnmarshalJSON exampleLib {} (some reportJSON)).1.StringRecord = "") ∧
    (TelEvent.UnmarshalJSON exampleLib {} (some reportJSON)).1
      = { Typ := "platform.report",
          Record := { RequestID := "A", Metrics := { DurationMs := 10 } } } ∧
    (TelEvent.UnmarshalJSON exampleLib {} (some functionJSON)).1
      = { Typ := "function", StringRecord := "hello" } :=
  ⟨⟨rfl, (unmarshal_populates_one_variant exampleLib (some reportJSON) rfl).1 rfl⟩,
    by decide, by decide⟩

/-! ## The ingestion endpoint (C8, C9, C10) -/

theorem WriteHeader_status (w : ResponseWriter) :
    ((w.WriteHeader StatusInternalServerError).WriteHeader StatusInternalServerError)
      = w.WriteHeader StatusInternalServerError := by
  rcases w with ⟨_ | c⟩ <;> rfl

/-- The loop without cancellation: the events with a type are sent in order, and
the header is written, with 500, when an event without a type is met. -/
theorem enqueueLoop_background :
    ∀ (evs : List TelEvent) (idx : Nat) (h : Handled),
      (enqueueLoop (fun _ => false) idx evs h).telChannel
        = h.telChannel ++ evs.filter (fun te => te.Typ ≠ "") ∧
      (enqueueLoop (fun _ => false) idx evs h).w
        = if ∃ te ∈ evs, te.Typ = "" then h.w.WriteHeader StatusInternalServerError
          else h.w := by
  intro evs
  induction evs with
  | nil => intro idx h; simp [enqueueLoop]
  | cons te evs ih =>
    intro idx h
    by_cases ht : te.Typ = ""
    · simp only [enqueueLoop, ht, if_true]
      obtain ⟨h1, h2⟩ := ih (idx + 1)
        { h with logs := h.logs ++ [(.error, "Error reading log event: %+v")],
                 w := h.w.WriteHeader StatusInternalServerError }
      refine ⟨?_, ?_⟩
      · rw [h1]; simp [List.filter_cons, ht]
      · rw [h2]
        simp only [WriteHeader_status]
        simp [ht]
    · simp only [enqueueLoop, ht, if_false, Bool.false_eq_true]
      obtain ⟨h1, h2⟩ := ih (idx + 1) { h with telChannel := h.telChannel ++ [te] }
      refine ⟨?_, ?_⟩
      · rw [h1]; simp [List.filter_cons, ht]
      · rw [h2]; simp [ht]

/-- The loop with the cancellation taken at the element `i` places on: the
events with a type before it are sent, and the status is 500. -/
theorem enqueueLoop_cancelled (cancelled : Nat → Bool) :
    ∀ (evs : List TelEvent) (idx : Nat) (h : Handled) (i : Nat) (te : TelEvent),
      evs[i]? = some te → te.Typ ≠ "" → cancelled (idx + i) = true →
      (∀ j x, j < i → evs[j]? = some x → x.Typ ≠ "" → cancelled (idx + j) = false) →
      (enqueueLoop cancelled idx evs h).telChannel
        = h.telChannel ++ (evs.take i).filter (fun te => te.Typ ≠ "") ∧
      (enqueueLoop cancelled idx evs h).w.status
        = (h.w.WriteHeader StatusInternalServerError).status := by
  intro evs
  induction evs with
  | nil => intro idx h i te hi; simp at hi
  | cons x evs ih =>
    intro idx h i te hi hte hc hbefore
    cases i with
    | zero =>
      simp only [List.getElem?_cons_zero, Option.some.injEq] at hi
      subst hi
      simp only [Nat.add_zero] at hc
      simp [enqueueLoop, hte, hc]
    | succ i =>
      simp only [List.getElem?_cons_succ] at hi
      have hc2 : cancelled (idx + 1 + i) = true := by
        rw [← hc]; congr 1; omega
      have hb2 : ∀ j y, j < i → evs[j]? = some y → y.Typ ≠ "" →
          cancelled (idx + 1 + j) = false := by
        intro j y hj hy hyt
        have := hbefore (j + 1) y (by omega) (by simpa using hy) hyt
        rw [← this]; congr 1; omega
      by_cases hx : x.Typ = ""
      · simp only [enqueueLoop, hx, if_true]
        obtain ⟨h1, h2⟩ := ih (idx + 1)
          { h with logs := h.logs ++ [(.error, "Error reading log event: %+v")],
                   w := h.w.WriteHeader StatusInternalServerError } i te hi hte hc2 hb2
        refine ⟨?_, ?_⟩
        · rw [h1]; simp [List.take_succ_cons, List.filter_cons, hx]
        · rw [h2]; simp only [WriteHeader_status]
      · have hcx : cancelled idx = false := by
          have := hbefore 0 x (by omega) (by simp) hx
          simpa using this
        simp only [enqueueLoop, hx, hcx, if_false, Bool.false_eq_true]
        obtain ⟨h1, h2⟩ := ih (idx + 1) { h with telChannel := h.telChannel ++ [x] } i te hi hte
          hc2 hb2
        refine ⟨?_, ?_⟩
        · rw [h1]; simp [List.take_succ_cons, List.filter_cons, hx]
        · rw [h2]

/-- The slice is not decoded when one of its elements is not. -/
theorem decodeElements_error (L : Lib) :
    ∀ (elems : List JSON) (x : JSON), x ∈ elems →
      (TelEvent.UnmarshalJSON L {} (some x)).2 ≠ none →
      ∃ err, decodeElements L elems = .error err := by
  intro elems
  induction elems with
  | nil => intro x hx; simp at hx
  | cons y elems ih =>
    intro x hx hfail
    rcases hy : TelEvent.UnmarshalJSON L {} (some y) with ⟨te, _ | err⟩
    · have hxy : x ∈ elems := by
        rcases List.mem_cons.mp hx with rfl | h
        · rw [hy] at hfail; simp at hfail
        · exact h
      obtain ⟨err, he⟩ := ih x hxy hfail
      exact ⟨err, by simp [decodeElements, hy, he]⟩
    · exact ⟨err, by simp [decodeElements, hy]⟩

/-- C8: a batch that is decoded, handled without cancellation: the events sent
on `telChannel` are the elements of the batch with a non-empty type, in the
order of the batch; the status of the response is 500 if and only if some
element has an empty type, and the default 200 otherwise. -/
theorem handler_enqueues_typed_events (L : Lib) (body : RawMessage)
    (telEvents : List TelEvent) (hDec : decodeTelEvents L body = .ok telEvents) :
    (handleTelEventsRequest L (fun _ => false) body).telChannel
      = telEvents.filter (fun te => te.Typ ≠ "") ∧
    ((handleTelEventsRequest L (fun _ => false) body).w.status = StatusInternalServerError ↔
      ∃ te ∈ telEvents, te.Typ = "") ∧
    ((∀ te ∈ telEvents, te.Typ ≠ "") →
      (handleTelEventsRequest L (fun _ => false) body).w.status = StatusOK) := by
  obtain ⟨h1, h2⟩ := enqueueLoop_background telEvents 0 {}
  simp only [handleTelEventsRequest, hDec]
  refine ⟨by simpa using h1, ?_, ?_⟩
  · rw [h2]
    by_cases he : ∃ te ∈ telEvents, te.Typ = ""
    · simp only [he, if_true, iff_true]; rfl
    · simp only [he, if_false, iff_false]; decide
  · intro hall
    rw [h2]
    have he : ¬ ∃ te ∈ telEvents, te.Typ = "" := fun ⟨te, hm, ht⟩ => hall te hm ht
    simp only [he, if_false]; rfl

/-- C8, worked example: a function line, an event without a type and a report:
the first and the third are sent, in this order, and the status is 500. -/
theorem handler_enqueues_typed_events_witness :
    (handleTelEventsRequest exampleLib (fun _ => false)
      (some (.arr [functionJSON, untypedJSON, reportJSON]))).telChannel
      = [{ Typ := "function", StringRecord := "hello" },
         { StringRecord := "lost" },
         { Typ := "platform.report",
           Record := { RequestID := "A", Metrics := { DurationMs := 10 } } }].filter
          (fun te => te.Typ ≠ "") ∧
    (handleTelEventsRequest exampleLib (fun _ => false)
      (some (.arr [functionJSON, untypedJSON, reportJSON]))).w.status = 500 ∧
    (handleTelEventsRequest exampleLib (fun _ => false)
      (some (.arr [functionJSON, reportJSON]))).w.status = 200 :=
  ⟨(handler_enqueues_typed_events exampleLib
      (some (.arr [functionJSON, untypedJSON, reportJSON])) _ rfl).1,
    by decide, by decide⟩

/-- C9 as stated fails: in a batch of two events whose first has a number as
its record, the first is not decoded, the second is well-formed and decodes on
its own, and yet the handler sends nothing on `telChannel`. -/
theorem decode_failure_drops_whole_batch_counterexample :
    (TelEvent.UnmarshalJSON exampleLib {} (some numberRecordJSON)).2 ≠ none ∧
    TelEvent.UnmarshalJSON exampleLib {} (some functionJSON)
      = ({ Typ := "function", StringRecord := "hello" }, none) ∧
    (handleTelEventsRequest exampleLib (fun _ => false)
      (some (.arr [numberRecordJSON, functionJSON]))).telChannel = [] ∧
    (handleTelEventsRequest exampleLib (fun _ => false)
      (some (.arr [numberRecordJSON, functionJSON]))).telChannel
      ≠ [{ Typ := "function", StringRecord := "hello" }] := by
  refine ⟨by decide, rfl, by decide, by decide⟩

/-- C9, amended: when one element of a delivered batch fails to decode, the
whole batch is rejected: nothing is sent on `telChannel`, the well-formed events
of the batch included, and the status of the response is 500. -/
theorem decode_failure_rejects_batch (L : Lib) (cancelled : Nat → Bool) (elems : List JSON)
    (x : JSON) (hx : x ∈ elems) (hfail : (TelEvent.UnmarshalJSON L {} (some x)).2 ≠ none) :
    (handleTelEventsRequest L cancelled (some (.arr elems))).telChannel = [] ∧
    (handleTelEventsRequest L cancelled (some (.arr elems))).w.status
      = StatusInternalServerError := by
  obtain ⟨err, he⟩ := decodeElements_error L elems x hx hfail
  refine ⟨?_, ?_⟩ <;>
    simp [handleTelEventsRequest, decodeTelEvents, he, ResponseWriter.WriteHeader,
      ResponseWriter.status]

/-- C9, amended, worked example: the batch of the counterexample is rejected. -/
theorem decode_failure_rejects_batch_witness :
    (handleTelEventsRequest exampleLib (fun _ => false)
      (some (.arr [numberRecordJSON, functionJSON]))).telChannel = [] ∧
    (handleTelEventsRequest exampleLib (fun _ => false)
      (some (.arr [numberRecordJSON, functionJSON]))).w.status = StatusInternalServerError :=
  decode_failure_rejects_batch exampleLib (fun _ => false) [numberRecordJSON, functionJSON]
    numberRecordJSON (by simp) (by decide)

/-- C10: a batch that is decoded, and the cancellation of the delivery taken at
the `select` for the element at index `i` (which has a type; no `select` before
it took the cancellation): the events sent on `telChannel` are the elements with
a non-empty type at the indices below `i`, in order, so none at index `i` or
later, and the status of the response is 500. -/
theorem cancelled_enqueue_aborts_batch (L : Lib) (body : RawMessage)
    (telEvents : List TelEvent) (cancelled : Nat → Bool) (i : Nat) (te : TelEvent)
    (hDec : decodeTelEvents L body = .ok telEvents)
    (hi : telEvents[i]? = some te) (hte : te.Typ ≠ "") (hc : cancelled i = true)
    (hbefore : ∀ j x, j < i → telEvents[j]? = some x → x.Typ ≠ "" → cancelled j = false) :
    (handleTelEventsRequest L cancelled body).telChannel
      = (telEvents.take i).filter (fun te => te.Typ ≠ "") ∧
    (handleTelEventsRequest L cancelled body).w.status = StatusInternalServerError := by
  obtain ⟨h1, h2⟩ := enqueueLoop_cancelled cancelled telEvents 0 {} i te hi hte
    (by simpa using hc) (by simpa using hbefore)
  simp only [handleTelEventsRequest, hDec]
  exact ⟨by simpa using h1, by rw [h2]; rfl⟩

/-- C10, worked example: four events, the second without a type, and the
delivery cancelled at the third: the first alone is sent, and the status is
500. -/
theorem cancelled_enqueue_aborts_batch_witness :
    (handleTelEventsRequest exampleLib (fun k => decide (k = 2))
      (some (.arr [functionJSON, untypedJSON, reportJSON, functionJSON]))).telChannel
      = ([{ Typ := "function", StringRecord := "hello" },
          { StringRecord := "lost" },
          { Typ := "platform.report",
            Record := { RequestID := "A", Metrics := { DurationMs := 10 } } },
          { Typ := "function", StringRecord := "hello" }].take 2).filter
          (fun te => te.Typ ≠ "") ∧
    (handleTelEventsRequest exampleLib (fun k => decide (k = 2))
      (some (.arr [functionJSON, untypedJSON, reportJSON, functionJSON]))).w.status
      = StatusInternalServerError :=
  cancelled_enqueue_aborts_batch exampleLib
    (some (.arr [functionJSON, untypedJSON, reportJSON, functionJSON])) _
    (fun k => decide (k = 2)) 2
    { Typ := "platform.report", Record := { RequestID := "A", Metrics := { DurationMs := 10 } } }
    rfl rfl (by decide) rfl
    (fun j _ hj _ _ => by simp; omega)

/-! ## The function-log document (C11, C12) -/

theorem functionLogText_eq (message timestamp id execution : String) :
    functionLogText message timestamp id execution =
      "\x7b\"telemetry\":\x7b\"message\":" ++ message ++ ",\"@timestamp\":" ++ timestamp ++
        ",\"faas\":\x7b\"id\":" ++ id ++ ",\"execution\":" ++ execution ++ "\x7d\x7d\x7d" := by
  simp [functionLogText, objectText, String.intercalate, String.intercalate.go]
  apply String.ext
  simp only [String.data_append, List.append_assoc]
  rfl

/-- C11: for every request id, function ARN and event (the timestamp written
without error), `ProcessFunctionTelemetry` returns, without error, the text of
one JSON object of the documented shape: the only top-level key is `telemetry`;
under it `message`, the quoted `StringRecord`, then `@timestamp`, the event time
as the library writes it, then `faas`, with `id`, the quoted ARN, then
`execution`, the quoted request id, both written also when empty; no
`coldstart` key is among them. -/
theorem function_log_document_shape (L : Lib) (requestID arn : String) (e : TelEvent)
    (hTime : (L.marshalTime e.Time).2 = none) :
    ProcessFunctionTelemetry L requestID arn e =
      .ok (objectText [("telemetry", objectText [("message", L.quote e.StringRecord),
        ("@timestamp", (L.marshalTime e.Time).1),
        ("faas", objectText [("id", L.quote arn), ("execution", L.quote requestID)])])]) ∧
    ProcessFunctionTelemetry L "" "" e =
      .ok (objectText [("telemetry", objectText [("message", L.quote e.StringRecord),
        ("@timestamp", (L.marshalTime e.Time).1),
        ("faas", objectText [("id", L.quote ""), ("execution", L.quote "")])])]) ∧
    "coldstart" ∉ ["telemetry", "message", "@timestamp", "faas", "id", "execution"] := by
  have h := fun r a => (ProcessFunctionTelemetry_ok L r a e hTime).trans
    (congrArg Except.ok (functionLogText_eq _ _ _ _).symm)
  exact ⟨h requestID arn, h "" "", by decide⟩

/-- C11, worked example: the function line `hello` at instant 0, for the ARN
`arn` and the request `A`. -/
theorem function_log_document_shape_witness :
    ProcessFunctionTelemetry exampleLib "A" "arn" (evFunction "hello") =
      .ok (objectText [("telemetry", objectText [("message", exampleLib.quote "hello"),
        ("@timestamp", (exampleLib.marshalTime 0).1),
        ("faas", objectText [("id", exampleLib.quote "arn"),
          ("execution", exampleLib.quote "A")])])]) ∧
    ProcessFunctionTelemetry exampleLib "A" "arn" (evFunction "hello") =
      .ok ("\x7b\"telemetry\":\x7b\"message\":\"hello\",\"@timestamp\":0," ++
        "\"faas\":\x7b\"id\":\"arn\",\"execution\":\"A\"\x7d\x7d\x7d") :=
  ⟨(function_log_document_shape exampleLib "A" "arn" (evFunction "hello") rfl).1, by rfl⟩

/-- The envelope of an event with the three keys in the order of the tests. -/
theorem unmarshalEnvelope_canonical (L : Lib) (ts ty : String) (t : GoTime) (v : JSON)
    (hParse : L.parseTime ts = .ok t) :
    unmarshalEnvelope L (some (.obj [("time", .str ts), ("type", .str ty), ("record", v)])) {}
      = ({ Time := t, Typ := ty, Record := some v }, none) := by
  simp [unmarshalEnvelope, List.foldlM, Envelope.decodeMember, findField, hParse, decodeString]
  rfl

/-- Decoding an event whose record is a JSON string. -/
theorem UnmarshalJSON_string_record (L : Lib) (data : RawMessage) (b : Envelope) (s : String)
    (hb : unmarshalEnvelope L data {} = (b, none)) (hr : b.Record = some (.str s)) :
    TelEvent.UnmarshalJSON L {} data
      = ({ Time := b.Time, Typ := b.Typ, StringRecord := s }, none) := by
  rw [UnmarshalJSON_of_envelope L {} data b hb]
  simp [hr, RawMessage.beginsObject, unmarshalString, decodeString]

/-! ## Decoding records (C13, C14, C15) -/

/-- C13: an event envelope whose record is a JSON string with value `s`, of any
type: `UnmarshalJSON` succeeds, `Type` and `Time` are the type and the time of
the envelope, `StringRecord` is `s` and `Record` stays zero; first for any
envelope that `json.Unmarshal` accepts, then for the envelope with the keys
`time`, `type` and `record` and a time that parses. -/
theorem string_record_decodes (L : Lib) (s : String) :
    (∀ data b, unmarshalEnvelope L data {} = (b, none) → b.Record = some (.str s) →
      TelEvent.UnmarshalJSON L {} data
        = ({ Time := b.Time, Typ := b.Typ, StringRecord := s }, none)) ∧
    (∀ ts ty t, L.parseTime ts = .ok t →
      TelEvent.UnmarshalJSON L {}
        (some (.obj [("time", .str ts), ("type", .str ty), ("record", .str s)]))
        = ({ Time := t, Typ := ty, StringRecord := s }, none)) := by
  refine ⟨fun data b hb hr => UnmarshalJSON_string_record L data b s hb hr, ?_⟩
  intro ts ty t hParse
  exact UnmarshalJSON_string_record L _ _ s
    (unmarshalEnvelope_canonical L ts ty t (.str s) hParse) rfl

/-- C13, worked example: the event of `Test_unmarshalRuntimeDoneRecordString`. -/
theorem string_record_decodes_witness :
    TelEvent.UnmarshalJSON exampleLib {} (some runtimeDoneStringJSON)
      = ({ Time := 1612468805123000000, Typ := "platform.runtimeDone",
           StringRecord := "Unknown application error occurred" }, none) :=
  (string_record_decodes exampleLib "Unknown application error occurred").2
    "2021-02-04T20:00:05.123Z" "platform.runtimeDone" 1612468805123000000 rfl

/-- A member that is not decoded into `type` leaves `Type` as it is. -/
theorem Envelope.decodeMember_typ (L : Lib) (acc r : Envelope × Option GoError)
    (kv : String × JSON)
    (hk : findField L ["time", "type", "record"] kv.1 ≠ some "type")
    (h : Envelope.decodeMember L acc kv = .ok r) : r.1.Typ = acc.1.Typ := by
  unfold Envelope.decodeMember at h
  split at h
  · split at h
    · cases h; rfl
    · split at h
      · cases h; rfl
      · cases h
    · cases h
  · rename_i heq; exact absurd heq hk
  · cases h; rfl
  · cases h; rfl

theorem Envelope.foldlM_typ (L : Lib) :
    ∀ (ms : List (String × JSON)) (acc r : Envelope × Option GoError),
      (∀ kv ∈ ms, findField L ["time", "type", "record"] kv.1 ≠ some "type") →
      ms.foldlM (Envelope.decodeMember L) acc = .ok r → r.1.Typ = acc.1.Typ := by
  intro ms
  induction ms with
  | nil => intro acc r _ h; cases h; rfl
  | cons kv ms ih =>
    intro acc r hk h
    rw [List.foldlM_cons] at h
    cases hstep : Envelope.decodeMember L acc kv with
    | error err => rw [hstep] at h; cases h
    | ok acc2 =>
      rw [hstep] at h
      have h2 : ms.foldlM (Envelope.decodeMember L) acc2 = .ok r := h
      rw [ih acc2 r (fun x hx => hk x (List.mem_cons_of_mem _ hx)) h2]
      exact Envelope.decodeMember_typ L acc acc2 kv (hk kv (List.mem_cons_self _ _)) hstep

/-- C15 as stated fails: an event without a `type` key is decoded without
error, its `Type` empty. -/
theorem missing_type_decodes_counterexample :
    TelEvent.UnmarshalJSON exampleLib {} (some untypedJSON)
      = ({ Typ := "", StringRecord := "lost" }, none) := by
  decide

/-- C15, amended: `UnmarshalJSON` returns an error when the bytes are not
well-formed JSON, as when the record payload is malformed, and when the outer
envelope cannot be parsed: it is a boolean, a number, a string or an array, or
its time does not parse. When the `type` key is missing it returns no error on
that account: the event is decoded with an empty `Type`, and it is the handler
that answers such an element with status 500 and does not send it on
`telChannel`. -/
theorem unmarshal_fails_or_leaves_type_empty (L : Lib) :
    (∀ le, (TelEvent.UnmarshalJSON L le none).2 ≠ none) ∧
    (∀ le b, (TelEvent.UnmarshalJSON L le (some (.bool b))).2 ≠ none) ∧
    (∀ le n, (TelEvent.UnmarshalJSON L le (some (.num n))).2 ≠ none) ∧
    (∀ le s, (TelEvent.UnmarshalJSON L le (some (.str s))).2 ≠ none) ∧
    (∀ le elems, (TelEvent.UnmarshalJSON L le (some (.arr elems))).2 ≠ none) ∧
    (∀ le ts ty v err, L.parseTime ts = .error err →
      TelEvent.UnmarshalJSON L le
        (some (.obj [("time", .str ts), ("type", .str ty), ("record", v)])) = (le, some err)) ∧
    (∀ ms, (∀ kv ∈ ms, findField L ["time", "type", "record"] kv.1 ≠ some "type") →
      (TelEvent.UnmarshalJSON L {} (some (.obj ms))).1.Typ = "") ∧
    (∀ ts t s, L.parseTime ts = .ok t →
      TelEvent.UnmarshalJSON L {} (some (.obj [("time", .str ts), ("record", .str s)]))
        = ({ Time := t, Typ := "", StringRecord := s }, none)) ∧
    (∀ cancelled ts t s, L.parseTime ts = .ok t →
      (handleTelEventsRequest L cancelled
        (some (.arr [.obj [("time", .str ts), ("record", .str s)]]))).telChannel = [] ∧
      (handleTelEventsRequest L cancelled
        (some (.arr [.obj [("time", .str ts), ("record", .str s)]]))).w.status
        = StatusInternalServerError) := by
  have hmiss : ∀ ts t s, L.parseTime ts = .ok t →
      TelEvent.UnmarshalJSON L {} (some (.obj [("time", .str ts), ("record", .str s)]))
        = ({ Time := t, Typ := "", StringRecord := s }, none) := by
    intro ts t s hParse
    have hb : unmarshalEnvelope L (some (.obj [("time", .str ts), ("record", .str s)])) {}
        = ({ Time := t, Typ := "", Record := some (.str s) }, none) := by
      simp [unmarshalEnvelope, List.foldlM, Envelope.decodeMember, findField, hParse]
      rfl
    exact UnmarshalJSON_string_record L _ _ s hb rfl
  refine ⟨?_, ?_, ?_, ?_, ?_, ?_, ?_, hmiss, ?_⟩
  · intro le; simp [TelEvent.UnmarshalJSON, unmarshalEnvelope]
  · intro le b; simp [TelEvent.UnmarshalJSON, unmarshalEnvelope]
  · intro le n; simp [TelEvent.UnmarshalJSON, unmarshalEnvelope]
  · intro le s; simp [TelEvent.UnmarshalJSON, unmarshalEnvelope]
  · intro le elems; simp [TelEvent.UnmarshalJSON, unmarshalEnvelope]
  · intro le ts ty v err hParse
    have hb : unmarshalEnvelope L
        (some (.obj [("time", .str ts), ("type", .str ty), ("record", v)])) {}
        = ({}, some err) := by
      simp [unmarshalEnvelope, List.foldlM, Envelope.decodeMember, findField, hParse]
      rfl
    exact UnmarshalJSON_of_envelope_error L le _ _ err hb
  · intro ms hk
    rcases hb : unmarshalEnvelope L (some (.obj ms)) {} with ⟨b, _ | err⟩
    · have hty : b.Typ = "" := by
        simp only [unmarshalEnvelope] at hb
        cases hfold : ms.foldlM (Envelope.decodeMember L) (({} : Envelope), none) with
        | error e => rw [hfold] at hb; simp at hb
        | ok r =>
          rw [hfold] at hb
          have := Envelope.foldlM_typ L ms _ r hk hfold
          simp only [] at hb
          rw [hb] at this
          exact this
      rw [UnmarshalJSON_of_envelope L {} _ b hb]
      split_ifs <;> exact hty
    · rw [UnmarshalJSON_of_envelope_error L {} _ b err hb]
  · intro cancelled ts t s hParse
    have hd := hmiss ts t s hParse
    simp [handleTelEventsRequest, decodeTelEvents, decodeElements, hd, enqueueLoop,
      ResponseWriter.WriteHeader, ResponseWriter.status]

/-- C15, amended, worked example: a time that does not parse is an error; an
event without a type is decoded, and the handler answers it with 500 and sends
nothing. -/
theorem unmarshal_fails_or_leaves_type_empty_witness :
    TelEvent.UnmarshalJSON exampleLib {}
      (some (.obj [("time", .str "yesterday"), ("type", .str "function"),
        ("record", .str "hello")])) = ({}, some "parsing time: cannot parse") ∧
    TelEvent.UnmarshalJSON exampleLib {}
      (some (.obj [("time", .str "2021-02-04T20:00:05.123Z"), ("record", .str "lost")]))
      = ({ Time := 1612468805123000000, Typ := "", StringRecord := "lost" }, none) ∧
    ((handleTelEventsRequest exampleLib (fun _ => false)
      (some (.arr [.obj [("time", .str "2021-02-04T20:00:05.123Z"),
        ("record", .str "lost")]]))).telChannel = [] ∧
    (handleTelEventsRequest exampleLib (fun _ => false)
      (some (.arr [.obj [("time", .str "2021-02-04T20:00:05.123Z"),
        ("record", .str "lost")]]))).w.status = StatusInternalServerError) :=
  ⟨(unmarshal_fails_or_leaves_type_empty exampleLib).2.2.2.2.2.1 {} "yesterday" "function"
      (.str "hello") "parsing time: cannot parse" rfl,
    (unmarshal_fails_or_leaves_type_empty exampleLib).2.2.2.2.2.2.2.1
      "2021-02-04T20:00:05.123Z" 1612468805123000000 "lost" rfl,
    (unmarshal_fails_or_leaves_type_empty exampleLib).2.2.2.2.2.2.2.2 (fun _ => false)
      "2021-02-04T20:00:05.123Z" 1612468805123000000 "lost" rfl⟩

/-! ## Secrets (C16) -/

/-- C16, the code at the failing input: the binary secret `YQ==` is valid
padded base64 for the one byte `a`: the buffer has three bytes and `Decode`
writes one; `loadSecret` returns the three bytes of the whole buffer, `a` and two
zero bytes, without error. The other cases of the
claim are met: a string secret comes back unchanged, unpadded base64 decodes to
its bytes, and invalid base64 or a failed retrieval gives an error and the empty
string. -/
theorem loadSecret_padded_binary_secret :
    app.StdEncoding.DecodedLen (app.bytesOf "YQ==").length = 3 ∧
    app.StdEncoding.Decode [0, 0, 0] (app.bytesOf "YQ==") = (app.bytesOf "a" ++ [0, 0], none) ∧
    app.loadSecret app.exampleSecrets app.StdEncoding "padded" = ([97, 0, 0], none) ∧
    app.loadSecret app.exampleSecrets app.StdEncoding "padded" ≠ (app.bytesOf "a", none) ∧
    app.loadSecret app.exampleSecrets app.StdEncoding "text" = (app.bytesOf "s3cret", none) ∧
    app.loadSecret app.exampleSecrets app.StdEncoding "plain" = (app.bytesOf "abc", none) ∧
    app.loadSecret app.exampleSecrets app.StdEncoding "broken"
      = ([], some "failed to decode base64 encoded secret: illegal base64 data") ∧
    app.loadSecret app.exampleSecrets app.StdEncoding "missing"
      = ([], some "failed to retrieve sercet value: ResourceNotFoundException") := by
  refine ⟨by decide, by decide, by decide, by decide, by decide, by decide, by decide,
    by decide⟩

/-! ## The subscription (C17) -/

/-- C17: the request marshalled and sent and a response received, `subscribe`
returns nil if and only if the status code is 200; for 202 it returns the error
`telemetry API is not supported in this environment`; for any other code it
returns an error made of the URL, the code and the status text, followed by the
body when the body could be read. -/
theorem subscribe_result_by_status (env : SubscribeEnv) (types : List SubscriptionType)
    (extensionID uri data : String) (resp : HTTPResponse)
    (hMarshal : env.Marshal (subscribeRequest types uri) = .ok data)
    (hSent : sendRequest env (env.telAPIBaseURL ++ "/2022-07-01/telemetry") data extensionID
      = .ok resp) :
    (subscribe env types extensionID uri = none ↔ resp.StatusCode = 200) ∧
    (resp.StatusCode = 202 →
      subscribe env types extensionID uri
        = some "telemetry API is not supported in this environment") ∧
    (resp.StatusCode ≠ 200 → resp.StatusCode ≠ 202 →
      (∀ body, resp.Body = .ok body →
        subscribe env types extensionID uri
          = some (env.telAPIBaseURL ++ "/2022-07-01/telemetry" ++ " failed: " ++
              toString resp.StatusCode ++ "[" ++ resp.Status ++ "] " ++ body)) ∧
      (∀ err, resp.Body = .error err →
        subscribe env types extensionID uri
          = some (env.telAPIBaseURL ++ "/2022-07-01/telemetry" ++ " failed: " ++
              toString resp.StatusCode ++ "[" ++ resp.Status ++ "]"))) := by
  simp only [subscribe, hMarshal, hSent, StatusAccepted, StatusOK]
  refine ⟨?_, ?_, ?_⟩
  · by_cases h202 : resp.StatusCode = 202
    · simp [h202]
    · by_cases h200 : resp.StatusCode = 200
      · simp [h200]
      · cases resp.Body <;> simp [h202, h200]
  · intro h202; simp [h202]
  · intro h200 h202
    refine ⟨?_, ?_⟩
    · intro body hb; simp [h200, h202, hb]
    · intro err hb; simp [h200, h202, hb]

/-- C17, worked example: 200 gives nil, 202 the error of an environment without
the Telemetry API, 403 an error with the URL, the code, the status text and the
body. -/
theorem subscribe_result_by_status_witness :
    (subscribe (exampleEnv ⟨200, "200 OK", .ok "OK"⟩) ["platform", "function"] "id"
      "http://sandbox:8205" = none ↔ (200 : Nat) = 200) ∧
    subscribe (exampleEnv ⟨202, "202 Accepted", .ok ""⟩) ["platform", "function"] "id"
      "http://sandbox:8205" = some "telemetry API is not supported in this environment" ∧
    subscribe (exampleEnv ⟨403, "403 Forbidden", .ok "denied"⟩) ["platform", "function"] "id"
      "http://sandbox:8205"
      = some "http://sandbox/2022-07-01/telemetry failed: 403[403 Forbidden] denied" :=
  ⟨(subscribe_result_by_status (exampleEnv ⟨200, "200 OK", .ok "OK"⟩) ["platform", "function"]
      "id" "http://sandbox:8205" "request" ⟨200, "200 OK", .ok "OK"⟩ rfl rfl).1,
    (subscribe_result_by_status (exampleEnv ⟨202, "202 Accepted", .ok ""⟩)
      ["platform", "function"] "id" "http://sandbox:8205" "request" ⟨202, "202 Accepted", .ok ""⟩
      rfl rfl).2.1 rfl,
    by decide⟩

/-! ## Events without a document (C18) and failed assembly (C20) -/

/-- Without cancellation: an event whose pass does not return and leaves the
visible state alone can be taken out of the sequence. -/
theorem ProcessEvents_skip (L : Lib)
    (P : NextEventResponse → TelEvent → Except GoError String)
    (tc : Client) (requestID arn : String) (prevEvent : Option NextEventResponse)
    (isShutdown : Bool) (pre : List TelEvent) (e : TelEvent) (post : List TelEvent)
    (hRun : (ProcessEvents L P tc pre Ctx.background requestID arn prevEvent isShutdown).exit
      = .waiting)
    (hret : (processEvent L P tc requestID arn prevEvent isShutdown false
      (ProcessEvents L P tc pre Ctx.background requestID arn prevEvent isShutdown).state e).2
      = false)
    (hobs : (processEvent L P tc requestID arn prevEvent isShutdown false
      (ProcessEvents L P tc pre Ctx.background requestID arn prevEvent isShutdown).state e).1.obs
      = (ProcessEvents L P tc pre Ctx.background requestID arn prevEvent isShutdown).state.obs) :
    (ProcessEvents L P tc (pre ++ e :: post) Ctx.background requestID arn prevEvent
      isShutdown).exit
      = (ProcessEvents L P tc (pre ++ post) Ctx.background requestID arn prevEvent
        isShutdown).exit ∧
    (ProcessEvents L P tc (pre ++ e :: post) Ctx.background requestID arn prevEvent
      isShutdown).rest
      = (ProcessEvents L P tc (pre ++ post) Ctx.background requestID arn prevEvent
        isShutdown).rest ∧
    (ProcessEvents L P tc (pre ++ e :: post) Ctx.background requestID arn prevEvent
      isShutdown).state.obs
      = (ProcessEvents L P tc (pre ++ post) Ctx.background requestID arn prevEvent
        isShutdown).state.obs := by
  have hwo : ProcessEvents L P tc (pre ++ post) Ctx.background requestID arn prevEvent
      isShutdown
      = processLoop L P tc Ctx.background requestID arn prevEvent isShutdown 0
        (ProcessEvents L P tc pre Ctx.background requestID arn prevEvent isShutdown).state
        post := by
    unfold ProcessEvents at hRun ⊢
    rw [processLoop_append L P tc Ctx.background requestID arn prevEvent isShutdown _ pre 0 {}
      hRun]
    exact processLoop_background_pass L P tc requestID arn prevEvent isShutdown post _ 0 _
  rw [processLoop_snoc L P tc requestID arn prevEvent isShutdown pre e post hRun, hwo, hret]
  simp only [if_false, Bool.false_eq_true]
  exact processLoop_obs L P tc tc Ctx.background requestID arn prevEvent isShutdown post 0 _ _
    hobs

theorem processEvent_extension (L : Lib)
    (P : NextEventResponse → TelEvent → Except GoError String)
    (tc : Client) (requestID arn : String) (prevEvent : Option NextEventResponse)
    (isShutdown done : Bool) (st : LoopState) (e : TelEvent) (hT : e.Typ = ExtensionLog) :
    processEvent L P tc requestID arn prevEvent isShutdown done st e
      = (st.log .debug "Received telemetry event %v for request ID %s", false) := by
  have h1 : e.Typ ≠ PlatformStart := by rw [hT]; decide
  have h2 : e.Typ ≠ PlatformRuntimeDone := by rw [hT]; decide
  have h3 : e.Typ ≠ PlatformReport := by rw [hT]; decide
  have h4 : e.Typ ≠ PlatformLogsDropped := by rw [hT]; decide
  have h5 : e.Typ ≠ FunctionLog := by rw [hT]; decide
  unfold processEvent
  simp only [if_neg h1, if_neg h2, if_neg h3, if_neg h4, if_neg h5]

/-- C18 as stated fails: after the `platform.start` of `A`, the extension line
`hello` gives no document, where the function line `hello` gives one. -/
theorem extension_event_counterexample :
    (ProcessEvents exampleLib exampleReport exampleClient [evStart "A", evExtension "hello"]
      Ctx.background "A" "arn" none false).state.dataChan = [] ∧
    (ProcessEvents exampleLib exampleReport exampleClient [evStart "A", evFunction "hello"]
      Ctx.background "A" "arn" none false).state.dataChan
      = ["\x7b\"telemetry\":\x7b\"message\":\"hello\",\"@timestamp\":0," ++
          "\"faas\":\x7b\"id\":\"arn\",\"execution\":\"A\"\x7d\x7d\x7d"] := by
  refine ⟨by decide, by decide⟩

/-- C18, amended: an event of type `extension` processed in a window is not
treated like a `function` event: the switch has no case for it, so its pass only
writes the debug line, assembles and sends no document, and the run goes on
with the following events exactly as the run without it. -/
theorem extension_event_is_ignored (L : Lib)
    (P : NextEventResponse → TelEvent → Except GoError String)
    (tc : Client) (requestID arn : String) (prevEvent : Option NextEventResponse)
    (isShutdown : Bool) (e : TelEvent) (hT : e.Typ = ExtensionLog) :
    (∀ done st,
      processEvent L P tc requestID arn prevEvent isShutdown done st e
        = (st.log .debug "Received telemetry event %v for request ID %s", false)) ∧
    (∀ pre post,
      (ProcessEvents L P tc pre Ctx.background requestID arn prevEvent isShutdown).exit
        = .waiting →
      (ProcessEvents L P tc (pre ++ [e]) Ctx.background requestID arn prevEvent
        isShutdown).state.dataChan
        = (ProcessEvents L P tc pre Ctx.background requestID arn prevEvent
          isShutdown).state.dataChan ∧
      (ProcessEvents L P tc (pre ++ e :: post) Ctx.background requestID arn prevEvent
        isShutdown).exit
        = (ProcessEvents L P tc (pre ++ post) Ctx.background requestID arn prevEvent
          isShutdown).exit ∧
      (ProcessEvents L P tc (pre ++ e :: post) Ctx.background requestID arn prevEvent
        isShutdown).rest
        = (ProcessEvents L P tc (pre ++ post) Ctx.background requestID arn prevEvent
          isShutdown).rest ∧
      (ProcessEvents L P tc (pre ++ e :: post) Ctx.background requestID arn prevEvent
        isShutdown).state.obs
        = (ProcessEvents L P tc (pre ++ post) Ctx.background requestID arn prevEvent
          isShutdown).state.obs) := by
  have heq := fun done st =>
    processEvent_extension L P tc requestID arn prevEvent isShutdown done st e hT
  refine ⟨heq, ?_⟩
  intro pre post hRun
  have hskip := fun post => ProcessEvents_skip L P tc requestID arn prevEvent isShutdown pre e
    post hRun (by rw [heq]) (by rw [heq]; rfl)
  refine ⟨?_, hskip post⟩
  have h := (hskip []).2.2
  rw [List.append_nil] at h
  simp only [LoopState.obs, Prod.mk.injEq] at h
  exact h.2.1

/-- C18, amended, worked example: the extension line after the `platform.start`
of `A` adds no document. -/
theorem extension_event_is_ignored_witness :
    (ProcessEvents exampleLib exampleReport exampleClient ([evStart "A"] ++ [evExtension "hello"])
      Ctx.background "A" "arn" none false).state.dataChan
      = (ProcessEvents exampleLib exampleReport exampleClient [evStart "A"]
        Ctx.background "A" "arn" none false).state.dataChan :=
  ((extension_event_is_ignored exampleLib exampleReport exampleClient "A" "arn" none false
    (evExtension "hello") rfl).2 [evStart "A"] [] rfl).1

theorem processEvent_flow (L L2 : Lib)
    (P P2 : NextEventResponse → TelEvent → Except GoError String)
    (tc : Client) (requestID arn : String) (prevEvent : Option NextEventResponse)
    (isShutdown done : Bool) (st st2 : LoopState) (e : TelEvent) (h : st.flow = st2.flow) :
    (processEvent L P tc requestID arn prevEvent isShutdown done st e).1.flow =
      (processEvent L2 P2 tc requestID arn prevEvent isShutdown done st2 e).1.flow ∧
    (processEvent L P tc requestID arn prevEvent isShutdown done st e).2 =
      (processEvent L2 P2 tc requestID arn prevEvent isShutdown done st2 e).2 := by
  simp only [LoopState.flow, Prod.mk.injEq] at h
  obtain ⟨ha, hc⟩ := h
  unfold processEvent
  by_cases h1 : e.Typ = PlatformStart
  · simp [if_pos h1, LoopState.flow, LoopState.log, hc]
  by_cases h2 : e.Typ = PlatformRuntimeDone
  · simp only [if_neg h1, if_pos h2]
    split_ifs <;> simp [LoopState.flow, LoopState.log, ha, hc]
  by_cases h3 : e.Typ = PlatformReport
  · simp only [if_neg h1, if_neg h2, if_pos h3]
    rcases prevEvent with _ | prev
    · simp [LoopState.flow, LoopState.log, ha, hc]
    · simp only []
      split_ifs <;> cases P prev e <;> cases P2 prev e <;> cases done <;>
        simp [LoopState.flow, LoopState.log, LoopState.send, ha, hc]
  simp only [if_neg h1, if_neg h2, if_neg h3]
  by_cases h4 : e.Typ = PlatformLogsDropped
  · simp [if_pos h4, LoopState.flow, LoopState.log, ha, hc]
  by_cases h5 : e.Typ = FunctionLog
  · simp only [if_neg h4, if_pos h5, LoopState.log]
    cases ProcessFunctionTelemetry L st.platformStartReqID arn e <;>
      cases ProcessFunctionTelemetry L2 st2.platformStartReqID arn e <;> cases done <;>
      simp [LoopState.flow, LoopState.log, LoopState.send, ha, hc]
  · simp [if_neg h4, if_neg h5, LoopState.flow, LoopState.log, ha, hc]

/-- What the assemblers return plays no part in how a run goes on. -/
theorem processLoop_flow (L L2 : Lib)
    (P P2 : NextEventResponse → TelEvent → Except GoError String)
    (tc : Client) (ctx : Ctx) (requestID arn : String)
    (prevEvent : Option NextEventResponse) (isShutdown : Bool) :
    ∀ (evs : List TelEvent) (k : Nat) (st st2 : LoopState), st.flow = st2.flow →
      (processLoop L P tc ctx requestID arn prevEvent isShutdown k st evs).exit =
        (processLoop L2 P2 tc ctx requestID arn prevEvent isShutdown k st2 evs).exit ∧
      (processLoop L P tc ctx requestID arn prevEvent isShutdown k st evs).rest =
        (processLoop L2 P2 tc ctx requestID arn prevEvent isShutdown k st2 evs).rest ∧
      (processLoop L P tc ctx requestID arn prevEvent isShutdown k st evs).state.flow =
        (processLoop L2 P2 tc ctx requestID arn prevEvent isShutdown k st2 evs).state.flow := by
  intro evs
  induction evs with
  | nil =>
    intro k st st2 h
    by_cases hc : ctx.doneAtRecv k = true
    · simpa [processLoop, hc, LoopState.flow, LoopState.log] using h
    · simpa [processLoop, hc] using h
  | cons e evs ih =>
    intro k st st2 h
    by_cases hc : ctx.doneAtRecv k = true
    · simpa [processLoop, hc, LoopState.flow, LoopState.log] using h
    · obtain ⟨h1, h2⟩ := processEvent_flow L L2 P P2 tc requestID arn prevEvent isShutdown
        (ctx.doneAtSend k) st st2 e h
      by_cases hr : (processEvent L2 P2 tc requestID arn prevEvent isShutdown
          (ctx.doneAtSend k) st2 e).2 = true
      · simp [processLoop, hc, hr, h2, h1]
      · simp only [processLoop, hc, hr, h2, if_false, Bool.false_eq_true]
        exact ih (k + 1) _ _ h1

theorem processEvent_report_failed (L : Lib)
    (P : NextEventResponse → TelEvent → Except GoError String)
    (tc : Client) (requestID arn : String) (prev : NextEventResponse)
    (isShutdown done : Bool) (st : LoopState) (e : TelEvent) (err : GoError)
    (hT : e.Typ = PlatformReport) (hM : e.Record.RequestID = prev.RequestID)
    (hD : P prev e = .error err) :
    processEvent L P tc requestID arn (some prev) isShutdown done st e =
      if isShutdown then
        ((((st.log .debug "Received telemetry event %v for request ID %s").log .debug
          "Received platform report for %s").log .error
          "Error processing Lambda platform metrics: %v").log .debug
          "Processed platform report event for reqID %s as the last log event before shutdown",
          true)
      else
        (((st.log .debug "Received telemetry event %v for request ID %s").log .debug
          "Received platform report for %s").log .error
          "Error processing Lambda platform metrics: %v", false) := by
  have h1 : e.Typ ≠ PlatformStart := by rw [hT]; decide
  have h2 : e.Typ ≠ PlatformRuntimeDone := by rw [hT]; decide
  unfold processEvent
  simp only [if_neg h1, if_neg h2, if_pos hT, if_pos hM, hD]

theorem processEvent_function_failed (L : Lib)
    (P : NextEventResponse → TelEvent → Except GoError String)
    (tc : Client) (requestID arn : String) (prevEvent : Option NextEventResponse)
    (isShutdown done : Bool) (st : LoopState) (e : TelEvent) (err : GoError)
    (hT : e.Typ = FunctionLog)
    (hD : ProcessFunctionTelemetry L st.platformStartReqID arn e = .error err) :
    processEvent L P tc requestID arn prevEvent isShutdown done st e =
      ((st.log .debug "Received telemetry event %v for request ID %s").log .warn
        "Error processing function event : %v", false) := by
  have h1 : e.Typ ≠ PlatformStart := by rw [hT]; decide
  have h2 : e.Typ ≠ PlatformRuntimeDone := by rw [hT]; decide
  have h3 : e.Typ ≠ PlatformReport := by rw [hT]; decide
  have h4 : e.Typ ≠ PlatformLogsDropped := by rw [hT]; decide
  unfold processEvent
  simp only [if_neg h1, if_neg h2, if_neg h3, if_neg h4, if_pos hT, LoopState.log, hD]

/-- C20: a failed assembly drops the document and nothing else. When
`ProcessPlatformReport` returns an error for a report of `prevEvent.RequestID`,
nothing is sent on `dataChan` for it, a shutdown window still ends at it with the
later events left in the channel, and an invoke window goes on. When
`ProcessFunctionTelemetry` returns an error for a function line, nothing is sent
for it and the window goes on. And for every sequence of events and every
resolution of the `select`s, a run ends at the same event, leaves the same
events, makes the same calls of the lifecycler and holds the same
`platformStartReqID` whatever the assemblers return, failing or not. -/
theorem failed_assembly_drops_only_the_document (L : Lib)
    (P : NextEventResponse → TelEvent → Except GoError String)
    (tc : Client) (requestID arn : String) (prevEvent : Option NextEventResponse)
    (isShutdown : Bool) :
    (∀ prev pre e err, prevEvent = some prev → e.Typ = PlatformReport →
      e.Record.RequestID = prev.RequestID → P prev e = .error err →
      (ProcessEvents L P tc pre Ctx.background requestID arn prevEvent isShutdown).exit
        = .waiting →
      (ProcessEvents L P tc (pre ++ [e]) Ctx.background requestID arn prevEvent
        isShutdown).state.dataChan
        = (ProcessEvents L P tc pre Ctx.background requestID arn prevEvent
          isShutdown).state.dataChan ∧
      (isShutdown = true → ∀ post,
        (ProcessEvents L P tc (pre ++ e :: post) Ctx.background requestID arn prevEvent
          isShutdown).exit = .completed ∧
        (ProcessEvents L P tc (pre ++ e :: post) Ctx.background requestID arn prevEvent
          isShutdown).rest = post) ∧
      (isShutdown = false →
        (ProcessEvents L P tc (pre ++ [e]) Ctx.background requestID arn prevEvent
          isShutdown).exit = .waiting)) ∧
    (∀ pre e err, e.Typ = FunctionLog →
      ProcessFunctionTelemetry L (attributedRequestID pre) arn e = .error err →
      (ProcessEvents L P tc pre Ctx.background requestID arn prevEvent isShutdown).exit
        = .waiting →
      (ProcessEvents L P tc (pre ++ [e]) Ctx.background requestID arn prevEvent
        isShutdown).state.dataChan
        = (ProcessEvents L P tc pre Ctx.background requestID arn prevEvent
          isShutdown).state.dataChan ∧
      (ProcessEvents L P tc (pre ++ [e]) Ctx.background requestID arn prevEvent
        isShutdown).exit = .waiting) ∧
    (∀ (L2 : Lib) (P2 : NextEventResponse → TelEvent → Except GoError String) (ctx : Ctx)
      (evs : List TelEvent),
      (ProcessEvents L P tc evs ctx requestID arn prevEvent isShutdown).exit
        = (ProcessEvents L2 P2 tc evs ctx requestID arn prevEvent isShutdown).exit ∧
      (ProcessEvents L P tc evs ctx requestID arn prevEvent isShutdown).rest
        = (ProcessEvents L2 P2 tc evs ctx requestID arn prevEvent isShutdown).rest ∧
      (ProcessEvents L P tc evs ctx requestID arn prevEvent isShutdown).state.runtimeDoneCalls
        = (ProcessEvents L2 P2 tc evs ctx requestID arn prevEvent
          isShutdown).state.runtimeDoneCalls ∧
      (ProcessEvents L P tc evs ctx requestID arn prevEvent isShutdown).state.platformStartReqID
        = (ProcessEvents L2 P2 tc evs ctx requestID arn prevEvent
          isShutdown).state.platformStartReqID) := by
  refine ⟨?_, ?_, ?_⟩
  · intro prev pre e err hprev hT hM hD hRun
    subst hprev
    have hstep := processEvent_report_failed L P tc requestID arn prev isShutdown false
      (ProcessEvents L P tc pre Ctx.background requestID arn (some prev) isShutdown).state e err
      hT hM hD
    refine ⟨?_, ?_, ?_⟩
    · rw [processLoop_snoc L P tc requestID arn (some prev) isShutdown pre e [] hRun, hstep]
      cases isShutdown <;> simp [processLoop, LoopState.log]
    · intro hs post
      subst hs
      rw [processLoop_snoc L P tc requestID arn (some prev) true pre e post hRun, hstep]
      simp
    · intro hs
      subst hs
      rw [processLoop_snoc L P tc requestID arn (some prev) false pre e [] hRun, hstep]
      simp [processLoop]
  · intro pre e err hT hD hRun
    have hid : (ProcessEvents L P tc pre Ctx.background requestID arn prevEvent
        isShutdown).state.platformStartReqID = attributedRequestID pre :=
      processLoop_startID L P tc Ctx.background requestID arn prevEvent isShutdown pre 0 {} hRun
    rw [← hid] at hD
    have hstep := processEvent_function_failed L P tc requestID arn prevEvent isShutdown false
      (ProcessEvents L P tc pre Ctx.background requestID arn prevEvent isShutdown).state e err
      hT hD
    refine ⟨?_, ?_⟩
    · rw [processLoop_snoc L P tc requestID arn prevEvent isShutdown pre e [] hRun, hstep]
      simp [processLoop, LoopState.log]
    · rw [processLoop_snoc L P tc requestID arn prevEvent isShutdown pre e [] hRun, hstep]
      simp [processLoop]
  · intro L2 P2 ctx evs
    obtain ⟨h1, h2, h3⟩ := processLoop_flow L L2 P P2 tc ctx requestID arn prevEvent isShutdown
      evs 0 {} {} rfl
    simp only [LoopState.flow, Prod.mk.injEq] at h3
    exact ⟨h1, h2, h3.2, h3.1⟩

/-- C20, worked example: with a metrics assembler that fails, the report of `A`
in a shutdown window after `A` sends nothing and ends the window; with a
timestamp writer that fails, a function line sends nothing and the window goes
on. -/
theorem failed_assembly_drops_only_the_document_witness :
    ((ProcessEvents exampleLib failingReport exampleClient ([] ++ [evReport "A" 10])
        Ctx.background "B" "arn" (some ⟨"A", "arn"⟩) true).state.dataChan
        = (ProcessEvents exampleLib failingReport exampleClient []
          Ctx.background "B" "arn" (some ⟨"A", "arn"⟩) true).state.dataChan ∧
      (ProcessEvents exampleLib failingReport exampleClient
        ([] ++ evReport "A" 10 :: [evFunction "late"])
        Ctx.background "B" "arn" (some ⟨"A", "arn"⟩) true).exit = .completed) ∧
    ((ProcessEvents failingTimeLib exampleReport exampleClient
        ([evStart "A"] ++ [evFunction "hello"])
        Ctx.background "A" "arn" none false).state.dataChan
        = (ProcessEvents failingTimeLib exampleReport exampleClient [evStart "A"]
          Ctx.background "A" "arn" none false).state.dataChan ∧
      (ProcessEvents failingTimeLib exampleReport exampleClient
        ([evStart "A"] ++ [evFunction "hello"])
        Ctx.background "A" "arn" none false).exit = .waiting) :=
  ⟨⟨((failed_assembly_drops_only_the_document exampleLib failingReport exampleClient "B" "arn"
        (some ⟨"A", "arn"⟩) true).1 ⟨"A", "arn"⟩ [] (evReport "A" 10)
        "metrics cannot be marshalled" rfl rfl rfl rfl rfl).1,
      (((failed_assembly_drops_only_the_document exampleLib failingReport exampleClient "B" "arn"
        (some ⟨"A", "arn"⟩) true).1 ⟨"A", "arn"⟩ [] (evReport "A" 10)
        "metrics cannot be marshalled" rfl rfl rfl rfl rfl).2.1 rfl [evFunction "late"]).1⟩,
    (failed_assembly_drops_only_the_document failingTimeLib exampleReport exampleClient "A" "arn"
      none false).2.1 [evStart "A"] (evFunction "hello") "timestamp cannot be marshalled"
      rfl rfl rfl⟩

/-! ## The two engines (C19) -/

theorem forall₂_concat (R : String → String → Prop) (xs ys : List String) (x y : String)
    (hd : List.Forall₂ R xs ys) (hp : R x y) : List.Forall₂ R (xs ++ [x]) (ys ++ [y]) :=
  List.rel_append hd (List.Forall₂.cons hp List.Forall₂.nil)

theorem processLogEvent_sim (L : Lib)
    (PT : NextEventResponse → TelEvent → Except GoError String)
    (PFL : String → String → logsapi.LogEvent → Except GoError String)
    (PL : NextEventResponse → logsapi.LogEvent → Except GoError String)
    (tc : Client) (lc : logsapi.Client) (requestID arn : String)
    (prevEvent : Option NextEventResponse) (isShutdown done : Bool)
    (R : String → String → Prop) (st2 st : LoopState) (e : TelEvent)
    (h : st2.flow = st.flow) :
    (logsapi.processLogEvent PFL PL lc requestID arn prevEvent isShutdown done st2
        (toLog e)).1.flow
      = (processEvent L PT tc requestID arn prevEvent isShutdown done st e).1.flow ∧
    (logsapi.processLogEvent PFL PL lc requestID arn prevEvent isShutdown done st2
        (toLog e)).2
      = (processEvent L PT tc requestID arn prevEvent isShutdown done st e).2 ∧
    ((∀ id a x, sameOutcome R (PFL id a (toLog x)) (ProcessFunctionTelemetry L id a x)) →
      (∀ p x, sameOutcome R (PL p (toLog x)) (PT p x)) →
      List.Forall₂ R st2.dataChan st.dataChan →
      List.Forall₂ R
        (logsapi.processLogEvent PFL PL lc requestID arn prevEvent isShutdown done st2
          (toLog e)).1.dataChan
        (processEvent L PT tc requestID arn prevEvent isShutdown done st e).1.dataChan) := by
  simp only [LoopState.flow, Prod.mk.injEq] at h
  obtain ⟨ha, hc⟩ := h
  have t1 : (toLog e).Typ = e.Typ := rfl
  have c1 : logsapi.PlatformStart = PlatformStart := rfl
  have c2 : logsapi.PlatformRuntimeDone = PlatformRuntimeDone := rfl
  have c3 : logsapi.PlatformReport = PlatformReport := rfl
  have c4 : logsapi.PlatformLogsDropped = PlatformLogsDropped := rfl
  have c5 : logsapi.FunctionLog = FunctionLog := rfl
  have r1 : (toLog e).Record.RequestID = e.Record.RequestID := rfl
  have r2 : (toLog e).Record.Status = e.Record.Status := rfl
  have r3 : (toLog e).Time = e.Time := rfl
  unfold processEvent logsapi.processLogEvent
  simp only [t1, c1, c2, c3, c4, c5, r1, r2, r3]
  by_cases h1 : e.Typ = PlatformStart
  · simp only [if_pos h1]
    refine ⟨?_, ?_, ?_⟩
    · simp [LoopState.flow, LoopState.log, hc]
    · simp
    · intro _ _ hd; simpa [LoopState.log] using hd
  by_cases h2 : e.Typ = PlatformRuntimeDone
  · simp only [if_neg h1, if_pos h2]
    refine ⟨?_, ?_, ?_⟩
    · split_ifs <;> simp [LoopState.flow, LoopState.log, ha, hc]
    · split_ifs <;> simp
    · intro _ _ hd
      split_ifs <;> simpa [LoopState.log] using hd
  by_cases h3 : e.Typ = PlatformReport
  · simp only [if_neg h1, if_neg h2, if_pos h3]
    rcases prevEvent with _ | prev
    · refine ⟨?_, ?_, ?_⟩
      · simp [LoopState.flow, LoopState.log, ha, hc]
      · simp
      · intro _ _ hd; simpa [LoopState.log] using hd
    · simp only []
      by_cases h4 : e.Record.RequestID = prev.RequestID
      · simp only [if_pos h4]
        refine ⟨?_, ?_, ?_⟩
        · cases PL prev (toLog e) <;> cases PT prev e <;> cases done <;> cases isShutdown <;>
            simp [LoopState.flow, LoopState.log, LoopState.send, ha, hc]
        · cases isShutdown <;> simp
        · intro _ hP hd
          have hp := hP prev e
          cases hl : PL prev (toLog e) <;> cases ht : PT prev e <;>
            rw [hl, ht] at hp <;> simp only [sameOutcome] at hp <;>
            cases done <;> cases isShutdown <;>
            first
            | (simp [LoopState.log, LoopState.send, hd]; done)
            | (simp only [LoopState.log, LoopState.send, if_false, Bool.false_eq_true]
               exact forall₂_concat R _ _ _ _ hd hp)
      · simp only [if_neg h4]
        refine ⟨?_, ?_, ?_⟩
        · simp [LoopState.flow, LoopState.log, ha, hc]
        · simp
        · intro _ _ hd; simpa [LoopState.log] using hd
  simp only [if_neg h1, if_neg h2, if_neg h3]
  by_cases h4 : e.Typ = PlatformLogsDropped
  · simp only [if_pos h4]
    refine ⟨?_, ?_, ?_⟩
    · simp [LoopState.flow, LoopState.log, ha, hc]
    · simp
    · intro _ _ hd; simpa [LoopState.log] using hd
  by_cases h5 : e.Typ = FunctionLog
  · simp only [if_neg h4, if_pos h5, LoopState.log, ha]
    refine ⟨?_, ?_, ?_⟩
    · cases PFL st.platformStartReqID arn (toLog e) <;>
        cases ProcessFunctionTelemetry L st.platformStartReqID arn e <;> cases done <;>
        simp [LoopState.flow, LoopState.log, LoopState.send, ha, hc]
    · cases PFL st.platformStartReqID arn (toLog e) <;>
        cases ProcessFunctionTelemetry L st.platformStartReqID arn e <;> simp
    · intro hF _ hd
      have hp := hF st.platformStartReqID arn e
      cases hl : PFL st.platformStartReqID arn (toLog e) <;>
        cases ht : ProcessFunctionTelemetry L st.platformStartReqID arn e <;>
        rw [hl, ht] at hp <;> simp only [sameOutcome] at hp <;>
        cases done <;>
        first
        | (simp [LoopState.log, LoopState.send, hd]; done)
        | (simp only [LoopState.log, LoopState.send, if_false, Bool.false_eq_true]
           exact forall₂_concat R _ _ _ _ hd hp)
  · simp only [if_neg h4, if_neg h5]
    refine ⟨?_, ?_, ?_⟩
    · simp [LoopState.flow, LoopState.log, ha, hc]
    · simp
    · intro _ _ hd; simpa [LoopState.log] using hd

theorem processLogsLoop_sim (L : Lib)
    (PT : NextEventResponse → TelEvent → Except GoError String)
    (PFL : String → String → logsapi.LogEvent → Except GoError String)
    (PL : NextEventResponse → logsapi.LogEvent → Except GoError String)
    (tc : Client) (lc : logsapi.Client) (ctx : Ctx) (requestID arn : String)
    (prevEvent : Option NextEventResponse) (isShutdown : Bool)
    (R : String → String → Prop) :
    ∀ (evs : List TelEvent) (k : Nat) (st2 st : LoopState), st2.flow = st.flow →
      (logsapi.processLogsLoop PFL PL lc ctx requestID arn prevEvent isShutdown k st2
          (evs.map toLog)).exit
        = (processLoop L PT tc ctx requestID arn prevEvent isShutdown k st evs).exit ∧
      (logsapi.processLogsLoop PFL PL lc ctx requestID arn prevEvent isShutdown k st2
          (evs.map toLog)).rest
        = (processLoop L PT tc ctx requestID arn prevEvent isShutdown k st evs).rest.map toLog ∧
      (logsapi.processLogsLoop PFL PL lc ctx requestID arn prevEvent isShutdown k st2
          (evs.map toLog)).state.flow
        = (processLoop L PT tc ctx requestID arn prevEvent isShutdown k st evs).state.flow ∧
      ((∀ id a x, sameOutcome R (PFL id a (toLog x)) (ProcessFunctionTelemetry L id a x)) →
        (∀ p x, sameOutcome R (PL p (toLog x)) (PT p x)) →
        List.Forall₂ R st2.dataChan st.dataChan →
        List.Forall₂ R
          (logsapi.processLogsLoop PFL PL lc ctx requestID arn prevEvent isShutdown k st2
            (evs.map toLog)).state.dataChan
          (processLoop L PT tc ctx requestID arn prevEvent isShutdown k st evs).state.dataChan)
      := by
  intro evs
  induction evs with
  | nil =>
    intro k st2 st h
    by_cases hc : ctx.doneAtRecv k = true
    · rw [List.map_nil, logsapi.processLogsLoop, processLoop, if_pos hc, if_pos hc]
      exact ⟨rfl, rfl, by simpa [LoopState.flow, LoopState.log] using h,
        fun _ _ hd => by simpa [LoopState.log] using hd⟩
    · rw [List.map_nil, logsapi.processLogsLoop, processLoop, if_neg hc, if_neg hc]
      exact ⟨rfl, rfl, h, fun _ _ hd => hd⟩
  | cons e evs ih =>
    intro k st2 st h
    by_cases hc : ctx.doneAtRecv k = true
    · rw [List.map_cons, logsapi.processLogsLoop, processLoop, if_pos hc, if_pos hc]
      exact ⟨rfl, rfl, by simpa [LoopState.flow, LoopState.log] using h,
        fun _ _ hd => by simpa [LoopState.log] using hd⟩
    · obtain ⟨h1, h2, h3⟩ := processLogEvent_sim L PT PFL PL tc lc requestID arn prevEvent
        isShutdown (ctx.doneAtSend k) R st2 st e h
      by_cases hr : (processEvent L PT tc requestID arn prevEvent isShutdown
          (ctx.doneAtSend k) st e).2 = true
      · have hr2 := h2.trans hr
        rw [List.map_cons, logsapi.processLogsLoop, processLoop, if_neg hc, if_neg hc]
        simp only [hr, hr2, if_true]
        exact ⟨trivial, trivial, h1, h3⟩
      · have hr2 : ¬ (logsapi.processLogEvent PFL PL lc requestID arn prevEvent isShutdown
            (ctx.doneAtSend k) st2 (toLog e)).2 = true := by rw [h2]; exact hr
        rw [List.map_cons, logsapi.processLogsLoop, processLoop, if_neg hc, if_neg hc]
        simp only [hr, hr2, if_false, Bool.false_eq_true]
        obtain ⟨i1, i2, i3, i4⟩ := ih (k + 1) _ _ h1
        exact ⟨i1, i2, i3, fun hF hP hd => i4 hF hP (h3 hF hP hd)⟩

/-- C19: the two engines are one state machine. For every window, every
resolution of the `select`s and every sequence of Telemetry API events, the run
of `ProcessLogs` over the Logs API events with the same types, request ids,
statuses and times ends like the run of `ProcessEvents`, leaves the events that
correspond to those it leaves, makes the same calls of the lifecycler in the
same order and holds the same `platformStartReqID`, whatever the lifecyclers and
the assemblers return; and when the assemblers of the two packages give
corresponding results on corresponding arguments, the documents sent correspond
one to one, in order. -/
theorem logs_engine_is_the_same_machine (L : Lib)
    (PT : NextEventResponse → TelEvent → Except GoError String)
    (PFL : String → String → logsapi.LogEvent → Except GoError String)
    (PL : NextEventResponse → logsapi.LogEvent → Except GoError String)
    (tc : Client) (lc : logsapi.Client) (ctx : Ctx) (requestID arn : String)
    (prevEvent : Option NextEventResponse) (isShutdown : Bool) (evs : List TelEvent) :
    (logsapi.ProcessLogs PFL PL lc (evs.map toLog) ctx requestID arn prevEvent isShutdown).exit
      = (ProcessEvents L PT tc evs ctx requestID arn prevEvent isShutdown).exit ∧
    (logsapi.ProcessLogs PFL PL lc (evs.map toLog) ctx requestID arn prevEvent isShutdown).rest
      = (ProcessEvents L PT tc evs ctx requestID arn prevEvent isShutdown).rest.map toLog ∧
    (logsapi.ProcessLogs PFL PL lc (evs.map toLog) ctx requestID arn prevEvent
        isShutdown).state.runtimeDoneCalls
      = (ProcessEvents L PT tc evs ctx requestID arn prevEvent
        isShutdown).state.runtimeDoneCalls ∧
    (logsapi.ProcessLogs PFL PL lc (evs.map toLog) ctx requestID arn prevEvent
        isShutdown).state.platformStartReqID
      = (ProcessEvents L PT tc evs ctx requestID arn prevEvent
        isShutdown).state.platformStartReqID ∧
    (∀ R : String → String → Prop,
      (∀ id a x, sameOutcome R (PFL id a (toLog x)) (ProcessFunctionTelemetry L id a x)) →
      (∀ p x, sameOutcome R (PL p (toLog x)) (PT p x)) →
      List.Forall₂ R
        (logsapi.ProcessLogs PFL PL lc (evs.map toLog) ctx requestID arn prevEvent
          isShutdown).state.dataChan
        (ProcessEvents L PT tc evs ctx requestID arn prevEvent isShutdown).state.dataChan) := by
  obtain ⟨h1, h2, h3, _⟩ := processLogsLoop_sim L PT PFL PL tc lc ctx requestID arn prevEvent
    isShutdown (fun _ _ => True) evs 0 {} {} rfl
  simp only [LoopState.flow, Prod.mk.injEq] at h3
  refine ⟨h1, h2, h3.2, h3.1, ?_⟩
  intro R hF hP
  exact (processLogsLoop_sim L PT PFL PL tc lc ctx requestID arn prevEvent isShutdown R evs 0
    {} {} rfl).2.2.2 hF hP List.Forall₂.nil

/-- C19, worked example: `platform.start` of `A`, a function line, the report
of the previous request `P`, the `platform.runtimeDone` of `A` and a late line,
in the invoke window of `A`: both engines stop at the `platform.runtimeDone`,
and each has sent a function-log document and a metrics document. -/
theorem logs_engine_is_the_same_machine_witness :
    (logsapi.ProcessLogs exampleFunctionLog exampleLogReport ⟨fun _ _ _ => none⟩
      ([evStart "A", evFunction "hello", evReport "P" 10, evRuntimeDone "A" "success",
        evFunction "late"].map toLog)
      Ctx.background "A" "arn" (some ⟨"P", "arn"⟩) false).exit
      = (ProcessEvents exampleLib exampleReport exampleClient
        [evStart "A", evFunction "hello", evReport "P" 10, evRuntimeDone "A" "success",
          evFunction "late"]
        Ctx.background "A" "arn" (some ⟨"P", "arn"⟩) false).exit ∧
    (logsapi.ProcessLogs exampleFunctionLog exampleLogReport ⟨fun _ _ _ => none⟩
      ([evStart "A", evFunction "hello", evReport "P" 10, evRuntimeDone "A" "success",
        evFunction "late"].map toLog)
      Ctx.background "A" "arn" (some ⟨"P", "arn"⟩) false).exit = .completed ∧
    (logsapi.ProcessLogs exampleFunctionLog exampleLogReport ⟨fun _ _ _ => none⟩
      ([evStart "A", evFunction "hello", evReport "P" 10, evRuntimeDone "A" "success",
        evFunction "late"].map toLog)
      Ctx.background "A" "arn" (some ⟨"P", "arn"⟩) false).state.dataChan
      = ["log arn A hello", "metrics arn P durationMs=10"] ∧
    (ProcessEvents exampleLib exampleReport exampleClient
      [evStart "A", evFunction "hello", evReport "P" 10, evRuntimeDone "A" "success",
        evFunction "late"]
      Ctx.background "A" "arn" (some ⟨"P", "arn"⟩) false).state.dataChan
      = ["\x7b\"telemetry\":\x7b\"message\":\"hello\",\"@timestamp\":0," ++
          "\"faas\":\x7b\"id\":\"arn\",\"execution\":\"A\"\x7d\x7d\x7d",
         "metrics arn P durationMs=10"] :=
  ⟨(logs_engine_is_the_same_machine exampleLib exampleReport exampleFunctionLog exampleLogReport
      exampleClient ⟨fun _ _ _ => none⟩ Ctx.background "A" "arn" (some ⟨"P", "arn"⟩) false
      [evStart "A", evFunction "hello", evReport "P" 10, evRuntimeDone "A" "success",
        evFunction "late"]).1,
    by decide, by decide, by decide⟩

/-! ## Events without a dispatch case (C21) -/

theorem processEvent_undispatched (L : Lib)
    (P : NextEventResponse → TelEvent → Except GoError String)
    (tc : Client) (requestID arn : String) (prevEvent : Option NextEventResponse)
    (isShutdown done : Bool) (st : LoopState) (e : TelEvent)
    (h1 : e.Typ ≠ PlatformStart) (h2 : e.Typ ≠ PlatformRuntimeDone)
    (h3 : e.Typ ≠ PlatformReport) (h5 : e.Typ ≠ FunctionLog) :
    processEvent L P tc requestID arn prevEvent isShutdown done st e =
      if e.Typ = PlatformLogsDropped then
        ((st.log .debug "Received telemetry event %v for request ID %s").log .warn
          "Telemetry events dropped due to extension falling behind: %v", false)
      else (st.log .debug "Received telemetry event %v for request ID %s", false) := by
  unfold processEvent
  simp only [if_neg h1, if_neg h2, if_neg h3, if_neg h5]

/-- C21: a `platform.logsDropped` event, and every event whose type has no case
in the switch (the other declared types and any unknown type), in any window:
the pass that processes it does not return, sends no document, calls no
lifecycler and leaves `platformStartReqID` alone; it writes the debug line, and
for `platform.logsDropped` the warning. A run that processes it after the
events `pre` has not returned at it and goes on with the events `post` exactly
as the run without it. The declared types that are meant are listed. -/
theorem undispatched_event_has_no_effect (L : Lib)
    (P : NextEventResponse → TelEvent → Except GoError String)
    (tc : Client) (requestID arn : String) (prevEvent : Option NextEventResponse)
    (isShutdown : Bool) (e : TelEvent)
    (h1 : e.Typ ≠ PlatformStart) (h2 : e.Typ ≠ PlatformRuntimeDone)
    (h3 : e.Typ ≠ PlatformReport) (h5 : e.Typ ≠ FunctionLog) :
    (∀ done st,
      (processEvent L P tc requestID arn prevEvent isShutdown done st e).2 = false ∧
      (processEvent L P tc requestID arn prevEvent isShutdown done st e).1.dataChan
        = st.dataChan ∧
      (processEvent L P tc requestID arn prevEvent isShutdown done st e).1.runtimeDoneCalls
        = st.runtimeDoneCalls ∧
      (processEvent L P tc requestID arn prevEvent isShutdown done st e).1.platformStartReqID
        = st.platformStartReqID ∧
      (processEvent L P tc requestID arn prevEvent isShutdown done st e).1.logs
        = if e.Typ = PlatformLogsDropped then
            st.logs ++ [(.debug, "Received telemetry event %v for request ID %s"),
              (.warn, "Telemetry events dropped due to extension falling behind: %v")]
          else st.logs ++ [(.debug, "Received telemetry event %v for request ID %s")]) ∧
    (∀ pre post,
      (ProcessEvents L P tc pre Ctx.background requestID arn prevEvent isShutdown).exit
        = .waiting →
      (ProcessEvents L P tc (pre ++ [e]) Ctx.background requestID arn prevEvent isShutdown).exit
        = .waiting ∧
      (ProcessEvents L P tc (pre ++ [e]) Ctx.background requestID arn prevEvent
        isShutdown).state.obs
        = (ProcessEvents L P tc pre Ctx.background requestID arn prevEvent
          isShutdown).state.obs ∧
      (ProcessEvents L P tc (pre ++ e :: post) Ctx.background requestID arn prevEvent
        isShutdown).exit
        = (ProcessEvents L P tc (pre ++ post) Ctx.background requestID arn prevEvent
          isShutdown).exit ∧
      (ProcessEvents L P tc (pre ++ e :: post) Ctx.background requestID arn prevEvent
        isShutdown).rest
        = (ProcessEvents L P tc (pre ++ post) Ctx.background requestID arn prevEvent
          isShutdown).rest ∧
      (ProcessEvents L P tc (pre ++ e :: post) Ctx.background requestID arn prevEvent
        isShutdown).state.obs
        = (ProcessEvents L P tc (pre ++ post) Ctx.background requestID arn prevEvent
          isShutdown).state.obs) ∧
    (∀ t ∈ [PlatformLogsDropped, PlatformFault, PlatformInitStart, PlatformInitRuntimeDone,
        PlatformInitReport, PlatformRestoreStart, PlatformRestoreRuntimeDone,
        PlatformRestoreReport, PlatformTelemetrySubscription, ExtensionLog],
      t ≠ PlatformStart ∧ t ≠ PlatformRuntimeDone ∧ t ≠ PlatformReport ∧ t ≠ FunctionLog) := by
  have heq := fun done st =>
    processEvent_undispatched L P tc requestID arn prevEvent isShutdown done st e h1 h2 h3 h5
  have hret : ∀ done st,
      (processEvent L P tc requestID arn prevEvent isShutdown done st e).2 = false := by
    intro done st; rw [heq]; split_ifs <;> rfl
  have hobs : ∀ done st,
      (processEvent L P tc requestID arn prevEvent isShutdown done st e).1.obs = st.obs := by
    intro done st; rw [heq]; split_ifs <;> rfl
  refine ⟨?_, ?_, by decide⟩
  · intro done st
    have ho := hobs done st
    simp only [LoopState.obs, Prod.mk.injEq] at ho
    refine ⟨hret done st, ho.2.1, ho.2.2, ho.1, ?_⟩
    rw [heq]
    split_ifs <;> simp [LoopState.log]
  · intro pre post hRun
    have hskip := fun post => ProcessEvents_skip L P tc requestID arn prevEvent isShutdown pre e
      post hRun (hret _ _) (hobs _ _)
    have h0 := hskip []
    rw [List.append_nil] at h0
    exact ⟨h0.1.trans hRun, h0.2.2, hskip post⟩

/-- C21, worked example: a `platform.logsDropped` event and a `platform.fault`
event between the `platform.start` and the function line of request `A` change
neither the document nor the end of the window. -/
theorem undispatched_event_has_no_effect_witness :
    ((ProcessEvents exampleLib exampleReport exampleClient
        ([evStart "A"] ++ evLogsDropped :: [evFunction "hello", evRuntimeDone "A" "success"])
        Ctx.background "A" "arn" none false).exit
      = (ProcessEvents exampleLib exampleReport exampleClient
        ([evStart "A"] ++ [evFunction "hello", evRuntimeDone "A" "success"])
        Ctx.background "A" "arn" none false).exit ∧
    (ProcessEvents exampleLib exampleReport exampleClient
        ([evStart "A"] ++ evLogsDropped :: [evFunction "hello", evRuntimeDone "A" "success"])
        Ctx.background "A" "arn" none false).state.obs
      = (ProcessEvents exampleLib exampleReport exampleClient
        ([evStart "A"] ++ [evFunction "hello", evRuntimeDone "A" "success"])
        Ctx.background "A" "arn" none false).state.obs) ∧
    (ProcessEvents exampleLib exampleReport exampleClient
        ([evStart "A"] ++ [evFault "Process exited"])
        Ctx.background "A" "arn" none false).state.obs
      = (ProcessEvents exampleLib exampleReport exampleClient [evStart "A"]
        Ctx.background "A" "arn" none false).state.obs ∧
    (ProcessEvents exampleLib exampleReport exampleClient
        [evStart "A", evLogsDropped, evFault "Process exited"]
        Ctx.background "A" "arn" none false).state.obs = ("A", [], []) :=
  ⟨⟨(((undispatched_event_has_no_effect exampleLib exampleReport exampleClient "A" "arn" none
        false evLogsDropped (by decide) (by decide) (by decide) (by decide)).2.1 [evStart "A"]
        [evFunction "hello", evRuntimeDone "A" "success"] rfl).2.2.1),
      (((undispatched_event_has_no_effect exampleLib exampleReport exampleClient "A" "arn" none
        false evLogsDropped (by decide) (by decide) (by decide) (by decide)).2.1 [evStart "A"]
        [evFunction "hello", evRuntimeDone "A" "success"] rfl).2.2.2.2)⟩,
    ((undispatched_event_has_no_effect exampleLib exampleReport exampleClient "A" "arn" none
      false (evFault "Process exited") (by decide) (by decide) (by decide) (by decide)).2.1
      [evStart "A"] [] rfl).2.1,
    by decide⟩

/-! ## The subscription request (C23) -/

/-- C23: the request that `subscribe` marshals, for any types and URI: its
buffering values are 10000 items, 1048576 bytes and 100 ms, each inside the
range documented on `BufferingCfg` and inside `uint32`; its destination is
protocol `HTTP`, method `POST`, encoding `JSON` and the URI of the caller; its
types are the types of the caller, in order; its schema version is
`2021-03-18`. It is the only request `subscribe` marshals: two clients that
agree on it, on the base URL and on the HTTP calls get the same result. -/
theorem subscribe_request_is_within_documented_ranges (types : List SubscriptionType)
    (uri : String) :
    ((subscribeRequest types uri).BufferingCfg.MaxItems = 10000 ∧
      1000 ≤ (subscribeRequest types uri).BufferingCfg.MaxItems ∧
      (subscribeRequest types uri).BufferingCfg.MaxItems ≤ 10000) ∧
    ((subscribeRequest types uri).BufferingCfg.MaxBytes = 1048576 ∧
      262144 ≤ (subscribeRequest types uri).BufferingCfg.MaxBytes ∧
      (subscribeRequest types uri).BufferingCfg.MaxBytes ≤ 1048576) ∧
    ((subscribeRequest types uri).BufferingCfg.TimeoutMS = 100 ∧
      100 ≤ (subscribeRequest types uri).BufferingCfg.TimeoutMS ∧
      (subscribeRequest types uri).BufferingCfg.TimeoutMS ≤ 30000) ∧
    ((subscribeRequest types uri).BufferingCfg.MaxItems < 2 ^ 32 ∧
      (subscribeRequest types uri).BufferingCfg.MaxBytes < 2 ^ 32 ∧
      (subscribeRequest types uri).BufferingCfg.TimeoutMS < 2 ^ 32) ∧
    (subscribeRequest types uri).Destination
      = { Protocol := "HTTP", URI := uri, HTTPMethod := "POST", Encoding := "JSON" } ∧
    (subscribeRequest types uri).TelemetryTypes = types ∧
    (subscribeRequest types uri).SchemaVersion = "2021-03-18" ∧
    (∀ (env env2 : SubscribeEnv) (extensionID : String),
      env2.telAPIBaseURL = env.telAPIBaseURL → env2.NewRequest = env.NewRequest →
      env2.Do = env.Do →
      env2.Marshal (subscribeRequest types uri) = env.Marshal (subscribeRequest types uri) →
      subscribe env2 types extensionID uri = subscribe env types extensionID uri) := by
  refine ⟨⟨rfl, ?_, ?_⟩, ⟨rfl, ?_, ?_⟩, ⟨rfl, ?_, ?_⟩, ⟨?_, ?_, ?_⟩, rfl, rfl, rfl, ?_⟩
  all_goals first
    | (simp only [subscribeRequest]; norm_num; done)
    | skip
  intro env env2 extensionID hURL hNew hDo hMarshal
  simp only [subscribe, sendRequest, hURL, hNew, hDo, hMarshal]

/-- C23, worked example: the request for the types `platform` and `function`
and the listener URI, and a client that marshals only a request with these
buffering values. -/
theorem subscribe_request_is_within_documented_ranges_witness :
    (subscribeRequest ["platform", "function"] "http://sandbox:8205").BufferingCfg
      = { MaxItems := 10000, MaxBytes := 1048576, TimeoutMS := 100 } ∧
    (subscribeRequest ["platform", "function"] "http://sandbox:8205").Destination
      = { Protocol := "HTTP", URI := "http://sandbox:8205", HTTPMethod := "POST",
          Encoding := "JSON" } ∧
    (subscribeRequest ["platform", "function"] "http://sandbox:8205").TelemetryTypes
      = ["platform", "function"] ∧
    subscribe (strictEnv ⟨200, "200 OK", .ok "OK"⟩) ["platform", "function"] "id"
        "http://sandbox:8205"
      = subscribe (exampleEnv ⟨200, "200 OK", .ok "OK"⟩) ["platform", "function"] "id"
        "http://sandbox:8205" ∧
    subscribe (strictEnv ⟨200, "200 OK", .ok "OK"⟩) ["platform", "function"] "id"
        "http://sandbox:8205" = none :=
  ⟨rfl,
    (subscribe_request_is_within_documented_ranges ["platform", "function"]
      "http://sandbox:8205").2.2.2.2.1,
    (subscribe_request_is_within_documented_ranges ["platform", "function"]
      "http://sandbox:8205").2.2.2.2.2.1,
    (subscribe_request_is_within_documented_ranges ["platform", "function"]
      "http://sandbox:8205").2.2.2.2.2.2.2 (exampleEnv ⟨200, "200 OK", .ok "OK"⟩)
      (strictEnv ⟨200, "200 OK", .ok "OK"⟩) "id" rfl rfl rfl rfl,
    by decide⟩

/-! ## A window consumes a prefix of the queue (C24) -/

/-- One pass of the loop: the request id it holds afterwards, and the document
it has sent, which is the document of its event unless `<-ctx.Done()` was taken
in the inner `select`. -/
theorem processEvent_document (L : Lib)
    (P : NextEventResponse → TelEvent → Except GoError String)
    (tc : Client) (requestID arn : String) (prevEvent : Option NextEventResponse)
    (isShutdown done : Bool) (st : LoopState) (e : TelEvent) :
    (processEvent L P tc requestID arn prevEvent isShutdown done st e).1.platformStartReqID
      = (if e.Typ = PlatformStart then e.Record.RequestID else st.platformStartReqID) ∧
    (processEvent L P tc requestID arn prevEvent isShutdown done st e).1.dataChan
      = st.dataChan ++
        (if done then none
          else documentOf L P arn prevEvent st.platformStartReqID e).toList := by
  have d1 : PlatformStart ≠ FunctionLog := by decide
  have d2 : PlatformStart ≠ PlatformReport := by decide
  have d3 : PlatformRuntimeDone ≠ FunctionLog := by decide
  have d4 : PlatformRuntimeDone ≠ PlatformReport := by decide
  have d5 : PlatformReport ≠ FunctionLog := by decide
  have d6 : PlatformLogsDropped ≠ FunctionLog := by decide
  unfold processEvent documentOf
  by_cases h1 : e.Typ = PlatformStart
  · have n5 : e.Typ ≠ FunctionLog := by rw [h1]; exact d1
    have n3 : e.Typ ≠ PlatformReport := by rw [h1]; exact d2
    simp only [if_pos h1, if_neg n5, if_neg n3]
    cases done <;> simp [LoopState.log]
  by_cases h2 : e.Typ = PlatformRuntimeDone
  · have n5 : e.Typ ≠ FunctionLog := by rw [h2]; exact d3
    have n3 : e.Typ ≠ PlatformReport := by rw [h2]; exact d4
    simp only [if_neg h1, if_pos h2, if_neg n5, if_neg n3]
    cases done <;> split_ifs <;> simp [LoopState.log]
  by_cases h3 : e.Typ = PlatformReport
  · have n5 : e.Typ ≠ FunctionLog := by rw [h3]; exact d5
    simp only [if_neg h1, if_neg h2, if_pos h3, if_neg n5]
    rcases prevEvent with _ | prev
    · cases done <;> simp [LoopState.log]
    · by_cases h4 : e.Record.RequestID = prev.RequestID
      · simp only [if_pos h4]
        rcases hP : P prev e with err | doc
        · cases done <;> cases isShutdown <;> simp [LoopState.log, Except.toOption]
        · cases done <;> cases isShutdown <;>
            simp [LoopState.log, LoopState.send, Except.toOption]
      · simp only [if_neg h4]
        cases done <;> simp [LoopState.log]
  by_cases h4 : e.Typ = PlatformLogsDropped
  · have n5 : e.Typ ≠ FunctionLog := by rw [h4]; exact d6
    simp only [if_neg h1, if_neg h2, if_neg h3, if_pos h4, if_neg n5]
    cases done <;> simp [LoopState.log]
  by_cases h5 : e.Typ = FunctionLog
  · simp only [if_neg h1, if_neg h2, if_neg h3, if_neg h4, if_pos h5]
    have hid : (st.log .debug "Received telemetry event %v for request ID %s").platformStartReqID
        = st.platformStartReqID := rfl
    rw [hid]
    rcases hF : ProcessFunctionTelemetry L st.platformStartReqID arn e with err | doc
    · cases done <;> simp [LoopState.log, Except.toOption]
    · cases done <;> simp [LoopState.log, LoopState.send, Except.toOption]
  · simp only [if_neg h1, if_neg h2, if_neg h3, if_neg h4, if_neg h5]
    cases done <;> simp [LoopState.log]

/-- A run from any pass: the events it has taken are a prefix of the events
delivered, each pass has sent the document of its event or nothing, and the run
has returned from the switch exactly when the last event taken is terminal and
the first terminal one. -/
theorem processLoop_consumed (L : Lib)
    (P : NextEventResponse → TelEvent → Except GoError String)
    (tc : Client) (ctx : Ctx) (requestID arn : String) (prevEvent : Option NextEventResponse)
    (isShutdown : Bool) :
    ∀ (evs : List TelEvent) (k : Nat) (st : LoopState),
      ∃ (consumed : List TelEvent) (sent : List (Option String)),
        evs = consumed ++
          (processLoop L P tc ctx requestID arn prevEvent isShutdown k st evs).rest ∧
        List.Forall₂ (fun s d => s = none ∨ s = d) sent
          (documentsOf L P arn prevEvent st.platformStartReqID consumed) ∧
        ((∀ j, ctx.doneAtSend j = false) →
          sent = documentsOf L P arn prevEvent st.platformStartReqID consumed) ∧
        (processLoop L P tc ctx requestID arn prevEvent isShutdown k st evs).state.dataChan
          = st.dataChan ++ sent.reduceOption ∧
        ((processLoop L P tc ctx requestID arn prevEvent isShutdown k st evs).exit = .completed →
          ∃ pre t, consumed = pre ++ [t] ∧ terminal requestID prevEvent isShutdown t ∧
            ∀ x ∈ pre, ¬ terminal requestID prevEvent isShutdown x) ∧
        ((processLoop L P tc ctx requestID arn prevEvent isShutdown k st evs).exit ≠ .completed →
          ∀ x ∈ consumed, ¬ terminal requestID prevEvent isShutdown x) ∧
        ((processLoop L P tc ctx requestID arn prevEvent isShutdown k st evs).exit = .waiting →
          (processLoop L P tc ctx requestID arn prevEvent isShutdown k st evs).rest = []) := by
  intro evs
  induction evs with
  | nil =>
    intro k st
    refine ⟨[], [], ?_⟩
    by_cases hc : ctx.doneAtRecv k = true <;>
      simp [processLoop, hc, documentsOf, LoopState.log]
  | cons e evs ih =>
    intro k st
    by_cases hc : ctx.doneAtRecv k = true
    · refine ⟨[], [], ?_⟩
      simp [processLoop, hc, documentsOf, LoopState.log]
    · obtain ⟨hid, hdoc⟩ := processEvent_document L P tc requestID arn prevEvent isShutdown
        (ctx.doneAtSend k) st e
      have hsent : (if ctx.doneAtSend k = true then none
            else documentOf L P arn prevEvent st.platformStartReqID e) = none ∨
          (if ctx.doneAtSend k = true then none
            else documentOf L P arn prevEvent st.platformStartReqID e)
            = documentOf L P arn prevEvent st.platformStartReqID e := by
        by_cases hd : ctx.doneAtSend k = true
        · left; rw [if_pos hd]
        · right; rw [if_neg hd]
      by_cases hr : (processEvent L P tc requestID arn prevEvent isShutdown
          (ctx.doneAtSend k) st e).2 = true
      · have ht := (processEvent_returns L P tc requestID arn prevEvent isShutdown
          (ctx.doneAtSend k) st e).1 hr
        refine ⟨[e], [if ctx.doneAtSend k = true then none
            else documentOf L P arn prevEvent st.platformStartReqID e], ?_⟩
        simp only [processLoop, hc, hr, if_true, if_false, Bool.false_eq_true]
        refine ⟨rfl, ?_, ?_, ?_, ?_, ?_, ?_⟩
        · exact List.Forall₂.cons hsent List.Forall₂.nil
        · intro hdone; simp [documentsOf, hdone]
        · rw [hdoc]
          cases (if ctx.doneAtSend k = true then none
            else documentOf L P arn prevEvent st.platformStartReqID e) <;> simp
        · intro _
          exact ⟨[], e, rfl, ht, by simp⟩
        · intro h; exact absurd rfl h
        · intro h; cases h
      · have hnt : ¬ terminal requestID prevEvent isShutdown e := fun ht =>
          hr ((processEvent_returns L P tc requestID arn prevEvent isShutdown
            (ctx.doneAtSend k) st e).2 ht)
        obtain ⟨c, s, h1, h2, h3, h4, h5, h6, h7⟩ := ih (k + 1)
          (processEvent L P tc requestID arn prevEvent isShutdown (ctx.doneAtSend k) st e).1
        rw [hid] at h2 h3
        refine ⟨e :: c, (if ctx.doneAtSend k = true then none
            else documentOf L P arn prevEvent st.platformStartReqID e) :: s, ?_⟩
        simp only [processLoop, hc, hr, if_false, Bool.false_eq_true]
        refine ⟨?_, ?_, ?_, ?_, ?_, ?_, h7⟩
        · rw [List.cons_append, ← h1]
        · exact List.Forall₂.cons hsent h2
        · intro hdone
          rw [documentsOf, ← h3 hdone]
          simp [hdone]
        · rw [h4, hdoc]
          cases (if ctx.doneAtSend k = true then none
            else documentOf L P arn prevEvent st.platformStartReqID e) <;> simp
        · intro hx
          obtain ⟨pre, t, hc1, hc2, hc3⟩ := h5 hx
          refine ⟨e :: pre, t, by rw [hc1, List.cons_append], hc2, ?_⟩
          intro x hxm
          rcases List.mem_cons.1 hxm with rfl | hxm
          · exact hnt
          · exact hc3 x hxm
        · intro hx x hxm
          rcases List.mem_cons.1 hxm with rfl | hxm
          · exact hnt
          · exact h6 hx x hxm

/-- One pass of the Logs API loop sends no document or one. -/
theorem processLogEvent_document
    (PFL : String → String → logsapi.LogEvent → Except GoError String)
    (PL : NextEventResponse → logsapi.LogEvent → Except GoError String)
    (lc : logsapi.Client) (requestID arn : String) (prevEvent : Option NextEventResponse)
    (isShutdown done : Bool) (st : LoopState) (e : logsapi.LogEvent) :
    ∃ s : Option String,
      (logsapi.processLogEvent PFL PL lc requestID arn prevEvent isShutdown done st e).1.dataChan
        = st.dataChan ++ s.toList := by
  unfold logsapi.processLogEvent
  by_cases h1 : e.Typ = logsapi.PlatformStart
  · exact ⟨none, by simp [if_pos h1, LoopState.log]⟩
  by_cases h2 : e.Typ = logsapi.PlatformRuntimeDone
  · refine ⟨none, ?_⟩
    simp only [if_neg h1, if_pos h2]
    split_ifs <;> simp [LoopState.log]
  by_cases h3 : e.Typ = logsapi.PlatformReport
  · simp only [if_neg h1, if_neg h2, if_pos h3]
    rcases prevEvent with _ | prev
    · exact ⟨none, by simp [LoopState.log]⟩
    · by_cases h4 : e.Record.RequestID = prev.RequestID
      · simp only [if_pos h4]
        rcases hP : PL prev e with err | doc
        · exact ⟨none, by cases isShutdown <;> simp [LoopState.log]⟩
        · cases done
          · exact ⟨some doc, by cases isShutdown <;> simp [LoopState.log, LoopState.send]⟩
          · exact ⟨none, by cases isShutdown <;> simp [LoopState.log, LoopState.send]⟩
      · exact ⟨none, by simp [if_neg h4, LoopState.log]⟩
  by_cases h4 : e.Typ = logsapi.PlatformLogsDropped
  · exact ⟨none, by simp [if_neg h1, if_neg h2, if_neg h3, if_pos h4, LoopState.log]⟩
  by_cases h5 : e.Typ = logsapi.FunctionLog
  · simp only [if_neg h1, if_neg h2, if_neg h3, if_neg h4, if_pos h5]
    rcases hF : PFL (st.log .debug "Received log event %v for request ID %s").platformStartReqID
      arn e with err | doc
    · exact ⟨none, by simp [LoopState.log]⟩
    · cases done
      · exact ⟨some doc, by simp [LoopState.log, LoopState.send]⟩
      · exact ⟨none, by simp [LoopState.log, LoopState.send]⟩
  · exact ⟨none, by simp [if_neg h1, if_neg h2, if_neg h3, if_neg h4, if_neg h5, LoopState.log]⟩

/-- A run of the Logs API loop from any pass: the events it has taken are a
prefix of the events delivered, and each pass has sent at most one document. -/
theorem processLogsLoop_consumed
    (PFL : String → String → logsapi.LogEvent → Except GoError String)
    (PL : NextEventResponse → logsapi.LogEvent → Except GoError String)
    (lc : logsapi.Client) (ctx : Ctx) (requestID arn : String)
    (prevEvent : Option NextEventResponse) (isShutdown : Bool) :
    ∀ (evs : List logsapi.LogEvent) (k : Nat) (st : LoopState),
      ∃ (consumed : List logsapi.LogEvent) (sent : List (Option String)),
        evs = consumed ++
          (logsapi.processLogsLoop PFL PL lc ctx requestID arn prevEvent isShutdown k st
            evs).rest ∧
        sent.length = consumed.length ∧
        (logsapi.processLogsLoop PFL PL lc ctx requestID arn prevEvent isShutdown k st
            evs).state.dataChan
          = st.dataChan ++ sent.reduceOption := by
  intro evs
  induction evs with
  | nil =>
    intro k st
    refine ⟨[], [], ?_⟩
    by_cases hc : ctx.doneAtRecv k = true <;>
      simp [logsapi.processLogsLoop, hc, LoopState.log]
  | cons e evs ih =>
    intro k st
    by_cases hc : ctx.doneAtRecv k = true
    · refine ⟨[], [], ?_⟩
      simp [logsapi.processLogsLoop, hc, LoopState.log]
    · obtain ⟨x, hx⟩ := processLogEvent_document PFL PL lc requestID arn prevEvent isShutdown
        (ctx.doneAtSend k) st e
      by_cases hr : (logsapi.processLogEvent PFL PL lc requestID arn prevEvent isShutdown
          (ctx.doneAtSend k) st e).2 = true
      · refine ⟨[e], [x], ?_⟩
        simp only [logsapi.processLogsLoop, hc, hr, if_true, if_false, Bool.false_eq_true]
        refine ⟨rfl, rfl, ?_⟩
        rw [hx]
        cases x <;> simp
      · obtain ⟨c, s, h1, h2, h3⟩ := ih (k + 1)
          (logsapi.processLogEvent PFL PL lc requestID arn prevEvent isShutdown
            (ctx.doneAtSend k) st e).1
        refine ⟨e :: c, x :: s, ?_⟩
        simp only [logsapi.processLogsLoop, hc, hr, if_false, Bool.false_eq_true]
        refine ⟨?_, by simp [h2], ?_⟩
        · rw [List.cons_append, ← h1]
        · rw [h3, hx]
          cases x <;> simp

/-- Each event has one entry among the documents of a sequence. -/
theorem documentsOf_length (L : Lib)
    (P : NextEventResponse → TelEvent → Except GoError String)
    (arn : String) (prevEvent : Option NextEventResponse) :
    ∀ (evs : List TelEvent) (startID : String),
      (documentsOf L P arn prevEvent startID evs).length = evs.length := by
  intro evs
  induction evs with
  | nil => intro _; rfl
  | cons e evs ih => intro startID; simp [documentsOf, ih]

/-- C24: a run of `ProcessEvents` over any events, with any cancellation: the
events it has taken (`consumed`) are a prefix of the events delivered and the
others are still in the channel, in order; pass by pass it has sent the
document of the event of the pass or nothing (`sent`), so the documents on
`dataChan` are in the order of their events and no more than the events taken,
and without cancellation of a send they are exactly the documents of the events
taken; if the run returned from the switch, the last event taken is terminal
and the only terminal one; otherwise no event taken is terminal, and a run that
waits has drained the channel. A run of `ProcessLogs` likewise takes a prefix
and sends no more documents than it takes events. -/
theorem window_consumes_queue_head (L : Lib)
    (P : NextEventResponse → TelEvent → Except GoError String)
    (tc : Client) (ctx : Ctx) (requestID arn : String) (prevEvent : Option NextEventResponse)
    (isShutdown : Bool) (evs : List TelEvent) :
    (∃ (consumed : List TelEvent) (sent : List (Option String)),
      evs = consumed ++ (ProcessEvents L P tc evs ctx requestID arn prevEvent isShutdown).rest ∧
      List.Forall₂ (fun s d => s = none ∨ s = d) sent
        (documentsOf L P arn prevEvent "" consumed) ∧
      ((∀ j, ctx.doneAtSend j = false) → sent = documentsOf L P arn prevEvent "" consumed) ∧
      (ProcessEvents L P tc evs ctx requestID arn prevEvent isShutdown).state.dataChan
        = sent.reduceOption ∧
      (ProcessEvents L P tc evs ctx requestID arn prevEvent isShutdown).state.dataChan.length
        ≤ consumed.length ∧
      ((ProcessEvents L P tc evs ctx requestID arn prevEvent isShutdown).exit = .completed →
        ∃ pre t, consumed = pre ++ [t] ∧ terminal requestID prevEvent isShutdown t ∧
          ∀ x ∈ pre, ¬ terminal requestID prevEvent isShutdown x) ∧
      ((ProcessEvents L P tc evs ctx requestID arn prevEvent isShutdown).exit ≠ .completed →
        ∀ x ∈ consumed, ¬ terminal requestID prevEvent isShutdown x) ∧
      ((ProcessEvents L P tc evs ctx requestID arn prevEvent isShutdown).exit = .waiting →
        (ProcessEvents L P tc evs ctx requestID arn prevEvent isShutdown).rest = [])) ∧
    (∀ (PFL : String → String → logsapi.LogEvent → Except GoError String)
        (PL : NextEventResponse → logsapi.LogEvent → Except GoError String)
        (lc : logsapi.Client) (logs : List logsapi.LogEvent),
      ∃ consumed : List logsapi.LogEvent,
        logs = consumed ++
          (logsapi.ProcessLogs PFL PL lc logs ctx requestID arn prevEvent isShutdown).rest ∧
        (logsapi.ProcessLogs PFL PL lc logs ctx requestID arn prevEvent
          isShutdown).state.dataChan.length ≤ consumed.length) := by
  refine ⟨?_, ?_⟩
  · obtain ⟨c, s, h1, h2, h3, h4, h5, h6, h7⟩ :=
      processLoop_consumed L P tc ctx requestID arn prevEvent isShutdown evs 0 {}
    have h4n : (ProcessEvents L P tc evs ctx requestID arn prevEvent isShutdown).state.dataChan
        = s.reduceOption := by
      unfold ProcessEvents; rw [h4]; rfl
    refine ⟨c, s, h1, h2, h3, h4n, ?_, h5, h6, h7⟩
    have hlen : s.length = c.length :=
      h2.length_eq.trans (documentsOf_length L P arn prevEvent c _)
    rw [h4n, ← hlen]
    exact List.reduceOption_length_le s
  · intro PFL PL lc logs
    obtain ⟨c, s, h1, h2, h3⟩ :=
      processLogsLoop_consumed PFL PL lc ctx requestID arn prevEvent isShutdown logs 0 {}
    refine ⟨c, h1, ?_⟩
    unfold logsapi.ProcessLogs
    rw [h3, ← h2]
    exact (List.reduceOption_length_le s)

/-- C24, worked example: the invoke window of `A` over the `platform.start` of
`A`, a function line, the `platform.runtimeDone` of `A` and a late line takes
the first three events, sends one document and leaves the late line. -/
theorem window_consumes_queue_head_witness :
    (∃ consumed : List TelEvent,
      [evStart "A", evFunction "hello", evRuntimeDone "A" "success", evFunction "late"]
        = consumed ++ (ProcessEvents exampleLib exampleReport exampleClient
          [evStart "A", evFunction "hello", evRuntimeDone "A" "success", evFunction "late"]
          Ctx.background "A" "arn" none false).rest ∧
      (ProcessEvents exampleLib exampleReport exampleClient
          [evStart "A", evFunction "hello", evRuntimeDone "A" "success", evFunction "late"]
          Ctx.background "A" "arn" none false).state.dataChan.length ≤ consumed.length) ∧
    (ProcessEvents exampleLib exampleReport exampleClient
        [evStart "A", evFunction "hello", evRuntimeDone "A" "success", evFunction "late"]
        Ctx.background "A" "arn" none false).rest = [evFunction "late"] ∧
    (ProcessEvents exampleLib exampleReport exampleClient
        [evStart "A", evFunction "hello", evRuntimeDone "A" "success", evFunction "late"]
        Ctx.background "A" "arn" none false).exit = .completed ∧
    (ProcessEvents exampleLib exampleReport exampleClient
        [evStart "A", evFunction "hello", evRuntimeDone "A" "success", evFunction "late"]
        Ctx.background "A" "arn" none false).state.dataChan
      = (documentsOf exampleLib exampleReport "arn" none ""
          [evStart "A", evFunction "hello", evRuntimeDone "A" "success"]).reduceOption ∧
    (ProcessEvents exampleLib exampleReport exampleClient
        [evStart "A", evFunction "hello", evRuntimeDone "A" "success", evFunction "late"]
        Ctx.background "A" "arn" none false).state.dataChan
      = ["\x7b\"telemetry\":\x7b\"message\":\"hello\",\"@timestamp\":0," ++
          "\"faas\":\x7b\"id\":\"arn\",\"execution\":\"A\"\x7d\x7d\x7d"] := by
  obtain ⟨c, _, h1, _, _, _, h5, _⟩ := (window_consumes_queue_head exampleLib exampleReport
    exampleClient Ctx.background "A" "arn" none false
    [evStart "A", evFunction "hello", evRuntimeDone "A" "success", evFunction "late"]).1
  exact ⟨⟨c, h1, h5⟩, by decide, by decide, by decide, by decide⟩

/-! ## The guard on the record payload (C25) -/

/-- A member that is not decoded into `record` leaves `Record` as it is. -/
theorem Envelope.decodeMember_record (L : Lib) (acc r : Envelope × Option GoError)
    (kv : String × JSON)
    (hk : findField L ["time", "type", "record"] kv.1 ≠ some "record")
    (h : Envelope.decodeMember L acc kv = .ok r) : r.1.Record = acc.1.Record := by
  unfold Envelope.decodeMember at h
  split at h
  · split at h
    · cases h; rfl
    · split at h
      · cases h; rfl
      · cases h
    · cases h
  · cases h; rfl
  · rename_i heq; exact absurd heq hk
  · cases h; rfl

theorem Envelope.foldlM_record (L : Lib) :
    ∀ (ms : List (String × JSON)) (acc r : Envelope × Option GoError),
      (∀ kv ∈ ms, findField L ["time", "type", "record"] kv.1 ≠ some "record") →
      ms.foldlM (Envelope.decodeMember L) acc = .ok r → r.1.Record = acc.1.Record := by
  intro ms
  induction ms with
  | nil => intro acc r _ h; cases h; rfl
  | cons kv ms ih =>
    intro acc r hk h
    rw [List.foldlM_cons] at h
    cases hstep : Envelope.decodeMember L acc kv with
    | error err => rw [hstep] at h; cases h
    | ok acc2 =>
      rw [hstep] at h
      have h2 : ms.foldlM (Envelope.decodeMember L) acc2 = .ok r := h
      rw [ih acc2 r (fun x hx => hk x (List.mem_cons_of_mem _ hx)) h2]
      exact Envelope.decodeMember_record L acc acc2 kv (hk kv (List.mem_cons_self _ _)) hstep

/-- The length test keeps the index expression from an empty payload. -/
theorem UnmarshalJSONChecked_eq (L : Lib) (le : TelEvent) (data : RawMessage) :
    TelEvent.UnmarshalJSONChecked L le data = some (TelEvent.UnmarshalJSON L le data) := by
  rcases hb : unmarshalEnvelope L data {} with ⟨b, _ | err⟩
  · simp only [TelEvent.UnmarshalJSONChecked, TelEvent.UnmarshalJSON, hb]
    rcases hr : b.Record with _ | v
    · simp [RawMessage.lenAndFirstIsBrace, RawMessage.beginsObject]
    · cases v <;>
        simp [RawMessage.lenAndFirstIsBrace, RawMessage.firstIsBrace, RawMessage.beginsObject]
  · simp only [TelEvent.UnmarshalJSONChecked, TelEvent.UnmarshalJSON, hb]

/-- An envelope that is decoded and holds no record payload. -/
theorem UnmarshalJSON_no_record (L : Lib) (le : TelEvent) (data : RawMessage) (b : Envelope)
    (hb : unmarshalEnvelope L data {} = (b, none)) (hr : b.Record = none) :
    TelEvent.UnmarshalJSON L le data
      = ({ le with Time := b.Time, Typ := b.Typ }, some "unexpected end of JSON input") := by
  rw [UnmarshalJSON_of_envelope L le data b hb]
  simp [hr, RawMessage.beginsObject, unmarshalString]

/-- An object without a record key is not decoded. -/
theorem UnmarshalJSON_no_record_key (L : Lib) (le : TelEvent) (ms : List (String × JSON))
    (hk : ∀ kv ∈ ms, findField L ["time", "type", "record"] kv.1 ≠ some "record") :
    (TelEvent.UnmarshalJSON L le (some (.obj ms))).2 ≠ none := by
  rcases hb : unmarshalEnvelope L (some (.obj ms)) {} with ⟨b, _ | err⟩
  · have hrec : b.Record = none := by
      unfold unmarshalEnvelope at hb
      simp only at hb
      cases hf : ms.foldlM (Envelope.decodeMember L) (({} : Envelope), none) with
      | error e => rw [hf] at hb; simp at hb
      | ok r =>
        rw [hf] at hb
        have h := Envelope.foldlM_record L ms _ r hk hf
        simp only at hb
        rw [hb] at h
        exact h
    rw [UnmarshalJSON_no_record L le _ b hb hrec]
    simp
  · rw [UnmarshalJSON_of_envelope_error L le _ b err hb]
    simp

/-- An envelope that is decoded and whose record payload is a number, a boolean
or an array. -/
theorem UnmarshalJSON_other_record (L : Lib) (le : TelEvent) (data : RawMessage) (b : Envelope)
    (v : JSON) (hb : unmarshalEnvelope L data {} = (b, none)) (hr : b.Record = some v)
    (hv : (∃ n, v = .num n) ∨ (∃ x, v = .bool x) ∨ (∃ xs, v = .arr xs)) :
    TelEvent.UnmarshalJSON L le data
      = ({ le with Time := b.Time, Typ := b.Typ },
        some "json: cannot unmarshal into Go value of type string") := by
  rw [UnmarshalJSON_of_envelope L le data b hb]
  rcases hv with ⟨n, rfl⟩ | ⟨x, rfl⟩ | ⟨xs, rfl⟩ <;>
    simp [hr, RawMessage.beginsObject, unmarshalString, decodeString]

/-- An envelope that is decoded and whose record payload is `null`. -/
theorem UnmarshalJSON_null_record (L : Lib) (le : TelEvent) (data : RawMessage) (b : Envelope)
    (hb : unmarshalEnvelope L data {} = (b, none)) (hr : b.Record = some .null) :
    TelEvent.UnmarshalJSON L le data = ({ le with Time := b.Time, Typ := b.Typ }, none) := by
  rw [UnmarshalJSON_of_envelope L le data b hb]
  simp [hr, RawMessage.beginsObject, unmarshalString, decodeString]

/-- A batch with an element that is not decoded is rejected as a whole. -/
theorem handler_rejects_undecoded (L : Lib) (cancelled : Nat → Bool) (elems : List JSON)
    (x : JSON) (hx : x ∈ elems) (hfail : (TelEvent.UnmarshalJSON L {} (some x)).2 ≠ none) :
    (handleTelEventsRequest L cancelled (some (.arr elems))).telChannel = [] ∧
    (handleTelEventsRequest L cancelled (some (.arr elems))).w.status
      = StatusInternalServerError := by
  obtain ⟨err, he⟩ := decodeElements_error L elems x hx hfail
  refine ⟨?_, ?_⟩ <;>
    simp [handleTelEventsRequest, decodeTelEvents, he, ResponseWriter.WriteHeader,
      ResponseWriter.status]

/-- C25: `UnmarshalJSON` never indexes an empty record payload: run with the
index expression `b.Record[0]` kept apart, it never panics and gives what the
method gives, although the index alone would panic on the payload of an
envelope without a record. An envelope that is decoded without a record
payload, as every object without a record key that is decoded, ends in the
error `unexpected end of JSON input`, and no object without a record key
decodes; an envelope whose record is a number, a boolean or an array ends in
the type error of a `string`; a batch with such an element is rejected as a
whole, status 500 and nothing sent. An envelope whose record is `null` decodes
without error and leaves `Record` and `StringRecord` as they were, empty for a
zero event. -/
theorem record_payload_is_guarded (L : Lib) :
    (∀ le data,
      TelEvent.UnmarshalJSONChecked L le data = some (TelEvent.UnmarshalJSON L le data)) ∧
    (∀ data b, unmarshalEnvelope L data {} = (b, none) → b.Record = none →
      b.Record.firstIsBrace = none ∧ b.Record.lenAndFirstIsBrace = some false) ∧
    (∀ le data b, unmarshalEnvelope L data {} = (b, none) → b.Record = none →
      TelEvent.UnmarshalJSON L le data
        = ({ le with Time := b.Time, Typ := b.Typ }, some "unexpected end of JSON input")) ∧
    (∀ le ms, (∀ kv ∈ ms, findField L ["time", "type", "record"] kv.1 ≠ some "record") →
      (TelEvent.UnmarshalJSON L le (some (.obj ms))).2 ≠ none) ∧
    (∀ le data b v, unmarshalEnvelope L data {} = (b, none) → b.Record = some v →
      ((∃ n, v = .num n) ∨ (∃ x, v = .bool x) ∨ (∃ xs, v = .arr xs)) →
      TelEvent.UnmarshalJSON L le data
        = ({ le with Time := b.Time, Typ := b.Typ },
          some "json: cannot unmarshal into Go value of type string")) ∧
    (∀ le ts ty t v, L.parseTime ts = .ok t →
      ((∃ n, v = .num n) ∨ (∃ x, v = .bool x) ∨ (∃ xs, v = .arr xs)) →
      TelEvent.UnmarshalJSON L le
          (some (.obj [("time", .str ts), ("type", .str ty), ("record", v)]))
        = ({ le with Time := t, Typ := ty },
          some "json: cannot unmarshal into Go value of type string")) ∧
    (∀ cancelled elems x, x ∈ elems →
      ((∃ ms, x = .obj ms ∧
          ∀ kv ∈ ms, findField L ["time", "type", "record"] kv.1 ≠ some "record") ∨
        (∃ ts ty t v, x = .obj [("time", .str ts), ("type", .str ty), ("record", v)] ∧
          L.parseTime ts = .ok t ∧
          ((∃ n, v = .num n) ∨ (∃ b, v = .bool b) ∨ (∃ xs, v = .arr xs)))) →
      (handleTelEventsRequest L cancelled (some (.arr elems))).telChannel = [] ∧
      (handleTelEventsRequest L cancelled (some (.arr elems))).w.status
        = StatusInternalServerError) ∧
    (∀ le data b, unmarshalEnvelope L data {} = (b, none) → b.Record = some .null →
      TelEvent.UnmarshalJSON L le data = ({ le with Time := b.Time, Typ := b.Typ }, none)) ∧
    (∀ ts ty t, L.parseTime ts = .ok t →
      TelEvent.UnmarshalJSON L {}
          (some (.obj [("time", .str ts), ("type", .str ty), ("record", .null)]))
        = ({ Time := t, Typ := ty, StringRecord := "", Record := {} }, none)) := by
  refine ⟨UnmarshalJSONChecked_eq L, ?_, ?_, ?_, ?_, ?_, ?_, ?_, ?_⟩
  · intro data b _ hr
    rw [hr]
    exact ⟨rfl, rfl⟩
  · intro le data b hb hr
    exact UnmarshalJSON_no_record L le data b hb hr
  · intro le ms hk
    exact UnmarshalJSON_no_record_key L le ms hk
  · intro le data b v hb hr hv
    exact UnmarshalJSON_other_record L le data b v hb hr hv
  · intro le ts ty t v hParse hv
    exact UnmarshalJSON_other_record L le _ _ v
      (unmarshalEnvelope_canonical L ts ty t v hParse) rfl hv
  · intro cancelled elems x hx hcase
    refine handler_rejects_undecoded L cancelled elems x hx ?_
    rcases hcase with ⟨ms, rfl, hk⟩ | ⟨ts, ty, t, v, rfl, hParse, hv⟩
    · exact UnmarshalJSON_no_record_key L {} ms hk
    · rw [UnmarshalJSON_other_record L {} _ _ v
        (unmarshalEnvelope_canonical L ts ty t v hParse) rfl hv]
      simp
  · intro le data b hb hr
    exact UnmarshalJSON_null_record L le data b hb hr
  · intro ts ty t hParse
    exact UnmarshalJSON_null_record L {} _ _
      (unmarshalEnvelope_canonical L ts ty t .null hParse) rfl

/-- C25, worked example: an event without a record is not decoded and the batch
that holds it is rejected; a record that is a number, a boolean or an array is
a type error; a record that is `null` decodes with `Record` and `StringRecord`
empty. -/
theorem record_payload_is_guarded_witness :
    (TelEvent.UnmarshalJSON exampleLib {} (some (.obj [("type", .str "function")]))).2 ≠ none ∧
    TelEvent.UnmarshalJSON exampleLib {} (some noRecordJSON)
      = ({ Typ := "function" }, some "unexpected end of JSON input") ∧
    ((handleTelEventsRequest exampleLib (fun _ => false)
        (some (.arr [functionJSON, noRecordJSON]))).telChannel = [] ∧
      (handleTelEventsRequest exampleLib (fun _ => false)
        (some (.arr [functionJSON, noRecordJSON]))).w.status = StatusInternalServerError) ∧
    TelEvent.UnmarshalJSON exampleLib {} (some numberRecordJSON)
      = ({ Typ := "function" }, some "json: cannot unmarshal into Go value of type string") ∧
    TelEvent.UnmarshalJSON exampleLib {} (some boolRecordJSON)
      = ({ Typ := "function" }, some "json: cannot unmarshal into Go value of type string") ∧
    TelEvent.UnmarshalJSON exampleLib {} (some arrayRecordJSON)
      = ({ Typ := "function" }, some "json: cannot unmarshal into Go value of type string") ∧
    TelEvent.UnmarshalJSON exampleLib {} (some nullRecordJSON)
      = ({ Typ := "function", StringRecord := "", Record := {} }, none) ∧
    TelEvent.UnmarshalJSONChecked exampleLib {} (some noRecordJSON)
      = some ({ Typ := "function" }, some "unexpected end of JSON input") :=
  ⟨(record_payload_is_guarded exampleLib).2.2.2.1 {} [("type", .str "function")] (by decide),
    (record_payload_is_guarded exampleLib).2.2.1 {} (some noRecordJSON)
      { Typ := "function" } rfl rfl,
    (record_payload_is_guarded exampleLib).2.2.2.2.2.2.1 (fun _ => false)
      [functionJSON, noRecordJSON] noRecordJSON (by simp)
      (Or.inl ⟨[("type", .str "function")], rfl, by decide⟩),
    (record_payload_is_guarded exampleLib).2.2.2.2.1 {} (some numberRecordJSON)
      { Typ := "function", Record := some (.num 5) } (.num 5) rfl rfl
      (Or.inl ⟨5, rfl⟩),
    (record_payload_is_guarded exampleLib).2.2.2.2.1 {} (some boolRecordJSON)
      { Typ := "function", Record := some (.bool true) } (.bool true) rfl rfl
      (Or.inr (Or.inl ⟨true, rfl⟩)),
    (record_payload_is_guarded exampleLib).2.2.2.2.1 {} (some arrayRecordJSON)
      { Typ := "function", Record := some (.arr [.str "hello"]) } (.arr [.str "hello"])
      rfl rfl (Or.inr (Or.inr ⟨[.str "hello"], rfl⟩)),
    (record_payload_is_guarded exampleLib).2.2.2.2.2.2.2.1 {} (some nullRecordJSON)
      { Typ := "function", Record := some .null } rfl rfl,
    by decide⟩

/-! ## The document of a function event, under any cancellation (C4) -/

/-- A run that waits has not taken `<-ctx.Done()` in the pass after its last
event. -/
theorem processLoop_waiting_recv (L : Lib)
    (P : NextEventResponse → TelEvent → Except GoError String)
    (tc : Client) (ctx : Ctx) (requestID arn : String) (prevEvent : Option NextEventResponse)
    (isShutdown : Bool) :
    ∀ (evs : List TelEvent) (k : Nat) (st : LoopState),
      (processLoop L P tc ctx requestID arn prevEvent isShutdown k st evs).exit = .waiting →
      ctx.doneAtRecv (k + evs.length) = false := by
  intro evs
  induction evs with
  | nil =>
    intro k st h
    by_cases hc : ctx.doneAtRecv k = true
    · simp [processLoop, hc] at h
    · simpa using hc
  | cons e evs ih =>
    intro k st h
    by_cases hc : ctx.doneAtRecv k = true
    · simp [processLoop, hc] at h
    · by_cases hr : (processEvent L P tc requestID arn prevEvent isShutdown
          (ctx.doneAtSend k) st e).2 = true
      · simp [processLoop, hc, hr] at h
      · simp only [processLoop, hc, hr, if_false, Bool.false_eq_true] at h
        have := ih (k + 1) _ h
        rw [List.length_cons]
        rwa [show k + (evs.length + 1) = k + 1 + evs.length by omega]

/-- C4 as stated fails: in the scenario of the claim, when the send of the
function-log document loses against the cancellation of the window, the
`function` event is processed and no document is sent, and the window still
ends at the `platform.runtimeDone`; and when `ProcessFunctionTelemetry` returns
an error, as with a timestamp writer that fails, no document is sent either. -/
theorem function_event_document_counterexample :
    ((ProcessEvents exampleLib exampleReport exampleClient
        [evStart "A", evFunction "hello", evRuntimeDone "A" "success"]
        (sendCancelledAt 1) "A" "arn" none false).state.dataChan = [] ∧
      (ProcessEvents exampleLib exampleReport exampleClient
        [evStart "A", evFunction "hello", evRuntimeDone "A" "success"]
        (sendCancelledAt 1) "A" "arn" none false).exit = .completed ∧
      (ProcessEvents exampleLib exampleReport exampleClient
        [evStart "A", evFunction "hello", evRuntimeDone "A" "success"]
        (sendCancelledAt 1) "A" "arn" none false).rest = []) ∧
    ((ProcessEvents failingTimeLib exampleReport exampleClient
        [evStart "A", evFunction "hello", evRuntimeDone "A" "success"]
        Ctx.background "A" "arn" none false).state.dataChan = [] ∧
      (ProcessEvents failingTimeLib exampleReport exampleClient
        [evStart "A", evFunction "hello", evRuntimeDone "A" "success"]
        Ctx.background "A" "arn" none false).exit = .completed) := by
  refine ⟨⟨by decide, by decide, by decide⟩, by decide, by decide⟩

/-- A `function` event makes no call of the lifecycler. -/
theorem processEvent_function_calls (L : Lib)
    (P : NextEventResponse → TelEvent → Except GoError String)
    (tc : Client) (requestID arn : String) (prevEvent : Option NextEventResponse)
    (isShutdown done : Bool) (st : LoopState) (e : TelEvent) (hT : e.Typ = FunctionLog) :
    (processEvent L P tc requestID arn prevEvent isShutdown done st e).1.runtimeDoneCalls
      = st.runtimeDoneCalls := by
  have h1 : e.Typ ≠ PlatformStart := by rw [hT]; decide
  have h2 : e.Typ ≠ PlatformRuntimeDone := by rw [hT]; decide
  have h3 : e.Typ ≠ PlatformReport := by rw [hT]; decide
  have h4 : e.Typ ≠ PlatformLogsDropped := by rw [hT]; decide
  unfold processEvent
  simp only [if_neg h1, if_neg h2, if_neg h3, if_neg h4, if_pos hT]
  split <;> cases done <;> simp [LoopState.log, LoopState.send]

/-- C4, amended: a `function` event processed after the events `pre` of a
window, under any cancellation: the pass sends the document that
`ProcessFunctionTelemetry` builds for the window's `invokedFnArn` and the
request id of the most recent `platform.start` among `pre` (the empty string
when there is none), unless the send loses against the cancellation or no
document is built; so exactly one document is added when the send is not
cancelled and the timestamp is written without error, and none otherwise. The
event is taken from the channel and does not end the window: the run has not
returned from the switch, its `platformStartReqID` and lifecycler calls are as
before, and unless the window is cancelled the next event is taken as well. -/
theorem function_event_yields_its_document (L : Lib)
    (P : NextEventResponse → TelEvent → Except GoError String)
    (tc : Client) (ctx : Ctx) (requestID arn : String) (prevEvent : Option NextEventResponse)
    (isShutdown : Bool) (pre : List TelEvent) (e : TelEvent)
    (hT : e.Typ = FunctionLog)
    (hRun : (ProcessEvents L P tc pre ctx requestID arn prevEvent isShutdown).exit
      = .waiting) :
    (ProcessEvents L P tc (pre ++ [e]) ctx requestID arn prevEvent isShutdown).state.dataChan
      = (ProcessEvents L P tc pre ctx requestID arn prevEvent isShutdown).state.dataChan ++
        (if ctx.doneAtSend pre.length = true then none
          else (ProcessFunctionTelemetry L (attributedRequestID pre) arn e).toOption).toList ∧
    (ctx.doneAtSend pre.length = false → (L.marshalTime e.Time).2 = none →
      ∃ doc, ProcessFunctionTelemetry L (attributedRequestID pre) arn e = .ok doc ∧
        (ProcessEvents L P tc (pre ++ [e]) ctx requestID arn prevEvent
          isShutdown).state.dataChan
          = (ProcessEvents L P tc pre ctx requestID arn prevEvent
            isShutdown).state.dataChan ++ [doc]) ∧
    (ctx.doneAtSend pre.length = true →
      (ProcessEvents L P tc (pre ++ [e]) ctx requestID arn prevEvent
        isShutdown).state.dataChan
        = (ProcessEvents L P tc pre ctx requestID arn prevEvent isShutdown).state.dataChan) ∧
    (ProcessEvents L P tc (pre ++ [e]) ctx requestID arn prevEvent isShutdown).exit
      ≠ .completed ∧
    (ProcessEvents L P tc (pre ++ [e]) ctx requestID arn prevEvent isShutdown).rest = [] ∧
    (ProcessEvents L P tc (pre ++ [e]) ctx requestID arn prevEvent
      isShutdown).state.platformStartReqID = attributedRequestID pre ∧
    (ProcessEvents L P tc (pre ++ [e]) ctx requestID arn prevEvent
      isShutdown).state.runtimeDoneCalls
      = (ProcessEvents L P tc pre ctx requestID arn prevEvent
        isShutdown).state.runtimeDoneCalls ∧
    (∀ x post, ctx.doneAtRecv (pre.length + 1) = false →
      (ProcessEvents L P tc (pre ++ e :: x :: post) ctx requestID arn prevEvent
        isShutdown).rest <:+ post) := by
  have hid : (ProcessEvents L P tc pre ctx requestID arn prevEvent
      isShutdown).state.platformStartReqID = attributedRequestID pre :=
    processLoop_startID L P tc ctx requestID arn prevEvent isShutdown pre 0 {} hRun
  have hrecv : ctx.doneAtRecv pre.length = false := by
    have := processLoop_waiting_recv L P tc ctx requestID arn prevEvent isShutdown pre 0 {} hRun
    simpa using this
  have hnt : ¬ (processEvent L P tc requestID arn prevEvent isShutdown
      (ctx.doneAtSend pre.length)
      (ProcessEvents L P tc pre ctx requestID arn prevEvent isShutdown).state e).2 = true := by
    rw [processEvent_returns]
    have d1 : FunctionLog ≠ PlatformRuntimeDone := by decide
    have d2 : FunctionLog ≠ PlatformReport := by decide
    rintro (⟨h, _⟩ | ⟨h, _⟩)
    · exact d1 (hT.symm.trans h)
    · exact d2 (hT.symm.trans h)
  obtain ⟨hsid, hdc⟩ := processEvent_document L P tc requestID arn prevEvent isShutdown
    (ctx.doneAtSend pre.length)
    (ProcessEvents L P tc pre ctx requestID arn prevEvent isShutdown).state e
  have hcalls := processEvent_function_calls L P tc requestID arn prevEvent isShutdown
    (ctx.doneAtSend pre.length)
    (ProcessEvents L P tc pre ctx requestID arn prevEvent isShutdown).state e hT
  have hdocOf : documentOf L P arn prevEvent (attributedRequestID pre) e
      = (ProcessFunctionTelemetry L (attributedRequestID pre) arn e).toOption := by
    simp only [documentOf, if_pos hT]
  rw [hid, hdocOf] at hdc
  have hd1 : FunctionLog ≠ PlatformStart := by decide
  have hns : e.Typ ≠ PlatformStart := by rw [hT]; exact hd1
  rw [if_neg hns, hid] at hsid
  have hsnoc : ∀ post,
      ProcessEvents L P tc (pre ++ e :: post) ctx requestID arn prevEvent isShutdown
        = processLoop L P tc ctx requestID arn prevEvent isShutdown (pre.length + 1)
          (processEvent L P tc requestID arn prevEvent isShutdown (ctx.doneAtSend pre.length)
            (ProcessEvents L P tc pre ctx requestID arn prevEvent isShutdown).state e).1
          post := by
    intro post
    unfold ProcessEvents at hRun hnt ⊢
    rw [processLoop_append L P tc ctx requestID arn prevEvent isShutdown _ pre 0 {} hRun]
    simp only [Nat.zero_add, processLoop, hrecv, hnt, if_false, Bool.false_eq_true]
  have hone : ∀ (st : LoopState),
      (processLoop L P tc ctx requestID arn prevEvent isShutdown (pre.length + 1) st []).exit
        ≠ .completed ∧
      (processLoop L P tc ctx requestID arn prevEvent isShutdown (pre.length + 1) st []).rest
        = [] ∧
      (processLoop L P tc ctx requestID arn prevEvent isShutdown (pre.length + 1) st
        []).state.obs = st.obs := by
    intro st
    by_cases hc : ctx.doneAtRecv (pre.length + 1) = true
    · simp [processLoop, hc, LoopState.obs, LoopState.log]
    · simp [processLoop, hc]
  have hobs := (hone (processEvent L P tc requestID arn prevEvent isShutdown
    (ctx.doneAtSend pre.length)
    (ProcessEvents L P tc pre ctx requestID arn prevEvent isShutdown).state e).1).2.2
  simp only [LoopState.obs, Prod.mk.injEq] at hobs
  have hdata : (ProcessEvents L P tc (pre ++ [e]) ctx requestID arn prevEvent
      isShutdown).state.dataChan
      = (ProcessEvents L P tc pre ctx requestID arn prevEvent isShutdown).state.dataChan ++
        (if ctx.doneAtSend pre.length = true then none
          else (ProcessFunctionTelemetry L (attributedRequestID pre) arn e).toOption).toList := by
    rw [hsnoc [], hobs.2.1, hdc]
  refine ⟨hdata, ?_, ?_, ?_, ?_, ?_, ?_, ?_⟩
  · intro hsend hTime
    have hok := ProcessFunctionTelemetry_ok L (attributedRequestID pre) arn e hTime
    refine ⟨_, hok, ?_⟩
    rw [hdata, hok]
    simp [hsend, Except.toOption]
  · intro hsend
    rw [hdata]
    simp [hsend]
  · rw [hsnoc []]; exact (hone _).1
  · rw [hsnoc []]; exact (hone _).2.1
  · rw [hsnoc [], hobs.1, hsid]
  · rw [hsnoc [], hobs.2.2, hcalls]
  · intro x post hnext
    rw [hsnoc (x :: post)]
    simp only [processLoop, hnext, if_false, Bool.false_eq_true]
    split_ifs
    · exact List.suffix_refl post
    · exact processLoop_rest_suffix L P tc ctx requestID arn prevEvent isShutdown post _ _

/-- C4, amended, worked example: `platform.start` of `A`, the function line
`hello`, the `platform.runtimeDone` of `A` in the invoke window of `A`, not
cancelled: the function line gives one document with execution `A`, and the
whole sequence gives that one document and ends the window; with the send
cancelled the function line gives none. -/
theorem function_event_yields_its_document_witness :
    (∃ doc, ProcessFunctionTelemetry exampleLib (attributedRequestID [evStart "A"]) "arn"
        (evFunction "hello") = .ok doc ∧
      (ProcessEvents exampleLib exampleReport exampleClient ([evStart "A"] ++ [evFunction "hello"])
        Ctx.background "A" "arn" none false).state.dataChan
        = (ProcessEvents exampleLib exampleReport exampleClient [evStart "A"]
          Ctx.background "A" "arn" none false).state.dataChan ++ [doc]) ∧
    (ProcessEvents exampleLib exampleReport exampleClient ([evStart "A"] ++ [evFunction "hello"])
        (sendCancelledAt 1) "A" "arn" none false).state.dataChan
      = (ProcessEvents exampleLib exampleReport exampleClient [evStart "A"]
        (sendCancelledAt 1) "A" "arn" none false).state.dataChan ∧
    (ProcessEvents exampleLib exampleReport exampleClient
      [evStart "A", evFunction "hello", evRuntimeDone "A" "success"]
      Ctx.background "A" "arn" none false).state.dataChan
      = ["\x7b\"telemetry\":\x7b\"message\":\"hello\",\"@timestamp\":0," ++
          "\"faas\":\x7b\"id\":\"arn\",\"execution\":\"A\"\x7d\x7d\x7d"] ∧
    (ProcessEvents exampleLib exampleReport exampleClient
      [evStart "A", evFunction "hello", evRuntimeDone "A" "success"]
      Ctx.background "A" "arn" none false).exit = .completed :=
  ⟨(function_event_yields_its_document exampleLib exampleReport exampleClient Ctx.background
      "A" "arn" none false [evStart "A"] (evFunction "hello") rfl rfl).2.1 rfl rfl,
    (function_event_yields_its_document exampleLib exampleReport exampleClient
      (sendCancelledAt 1) "A" "arn" none false [evStart "A"] (evFunction "hello") rfl rfl).2.2.1
      rfl,
    by decide, by decide⟩

/-! ## Object records (C14) -/

/-- The field that a key is decoded into is one of the fields. -/
theorem findField_mem (L : Lib) (fields : List String) (key f : String)
    (h : findField L fields key = some f) : f ∈ fields := by
  unfold findField at h
  split_ifs at h with hk
  · cases h; exact hk
  · exact List.mem_of_find?_eq_some h

theorem givenValue_snoc (L : Lib) (fields : List String) (name : String)
    (ms : List (String × JSON)) (kv : String × JSON) :
    givenValue L fields name (ms ++ [kv]) =
      if findField L fields kv.1 = some name ∧ kv.2.isNull = false then some kv.2
      else givenValue L fields name ms := by
  unfold givenValue
  rw [List.filter_append]
  by_cases h : findField L fields kv.1 = some name ∧ kv.2.isNull = false
  · rw [if_pos h]
    simp [List.filter_cons, h.1, h.2]
  · rw [if_neg h]
    have : (decide (findField L fields kv.1 = some name) && !kv.2.isNull) = false := by
      rw [not_and_or] at h
      rcases h with h | h
      · simp [h]
      · simp at h; simp [h]
    simp [List.filter_cons, this]

theorem givenValue_absent (L : Lib) (fields : List String) (name : String)
    (ms : List (String × JSON))
    (h : ∀ kv ∈ ms, findField L fields kv.1 = some name → kv.2 = .null) :
    givenValue L fields name ms = none := by
  unfold givenValue
  have : ms.filter
      (fun kv => decide (findField L fields kv.1 = some name) && !kv.2.isNull) = [] := by
    rw [List.filter_eq_nil_iff]
    intro kv hm
    by_cases hf : findField L fields kv.1 = some name
    · simp [hf, h kv hm hf, JSON.isNull]
    · simp [hf]
  simp [this]

theorem givenValue_last (L : Lib) (fields : List String) (name : String)
    (pre : List (String × JSON)) (kv : String × JSON) (post : List (String × JSON))
    (hk : findField L fields kv.1 = some name) (hv : kv.2.isNull = false)
    (hpost : ∀ x ∈ post, findField L fields x.1 = some name → x.2 = .null) :
    givenValue L fields name (pre ++ kv :: post) = some kv.2 := by
  unfold givenValue
  have hp : post.filter
      (fun kv => decide (findField L fields kv.1 = some name) && !kv.2.isNull) = [] := by
    rw [List.filter_eq_nil_iff]
    intro x hm
    by_cases hf : findField L fields x.1 = some name
    · simp [hf, hpost x hm hf, JSON.isNull]
    · simp [hf]
  simp [List.filter_append, List.filter_cons, hk, hv, hp]

/-- One member of a `metrics` object, decoded after the members `X` of a
decoding that has not failed: it fails exactly when the member is not typed, and
otherwise the metrics are those given by `X` and the member. -/
theorem decodeMetricsMember_given (L : Lib) (X : List (String × JSON))
    (kv : String × JSON) :
    ((PlatformMetrics.decodeMember L (metricsGiven L X, none) kv).2 = none ↔
      typedMetric L kv = true) ∧
    (typedMetric L kv = true →
      (PlatformMetrics.decodeMember L (metricsGiven L X, none) kv).1
        = metricsGiven L (X ++ [kv])) := by
  unfold PlatformMetrics.decodeMember typedMetric
  rcases hf : findField L
    ["durationMs", "billedDurationMs", "memorySizeMB", "maxMemoryUsedMB", "initDurationMs"]
    kv.1 with _ | f
  · simp [metricsGiven, givenValue_snoc, hf]
  · have hm := findField_mem L _ _ _ hf
    simp only [List.mem_cons, List.mem_singleton, List.not_mem_nil, or_false] at hm
    rcases hv : kv.2 with _ | b | n | s | xs | ms
    · rcases hm with rfl | rfl | rfl | rfl | rfl <;>
        simp [decodeNumber, metricsGiven, givenValue_snoc, hf, hv, JSON.isNull]
    · rcases hm with rfl | rfl | rfl | rfl | rfl <;> simp [decodeNumber]
    · rcases hs : L.storeNumber f n with _ | r
      · rcases hm with rfl | rfl | rfl | rfl | rfl <;> simp [decodeNumber, hs]
      · rcases hm with rfl | rfl | rfl | rfl | rfl <;>
          simp [decodeNumber, hs, metricsGiven, givenValue_snoc, hf, hv, JSON.isNull,
            numberGiven]
    · rcases hm with rfl | rfl | rfl | rfl | rfl <;> simp [decodeNumber]
    · rcases hm with rfl | rfl | rfl | rfl | rfl <;> simp [decodeNumber]
    · rcases hm with rfl | rfl | rfl | rfl | rfl <;> simp [decodeNumber]

/-- An error saved while a `metrics` object is decoded stays. -/
theorem decodeMetrics_error (L : Lib) :
    ∀ (mm : List (String × JSON)) (acc : PlatformMetrics × Option GoError), acc.2 ≠ none →
      (mm.foldl (PlatformMetrics.decodeMember L) acc).2 ≠ none := by
  intro mm
  induction mm with
  | nil => intro acc h; exact h
  | cons kv mm ih =>
    intro acc h
    rw [List.foldl_cons]
    apply ih
    obtain ⟨m, _ | err⟩ := acc
    · exact absurd rfl h
    · unfold PlatformMetrics.decodeMember
      split <;> simp

/-- The members of a `metrics` object decoded after the members `X`. -/
theorem decodeMetrics_given (L : Lib) :
    ∀ (mm X : List (String × JSON)),
      ((mm.foldl (PlatformMetrics.decodeMember L) (metricsGiven L X, none)).2 = none ↔
        mm.all (typedMetric L) = true) ∧
      (mm.all (typedMetric L) = true →
        (mm.foldl (PlatformMetrics.decodeMember L) (metricsGiven L X, none)).1
          = metricsGiven L (X ++ mm)) := by
  intro mm
  induction mm with
  | nil => intro X; simp
  | cons kv mm ih =>
    intro X
    obtain ⟨h1, h2⟩ := decodeMetricsMember_given L X kv
    rw [List.foldl_cons, List.all_cons, Bool.and_eq_true]
    by_cases ht : typedMetric L kv = true
    · have he : PlatformMetrics.decodeMember L (metricsGiven L X, none) kv
          = (metricsGiven L (X ++ [kv]), none) :=
        Prod.ext (h2 ht) (h1.2 ht)
      rw [he]
      obtain ⟨i1, i2⟩ := ih (X ++ [kv])
      rw [List.append_assoc, List.singleton_append] at i2
      exact ⟨by rw [i1]; simp [ht], fun h => i2 h.2⟩
    · have hne : (PlatformMetrics.decodeMember L (metricsGiven L X, none) kv).2 ≠ none :=
        fun h => ht (h1.1 h)
      have := decodeMetrics_error L mm _ hne
      exact ⟨⟨fun h => absurd h this, fun h => absurd h.1 ht⟩, fun h => absurd h.1 ht⟩

theorem metricsMembers_snoc (L : Lib) (ms : List (String × JSON)) (kv : String × JSON) :
    metricsMembers L (ms ++ [kv]) = metricsMembers L ms ++
      (if findField L ["requestId", "status", "metrics"] kv.1 = some "metrics" then
        match kv.2 with
        | .obj mm => mm
        | _ => []
      else []) := by
  simp [metricsMembers, List.flatMap_append]

/-- One member of a record object, decoded after the members `X` of a decoding
that has not failed. -/
theorem decodeRecordMember_given (L : Lib) (X : List (String × JSON))
    (kv : String × JSON) :
    ((TelEventRecord.decodeMember L (recordGiven L X, none) kv).2 = none ↔
      typedMember L kv = true) ∧
    (typedMember L kv = true →
      (TelEventRecord.decodeMember L (recordGiven L X, none) kv).1
        = recordGiven L (X ++ [kv])) := by
  unfold TelEventRecord.decodeMember typedMember
  rcases hf : findField L ["requestId", "status", "metrics"] kv.1 with _ | f
  · simp [recordGiven, givenValue_snoc, metricsMembers_snoc, hf]
  · have hm := findField_mem L _ _ _ hf
    simp only [List.mem_cons, List.mem_singleton, List.not_mem_nil, or_false] at hm
    rcases hv : kv.2 with _ | b | n | s | xs | mm
    · rcases hm with rfl | rfl | rfl <;>
        simp [decodeString, decodeMetrics, recordGiven, givenValue_snoc, metricsMembers_snoc,
          hf, hv, JSON.isNull]
    · rcases hm with rfl | rfl | rfl <;> simp [decodeString, decodeMetrics]
    · rcases hm with rfl | rfl | rfl <;> simp [decodeString, decodeMetrics]
    · rcases hm with rfl | rfl | rfl <;>
        simp [decodeString, decodeMetrics, recordGiven, givenValue_snoc, metricsMembers_snoc,
          hf, hv, JSON.isNull, stringGiven]
    · rcases hm with rfl | rfl | rfl <;> simp [decodeString, decodeMetrics]
    · obtain ⟨g1, g2⟩ := decodeMetrics_given L mm (metricsMembers L X)
      rcases hm with rfl | rfl | rfl
      · simp [decodeString]
      · simp [decodeString]
      · have hM : (recordGiven L X).Metrics = metricsGiven L (metricsMembers L X) := rfl
        simp only [decodeMetrics, hM, Option.none_orElse, g1]
        refine ⟨by simp, ?_⟩
        intro ht
        have ht2 : mm.all (typedMetric L) = true := by simpa using ht
        rw [g2 ht2]
        simp [recordGiven, givenValue_snoc, metricsMembers_snoc, hf, hv]

/-- An error saved while a record object is decoded stays. -/
theorem decodeRecord_error (L : Lib) :
    ∀ (ms : List (String × JSON)) (acc : TelEventRecord × Option GoError), acc.2 ≠ none →
      (ms.foldl (TelEventRecord.decodeMember L) acc).2 ≠ none := by
  intro ms
  induction ms with
  | nil => intro acc h; exact h
  | cons kv ms ih =>
    intro acc h
    rw [List.foldl_cons]
    apply ih
    obtain ⟨m, _ | err⟩ := acc
    · exact absurd rfl h
    · unfold TelEventRecord.decodeMember
      split <;> simp

/-- The members of a record object decoded after the members `X`. -/
theorem decodeRecord_given (L : Lib) :
    ∀ (ms X : List (String × JSON)),
      ((ms.foldl (TelEventRecord.decodeMember L) (recordGiven L X, none)).2 = none ↔
        typedRecord L ms = true) ∧
      (typedRecord L ms = true →
        (ms.foldl (TelEventRecord.decodeMember L) (recordGiven L X, none)).1
          = recordGiven L (X ++ ms)) := by
  intro ms
  induction ms with
  | nil => intro X; simp [typedRecord]
  | cons kv ms ih =>
    intro X
    obtain ⟨h1, h2⟩ := decodeRecordMember_given L X kv
    unfold typedRecord at ih ⊢
    rw [List.foldl_cons, List.all_cons, Bool.and_eq_true]
    by_cases ht : typedMember L kv = true
    · have he : TelEventRecord.decodeMember L (recordGiven L X, none) kv
          = (recordGiven L (X ++ [kv]), none) :=
        Prod.ext (h2 ht) (h1.2 ht)
      rw [he]
      obtain ⟨i1, i2⟩ := ih (X ++ [kv])
      rw [List.append_assoc, List.singleton_append] at i2
      exact ⟨by rw [i1]; simp [ht], fun h => i2 h.2⟩
    · have hne : (TelEventRecord.decodeMember L (recordGiven L X, none) kv).2 ≠ none :=
        fun h => ht (h1.1 h)
      have := decodeRecord_error L ms _ hne
      exact ⟨⟨fun h => absurd h this, fun h => absurd h.1 ht⟩, fun h => absurd h.1 ht⟩

/-- The call `json.Unmarshal` on an object, into a zero record. -/
theorem unmarshalRecord_given (L : Lib) (ms : List (String × JSON)) :
    ((unmarshalRecord L (some (.obj ms)) {}).2 = none ↔ typedRecord L ms = true) ∧
    (typedRecord L ms = true →
      (unmarshalRecord L (some (.obj ms)) {}).1 = recordGiven L ms) := by
  have h0 : ({} : TelEventRecord) = recordGiven L [] := by
    simp [recordGiven, metricsGiven, metricsMembers, givenValue, stringGiven, numberGiven]
  have := decodeRecord_given L ms []
  rw [List.nil_append, ← h0] at this
  exact this

/-- Decoding an event whose record is an object. -/
theorem UnmarshalJSON_object_record (L : Lib) (data : RawMessage) (b : Envelope)
    (ms : List (String × JSON))
    (hb : unmarshalEnvelope L data {} = (b, none)) (hr : b.Record = some (.obj ms)) :
    ((TelEvent.UnmarshalJSON L {} data).2 = none ↔ typedRecord L ms = true) ∧
    (typedRecord L ms = true →
      TelEvent.UnmarshalJSON L {} data
        = ({ Time := b.Time, Typ := b.Typ, Record := recordGiven L ms }, none)) := by
  obtain ⟨h1, h2⟩ := unmarshalRecord_given L ms
  have hu : TelEvent.UnmarshalJSON L {} data
      = ({ Time := b.Time, Typ := b.Typ,
           Record := (unmarshalRecord L (some (.obj ms)) {}).1 },
        (unmarshalRecord L (some (.obj ms)) {}).2) := by
    rw [UnmarshalJSON_of_envelope L {} data b hb]
    simp [hr, RawMessage.beginsObject]
  rw [hu]
  refine ⟨h1, fun ht => ?_⟩
  rw [h2 ht, h1.2 ht]

/-- C14 as stated fails: an event whose record is a JSON object with a number
as its `requestId`: the envelope is accepted, the record starts with `{`, and
`UnmarshalJSON` returns an error; so it does for a `metrics` that is a string,
and for a `durationMs` that no numeric type holds. -/
theorem object_record_decode_counterexample :
    (unmarshalEnvelope exampleLib (some numberRequestIdJSON) {}).2 = none ∧
    (unmarshalEnvelope exampleLib (some numberRequestIdJSON) {}).1.Record.beginsObject = true ∧
    (TelEvent.UnmarshalJSON exampleLib {} (some numberRequestIdJSON)).2 ≠ none ∧
    (unmarshalEnvelope exampleLib (some textMetricsJSON) {}).1.Record.beginsObject = true ∧
    (TelEvent.UnmarshalJSON exampleLib {} (some textMetricsJSON)).2 ≠ none ∧
    (unmarshalEnvelope exampleLib (some hugeDurationJSON) {}).1.Record.beginsObject = true ∧
    (TelEvent.UnmarshalJSON exampleLib {} (some hugeDurationJSON)).2 ≠ none := by
  refine ⟨by decide, by decide, by decide, by decide, by decide, by decide, by decide⟩

/-- C14, amended: an event envelope whose record is a JSON object `ms`.
`UnmarshalJSON` succeeds exactly when every value decoded into a field is `null`
or has the type of the field: a string for `requestId` and `status`, an object
for `metrics`, and in it numbers that the numeric field holds. It then sets
`Record.RequestID`, `Record.Status` and `Record.Metrics` to the values of the
keys `requestId`, `status` and `metrics`, as the fields store them, a key that
is absent or `null` leaving its field at the zero value; of several members for
one key the last that is not `null` counts, the members of several `metrics`
objects being taken in order. First for any envelope that `json.Unmarshal`
accepts, then for the envelope with the keys `time`, `type` and `record` and a
time that parses; the last two parts say what the value of a key is. -/
theorem typed_object_record_decodes (L : Lib) (ms : List (String × JSON)) :
    (∀ data b, unmarshalEnvelope L data {} = (b, none) → b.Record = some (.obj ms) →
      ((TelEvent.UnmarshalJSON L {} data).2 = none ↔ typedRecord L ms = true) ∧
      (typedRecord L ms = true →
        TelEvent.UnmarshalJSON L {} data
          = ({ Time := b.Time, Typ := b.Typ, Record := recordGiven L ms }, none))) ∧
    (∀ ts ty t, L.parseTime ts = .ok t →
      ((TelEvent.UnmarshalJSON L {}
          (some (.obj [("time", .str ts), ("type", .str ty), ("record", .obj ms)]))).2 = none ↔
        typedRecord L ms = true) ∧
      (typedRecord L ms = true →
        TelEvent.UnmarshalJSON L {}
            (some (.obj [("time", .str ts), ("type", .str ty), ("record", .obj ms)]))
          = ({ Time := t, Typ := ty, Record := recordGiven L ms }, none))) ∧
    (∀ fields name (members : List (String × JSON)),
      (∀ kv ∈ members, findField L fields kv.1 = some name → kv.2 = .null) →
      givenValue L fields name members = none) ∧
    (∀ fields name (pre : List (String × JSON)) kv post,
      findField L fields kv.1 = some name → kv.2.isNull = false →
      (∀ x ∈ post, findField L fields x.1 = some name → x.2 = .null) →
      givenValue L fields name (pre ++ kv :: post) = some kv.2) := by
  refine ⟨fun data b hb hr => UnmarshalJSON_object_record L data b ms hb hr, ?_,
    givenValue_absent L, givenValue_last L⟩
  intro ts ty t hParse
  exact UnmarshalJSON_object_record L _ _ ms
    (unmarshalEnvelope_canonical L ts ty t (.obj ms) hParse) rfl

/-- C14, amended, worked example: the report of `TestTelEventUnmarshalReport`,
which has no `status` key, and the event of
`Test_unmarshalRuntimeDoneRecordObject`, which has no `metrics` key; a report
with `null` values and repeated keys; and a `null` in place of a string, which
is no error. -/
theorem typed_object_record_decodes_witness :
    TelEvent.UnmarshalJSON exampleLib {} (some reportSampleJSON)
      = ({ Time := 1597926692123000000, Typ := "platform.report",
           Record := recordGiven exampleLib
            [("requestId", .str "6f7f0961f83442118a7af6fe80b88d56"),
              ("metrics", .obj [("durationMs", .num (mkRat 10151 100)),
                ("billedDurationMs", .num 300), ("memorySizeMB", .num 512),
                ("maxMemoryUsedMB", .num 33), ("initDurationMs", .num (mkRat 11667 100))])] },
        none) ∧
    (TelEvent.UnmarshalJSON exampleLib {} (some reportSampleJSON)).1.Record
      = { RequestID := "6f7f0961f83442118a7af6fe80b88d56", Status := "",
          Metrics :=
            { DurationMs := mkRat 10151 100, BilledDurationMs := 300, MemorySizeMB := 512,
              MaxMemoryUsedMB := 33, InitDurationMs := mkRat 11667 100 } } ∧
    ((mkRat 10151 100 : Rat) = 101.51 ∧ (mkRat 11667 100 : Rat) = 116.67) ∧
    TelEvent.UnmarshalJSON exampleLib {} (some runtimeDoneObjectJSON)
      = ({ Time := 1612468805123000000, Typ := "platform.runtimeDone",
           Record :=
            { RequestID := "6f7f0961f83442118a7af6fe80b88", Status := "success",
              Metrics := {} } }, none) ∧
    TelEvent.UnmarshalJSON exampleLib {} (some mergedReportJSON)
      = ({ Time := 1597926692123000000, Typ := "platform.report",
           Record :=
            { RequestID := "B", Status := "",
              Metrics := { DurationMs := 20, MemorySizeMB := 512 } } }, none) ∧
    ((TelEvent.UnmarshalJSON exampleLib {} (some numberRequestIdJSON)).2 = none ↔
      typedRecord exampleLib [("requestId", .num 5)] = true) :=
  ⟨((typed_object_record_decodes exampleLib _).2.1 "2020-08-20T12:31:32.123Z"
      "platform.report" 1597926692123000000 rfl).2 (by decide),
    by decide, ⟨by norm_num [Rat.mkRat_eq_div], by norm_num [Rat.mkRat_eq_div]⟩, by decide,
    by decide,
    ((typed_object_record_decodes exampleLib [("requestId", .num 5)]).2.1
      "2020-08-20T12:31:32.123Z" "platform.report" 1597926692123000000 rfl).1⟩

/-! ## Reading the function-log document back (C12) -/

/-- A way to write a character is read back as the character. -/
theorem unquoteBody_escapes (c : Char) (text rest : List Char) (h : EscapesChar c text) :
    unquoteBody (text ++ rest) =
      match unquoteBody rest with
      | some r => some (c :: r.1, r.2)
      | none => none := by
  rcases h with ⟨rfl, h1, h2, h3⟩ | ⟨e, he, rfl⟩ | ⟨a, b, x, d, hu, rfl⟩
  · have h4 : ¬ c.toNat < 32 := by omega
    rw [List.singleton_append, unquoteBody.eq_def]
    simp only [h1, h2, h4, if_false]
  · have hne : e ≠ 'u' := by
      rintro rfl
      simp [simpleEscape] at he
    show unquoteBody ('\x5c' :: e :: rest) = _
    rw [unquoteBody.eq_def]
    simp only [hne, he, if_false, if_true]
    cases unquoteBody rest <;> simp
  · show unquoteBody ('\x5c' :: 'u' :: a :: b :: x :: d :: rest) = _
    rw [unquoteBody.eq_def]
    simp only [hu, if_true]
    cases unquoteBody rest <;> simp

/-- The ways to write the characters of a string, one after the other and
followed by a quotation mark, are read back as the string. -/
theorem unquoteBody_parts (rest : List Char) :
    ∀ (cs : List Char) (parts : List (List Char)), List.Forall₂ EscapesChar cs parts →
      unquoteBody (parts.flatten ++ '\x22' :: rest) = some (cs, rest) := by
  intro cs parts h
  induction h with
  | nil => rw [List.flatten_nil, List.nil_append, unquoteBody.eq_def]; simp
  | cons hc _ ih =>
    rw [List.flatten_cons, List.append_assoc, unquoteBody_escapes _ _ _ hc, ih]

/-- What a JSON-string writer writes for `x` is read as the string `x`. -/
theorem parseValue_quoted (quote : String → String) (hq : QuotesJSON quote) (x : String)
    (fuel : Nat) (rest : List Char) :
    parseValue (fuel + 1) ((quote x).data ++ rest) = some (.str x, rest) := by
  obtain ⟨parts, hp, he⟩ := hq x
  rw [he]
  rw [List.cons_append, List.append_assoc, List.singleton_append, parseValue]
  simp [unquoteBody_parts rest _ _ hp]

/-- A key of plain characters is read as it is. -/
theorem unquoteBody_plain (rest : List Char) :
    ∀ k : List Char, k.all plainChar = true → unquoteBody (k ++ '\x22' :: rest) = some (k, rest) := by
  intro k
  induction k with
  | nil => intro _; rw [List.nil_append, unquoteBody.eq_def]; simp
  | cons c k ih =>
    intro h
    simp only [List.all_cons, Bool.and_eq_true] at h
    have hc := h.1
    simp only [plainChar, Bool.and_eq_true, decide_eq_true_eq, bne_iff_ne, ne_eq,
      Bool.not_eq_true', decide_eq_false_iff_not] at hc
    have h4 : ¬ c.toNat < 32 := by omega
    rw [List.cons_append, unquoteBody.eq_def]
    simp [hc.1.1, hc.1.2, h4, ih h.2]

theorem parseMembers_more (fuel : Nat) (k vtrest rest r3 : List Char) (v : JSON)
    (ms : List (String × JSON)) (hk : k.all plainChar = true)
    (hv : parseValue fuel vtrest = some (v, ',' :: rest))
    (hm : parseMembers fuel rest = some (ms, r3)) :
    parseMembers (fuel + 1) ('\x22' :: (k ++ '\x22' :: ':' :: vtrest))
      = some ((String.mk k, v) :: ms, r3) := by
  rw [parseMembers]
  simp [unquoteBody_plain _ k hk, hv, hm]

theorem parseMembers_last (fuel : Nat) (k vtrest rest : List Char) (v : JSON)
    (hk : k.all plainChar = true)
    (hv : parseValue fuel vtrest = some (v, '\x7d' :: rest)) :
    parseMembers (fuel + 1) ('\x22' :: (k ++ '\x22' :: ':' :: vtrest))
      = some ([(String.mk k, v)], rest) := by
  rw [parseMembers]
  simp [unquoteBody_plain _ k hk, hv]

theorem parseValue_object (fuel : Nat) (mt r : List Char) (ms : List (String × JSON))
    (hne : mt.head? ≠ some '\x7d') (hm : parseMembers fuel mt = some (ms, r)) :
    parseValue (fuel + 1) ('\x7b' :: mt) = some (.obj ms, r) := by
  rw [parseValue]
  simp [hne, hm]

theorem takeWhile_digits (r rest : List Char) (hr : r.all Char.isDigit = true)
    (hrest : ∀ c, rest.head? = some c → c.isDigit = false) :
    (r ++ rest).takeWhile Char.isDigit = r ∧ (r ++ rest).dropWhile Char.isDigit = rest := by
  have hall : ∀ a ∈ r, Char.isDigit a = true := by simpa using hr
  have h0 : rest.takeWhile Char.isDigit = [] ∧ rest.dropWhile Char.isDigit = rest := by
    cases rest with
    | nil => simp
    | cons c rest =>
      have := hrest c rfl
      simp [List.takeWhile_cons, List.dropWhile_cons, this]
  rw [List.takeWhile_append_of_pos hall, List.dropWhile_append_of_pos hall, h0.1, h0.2]
  simp

theorem readInteger_text (ts : String) (h : isJSONInteger ts = true) (rest : List Char)
    (hrest : ∀ c, rest.head? = some c → c.isDigit = false) :
    readInteger (ts.data ++ rest) = some (integerValue ts, rest) := by
  unfold isJSONInteger at h
  unfold integerValue
  rcases hd : ts.data with _ | ⟨c, r⟩
  · rw [hd] at h; simp at h
  · rw [hd] at h
    simp only at h ⊢
    by_cases hc : c = '-'
    · subst hc
      simp only [if_true, plainDigits, Bool.and_eq_true, Bool.not_eq_true', Bool.or_eq_true,
        bne_iff_ne, ne_eq, beq_iff_eq] at h
      obtain ⟨⟨hne, hall⟩, hz⟩ := h
      obtain ⟨t1, t2⟩ := takeWhile_digits r rest hall hrest
      have hne2 : r ≠ [] := by
        intro h0; rw [h0] at hne; simp at hne
      have hz2 : ¬ (r.head? = some '0' ∧ r ≠ ['0']) := by
        rintro ⟨a, b⟩
        rcases hz with hz | hz
        · exact hz a
        · exact b hz
      rw [List.cons_append, readInteger]
      simp only [if_true, t1, t2, hne2, hz2, or_self, if_false]
    · simp only [if_neg hc, plainDigits, Bool.and_eq_true, Bool.not_eq_true', Bool.or_eq_true,
        bne_iff_ne, ne_eq, beq_iff_eq] at h
      obtain ⟨⟨hne, hall⟩, hz⟩ := h
      obtain ⟨t1, t2⟩ := takeWhile_digits (c :: r) rest hall hrest
      have hz2 : ¬ ((c :: r).head? = some '0' ∧ c :: r ≠ ['0']) := by
        rintro ⟨a, b⟩
        rcases hz with hz | hz
        · exact hz a
        · exact b hz
      rw [List.cons_append, readInteger]
      rw [List.cons_append] at t1 t2
      simp only [if_neg hc, t1, t2, hz2, or_false, if_false]
      simp

theorem parseValue_integer (ts : String) (h : isJSONInteger ts = true) (fuel : Nat)
    (rest : List Char) (hrest : ∀ c, rest.head? = some c → c.isDigit = false) :
    parseValue (fuel + 1) (ts.data ++ rest) = some (.num (integerValue ts), rest) := by
  have hread := readInteger_text ts h rest hrest
  have hfirst : ∃ c r, ts.data = c :: r ∧ (c = '-' ∨ c.isDigit = true) := by
    unfold isJSONInteger at h
    rcases hd : ts.data with _ | ⟨c, r⟩
    · rw [hd] at h; simp at h
    · rw [hd] at h
      refine ⟨c, r, rfl, ?_⟩
      by_cases hc : c = '-'
      · exact Or.inl hc
      · right
        simp only [if_neg hc, plainDigits, List.all_cons, Bool.and_eq_true] at h
        exact h.1.2.1
  obtain ⟨c, r, hd, hc⟩ := hfirst
  rw [hd] at hread ⊢
  have hne : ∀ d : Char, d ≠ '-' → d.isDigit = false → c ≠ d := by
    intro d h1 h2
    rcases hc with rfl | hc
    · exact fun h => h1 h.symm
    · rintro rfl
      rw [hc] at h2
      cases h2
  have n1 := hne '\x7b' (by decide) (by decide)
  have n2 := hne '[' (by decide) (by decide)
  have n3 := hne '\x22' (by decide) (by decide)
  have n4 := hne 'n' (by decide) (by decide)
  have n5 := hne 't' (by decide) (by decide)
  have n6 := hne 'f' (by decide) (by decide)
  rw [List.cons_append] at hread ⊢
  rw [parseValue]
  simp [n1, n2, n3, n4, n5, n6, hread]

theorem functionLogText_data (m t i e : String) :
    (functionLogText m t i e).data =
      '\x7b' :: '\x22' :: ("telemetry".data ++ '\x22' :: ':' ::
        '\x7b' :: '\x22' :: ("message".data ++ '\x22' :: ':' :: (m.data ++ ',' ::
          '\x22' :: ("@timestamp".data ++ '\x22' :: ':' :: (t.data ++ ',' ::
          '\x22' :: ("faas".data ++ '\x22' :: ':' ::
            '\x7b' :: '\x22' :: ("id".data ++ '\x22' :: ':' :: (i.data ++ ',' ::
              '\x22' :: ("execution".data ++ '\x22' :: ':' :: (e.data ++
                ['\x7d', '\x7d', '\x7d'])))))))))) := by
  rw [functionLogText_eq]
  simp only [String.data_append, List.append_assoc]
  rfl

/-- The documented shape, filled with JSON strings and a JSON integer, is the
text of the JSON object with these members and no other. -/
theorem functionLogText_parses (quote : String → String) (hq : QuotesJSON quote)
    (s ts arn rid : String) (hInt : isJSONInteger ts = true) :
    parseJSON (functionLogText (quote s) ts (quote arn) (quote rid))
      = some (.obj [("telemetry", .obj [("message", .str s),
          ("@timestamp", .num (integerValue ts)),
          ("faas", .obj [("id", .str arn), ("execution", .str rid)])])]) := by
  have hdata := functionLogText_data (quote s) ts (quote arn) (quote rid)
  have hlen : 10 ≤ (functionLogText (quote s) ts (quote arn) (quote rid)).length := by
    show 10 ≤ (functionLogText (quote s) ts (quote arn) (quote rid)).data.length
    rw [hdata]
    simp only [List.length_cons, List.length_append]
    omega
  obtain ⟨k, hk⟩ := Nat.exists_eq_add_of_le hlen
  have h1 := parseValue_quoted quote hq rid k ['\x7d', '\x7d', '\x7d']
  have h2 := parseMembers_last (k + 1) "execution".data _ _ _ (by decide) h1
  have h3 := parseValue_quoted quote hq arn (k + 1)
    (',' :: '\x22' :: ("execution".data ++ '\x22' :: ':' :: ((quote rid).data ++
      ['\x7d', '\x7d', '\x7d'])))
  have h4 := parseMembers_more (k + 2) "id".data _ _ _ _ _ (by decide) h3 h2
  have h5 := parseValue_object (k + 3) _ _ _ (by simp) h4
  have h6 := parseMembers_last (k + 4) "faas".data _ _ _ (by decide) h5
  have h7 := parseValue_integer ts hInt (k + 4)
    (',' :: '\x22' :: ("faas".data ++ '\x22' :: ':' ::
      '\x7b' :: '\x22' :: ("id".data ++ '\x22' :: ':' :: ((quote arn).data ++ ',' ::
        '\x22' :: ("execution".data ++ '\x22' :: ':' :: ((quote rid).data ++
          ['\x7d', '\x7d', '\x7d']))))))
    (by intro c hc; simp at hc; subst hc; decide)
  have h8 := parseMembers_more (k + 5) "@timestamp".data _ _ _ _ _ (by decide) h7 h6
  have h9 := parseValue_quoted quote hq s (k + 5)
    (',' :: '\x22' :: ("@timestamp".data ++ '\x22' :: ':' :: (ts.data ++ ',' ::
      '\x22' :: ("faas".data ++ '\x22' :: ':' ::
      '\x7b' :: '\x22' :: ("id".data ++ '\x22' :: ':' :: ((quote arn).data ++ ',' ::
        '\x22' :: ("execution".data ++ '\x22' :: ':' :: ((quote rid).data ++
          ['\x7d', '\x7d', '\x7d']))))))))
  have h10 := parseMembers_more (k + 6) "message".data _ _ _ _ _ (by decide) h9 h8
  have h11 := parseValue_object (k + 7) _ _ _ (by simp) h10
  have h12 := parseMembers_last (k + 8) "telemetry".data _ _ _ (by decide) h11
  have h13 := parseValue_object (k + 9) _ _ _ (by simp) h12
  unfold parseJSON
  rw [hk, hdata, Nat.add_comm 10 k, h13]

theorem unicodeEscape_ascii :
    ∀ n, n < 128 →
      unicodeEscape '0' '0' (hexDigit (n / 16)) (hexDigit (n % 16)) = some (Char.ofNat n) := by
  decide

/-- Every character is written by `escapeChar` in one of the ways JSON has for
it. -/
theorem escapeChar_escapes (c : Char) : EscapesChar c (escapeChar c) := by
  have hc : Char.ofNat c.toNat = c := Char.ofNat_toNat c
  unfold escapeChar
  split_ifs with h1 h2 h3 h4 h5 h6 h7
  · exact Or.inr (Or.inl ⟨'\x22', by rw [h1]; rfl, rfl⟩)
  · exact Or.inr (Or.inl ⟨'\x5c', by rw [h2]; rfl, rfl⟩)
  · exact Or.inr (Or.inl ⟨'n', by rw [h3]; rfl, rfl⟩)
  · exact Or.inr (Or.inl ⟨'r', by rw [h4]; rfl, rfl⟩)
  · exact Or.inr (Or.inl ⟨'t', by rw [h5]; rfl, rfl⟩)
  · have hlt : c.toNat < 128 := by
      rcases h6 with h | rfl | rfl | rfl
      · omega
      · decide
      · decide
      · decide
    refine Or.inr (Or.inr ⟨'0', '0', _, _, ?_, rfl⟩)
    rw [unicodeEscape_ascii c.toNat hlt, hc]
  · refine Or.inr (Or.inr ⟨'2', '0', '2', _, ?_, rfl⟩)
    rcases h7 with h | h
    · rw [← hc, h]; decide
    · rw [← hc, h]; decide
  · refine Or.inl ⟨rfl, h1, h2, ?_⟩
    have : ¬ c.toNat < 32 := fun h => h6 (Or.inl h)
    omega

/-- The `quote` of `escapingLib` writes JSON strings. -/
theorem escapingLib_quotes : QuotesJSON escapingLib.quote := by
  intro s
  refine ⟨s.data.map escapeChar, ?_, ?_⟩
  · generalize s.data = cs
    induction cs with
    | nil => exact List.Forall₂.nil
    | cons c cs ih => exact List.Forall₂.cons (escapeChar_escapes c) ih
  · simp [escapingLib, List.flatMap]

/-- C12: round trip of a function log line, for a library that writes JSON
strings and writes the timestamp as a JSON integer, without error. An event
whose record is the JSON string with value `s` (any text that writes `s` as a
JSON string is read as that string) is decoded by `UnmarshalJSON` to
`StringRecord = s`, and the decoded event is encoded by
`ProcessFunctionTelemetry` as a document of the documented shape that is
well-formed JSON: read back, it is the object whose only key `telemetry` holds
`message`, the string `s` itself, `@timestamp` and `faas`, which holds `id`, the
ARN, and `execution`, the request id, and no other key, so no cold-start field;
and documents of different messages, ARNs or request ids differ. -/
theorem function_log_round_trip (L : Lib) (ts ty s requestID arn : String) (t : GoTime)
    (hQuote : QuotesJSON L.quote)
    (hParse : L.parseTime ts = .ok t) (hTime : (L.marshalTime t).2 = none)
    (hInt : isJSONInteger (L.marshalTime t).1 = true) :
    ∃ te doc,
      TelEvent.UnmarshalJSON L {}
        (some (.obj [("time", .str ts), ("type", .str ty), ("record", .str s)])) = (te, none) ∧
      te.StringRecord = s ∧
      ProcessFunctionTelemetry L requestID arn te = .ok doc ∧
      doc = functionLogText (L.quote s) (L.marshalTime t).1 (L.quote arn) (L.quote requestID) ∧
      parseJSON doc
        = some (.obj [("telemetry", .obj [("message", .str s),
            ("@timestamp", .num (integerValue (L.marshalTime t).1)),
            ("faas", .obj [("id", .str arn), ("execution", .str requestID)])])]) ∧
      (∀ fuel rest, parseValue (fuel + 1) ((L.quote s).data ++ rest) = some (.str s, rest)) ∧
      (∀ s2 arn2 requestID2,
        functionLogText (L.quote s2) (L.marshalTime t).1 (L.quote arn2) (L.quote requestID2)
          = doc → s2 = s ∧ arn2 = arn ∧ requestID2 = requestID) := by
  have hd := UnmarshalJSON_string_record L _ _ s
    (unmarshalEnvelope_canonical L ts ty t (.str s) hParse) rfl
  have hdoc : ProcessFunctionTelemetry L requestID arn { Time := t, Typ := ty, StringRecord := s }
      = .ok (functionLogText (L.quote s) (L.marshalTime t).1 (L.quote arn)
          (L.quote requestID)) :=
    (ProcessFunctionTelemetry_ok L requestID arn _ hTime).trans
      (congrArg Except.ok (functionLogText_eq _ _ _ _).symm)
  have hp := functionLogText_parses L.quote hQuote s (L.marshalTime t).1 arn requestID hInt
  refine ⟨_, _, hd, rfl, hdoc, rfl, hp,
    fun fuel rest => parseValue_quoted L.quote hQuote s fuel rest, ?_⟩
  intro s2 arn2 requestID2 h
  have hp2 := functionLogText_parses L.quote hQuote s2 (L.marshalTime t).1 arn2 requestID2 hInt
  rw [h, hp] at hp2
  simp only [Option.some.injEq, JSON.obj.injEq, List.cons.injEq, Prod.mk.injEq, JSON.str.injEq,
    true_and, and_true] at hp2
  exact ⟨hp2.1.symm, hp2.2.1.symm, hp2.2.2.symm⟩

/-- C12, worked example: a function line with a quotation mark, a backslash, a
line feed and an angle bracket, decoded and encoded again for the ARN `arn` and
the request `A` by the library that escapes; and a text with a quotation mark
as the two libraries of the examples quote it: escaped it is well-formed, as it
is it is not. -/
theorem function_log_round_trip_witness :
    (∃ te doc,
      TelEvent.UnmarshalJSON escapingLib {}
        (some (.obj [("time", .str "2021-02-04T20:00:05.123Z"), ("type", .str "function"),
          ("record", .str "say \"hi\" \\ \n<b>")])) = (te, none) ∧
      te.StringRecord = "say \"hi\" \\ \n<b>" ∧
      ProcessFunctionTelemetry escapingLib "A" "arn" te = .ok doc ∧
      parseJSON doc
        = some (.obj [("telemetry", .obj [("message", .str "say \"hi\" \\ \n<b>"),
            ("@timestamp", .num (integerValue
              (escapingLib.marshalTime 1612468805123000000).1)),
            ("faas", .obj [("id", .str "arn"), ("execution", .str "A")])])])) ∧
    functionLogText (escapingLib.quote "say \"hi\" \\ \n<b>")
        (escapingLib.marshalTime 1612468805123000000).1
        (escapingLib.quote "arn") (escapingLib.quote "A")
      = "\x7b\"telemetry\":\x7b\"message\":\"say \\\"hi\\\" \\\\ \\n\\u003cb\\u003e\"," ++
        "\"@timestamp\":1612468805123000," ++
        "\"faas\":\x7b\"id\":\"arn\",\"execution\":\"A\"\x7d\x7d\x7d" ∧
    integerValue (escapingLib.marshalTime 1612468805123000000).1 = 1612468805123000 ∧
    (parseJSON (escapingLib.quote "a\"b")).isSome = true ∧
    (parseJSON (exampleLib.quote "a\"b")).isSome = false :=
  ⟨(function_log_round_trip escapingLib "2021-02-04T20:00:05.123Z" "function"
      "say \"hi\" \\ \n<b>" "A" "arn" 1612468805123000000 escapingLib_quotes rfl rfl
      (by decide)).imp
      (fun _ h => h.imp (fun _ h2 => ⟨h2.1, h2.2.1, h2.2.2.1, h2.2.2.2.2.1⟩)),
    by decide, by rfl, by decide, by decide⟩

end telemetryapi
